import Mathlib

/-! F1AP setup-request codec: a shallow embedding

The Go sources `common.go` and `F1apSetupRequest.go` are embedded as pure Lean
functions.  Go errors are modelled by their text (`Option String`, `none` being the
nil error); a pointer receiver that is mutated in place becomes explicit state that
is returned together with the error, so that the state reached on a failing path is
visible as well.

The primitive codec `github.com/lvdund/ngap/aper` and the helper
`github.com/reogac/utils` are external packages.  Their operations are modelled on
the aligned variant of the Packed Encoding Rules (ITU-T X.691), restricted to the
constraint shapes that the two source files actually pass to them.
-/

namespace F1ap

/-! ## Bits and octets -/

/-- Go `error` values, identified with their text; `none` is the nil error. -/
abbrev Error := String

/-- Big-endian bit field of width `n` holding `v` (modulo `2 ^ n`). -/
def natToBits : Nat → Nat → List Bool
  | 0, _ => []
  | n + 1, v => natToBits n (v / 2) ++ [v % 2 == 1]

/-- Value of a big-endian bit field. -/
def bitsToNat (bs : List Bool) : Nat :=
  bs.foldl (fun acc b => 2 * acc + (if b then 1 else 0)) 0

/-- Octets to bits, most significant bit first. -/
def bytesToBits : List Nat → List Bool
  | [] => []
  | b :: bs => natToBits 8 b ++ bytesToBits bs

/-- Bits to octets, most significant bit first; an incomplete trailing octet is dropped. -/
def bitsToBytes : List Bool → List Nat
  | b0 :: b1 :: b2 :: b3 :: b4 :: b5 :: b6 :: b7 :: rest =>
      bitsToNat [b0, b1, b2, b3, b4, b5, b6, b7] :: bitsToBytes rest
  | _ => []

/-- Number of padding bits that bring bit position `pos` to an octet boundary. -/
def padLen (pos : Nat) : Nat := (8 - pos % 8) % 8

/-- Width of the bit field of a constrained whole number whose range is at most 255
(X.691 10.5.7.1). -/
def numBits (range : Nat) : Nat :=
  if range ≤ 1 then 0
  else if range ≤ 2 then 1
  else if range ≤ 4 then 2
  else if range ≤ 8 then 3
  else if range ≤ 16 then 4
  else if range ≤ 32 then 5
  else if range ≤ 64 then 6
  else if range ≤ 128 then 7
  else 8

/-- The value bounds `aper.Constraint{Lb, Ub}`; every bound in the sources is a
non-negative constant. -/
structure Constraint where
  Lb : Nat
  Ub : Nat
  deriving DecidableEq, Repr

/-- The number of values a constraint admits, `Constraint.Range()`. -/
def Constraint.Range (c : Constraint) : Nat := c.Ub - c.Lb + 1

/-- The constant `aper.POW_16`. -/
def POW_16 : Nat := 65536

/-! ## The reader side of the primitive codec -/

/-- Model of `aper.AperReader`: the bits not yet consumed and the count of bits consumed
so far (which determines octet alignment). -/
structure AperReader where
  bits : List Bool
  pos : Nat
  deriving DecidableEq, Repr

/-- Model of `aper.NewReader(bytes.NewReader(wire))`. -/
def NewReader (wire : List Nat) : AperReader := ⟨bytesToBits wire, 0⟩

/-- Read an `n`-bit field. -/
def AperReader.readBits (r : AperReader) (n : Nat) : Except Error (Nat × AperReader) :=
  if r.bits.length < n then .error "EOF"
  else .ok (bitsToNat (r.bits.take n), ⟨r.bits.drop n, r.pos + n⟩)

/-- Skip to the next octet boundary. -/
def AperReader.align (r : AperReader) : AperReader :=
  ⟨r.bits.drop (padLen r.pos), r.pos + padLen r.pos⟩

/-- Read `n` whole octets. -/
def AperReader.readBytes : AperReader → Nat → Except Error (List Nat × AperReader)
  | r, 0 => .ok ([], r)
  | r, n + 1 =>
    match r.readBits 8 with
    | .error e => .error e
    | .ok (b, r1) =>
      match AperReader.readBytes r1 n with
      | .error e => .error e
      | .ok (bs, r2) => .ok (b :: bs, r2)

/-- Read a constrained whole number given its range (X.691 10.5.7): a minimal bit field
for ranges up to 255, one aligned octet for 256, two aligned octets up to 65536.  Larger
ranges are not used by the sources and are not modelled. -/
def AperReader.readConstraintValue (r : AperReader) (range : Nat) :
    Except Error (Nat × AperReader) :=
  if range ≤ 255 then r.readBits (numBits range)
  else if range = 256 then r.align.readBits 8
  else if range ≤ 65536 then r.align.readBits 16
  else .error "unsupported range"

/-- Model of `AperReader.ReadBool`. -/
def AperReader.ReadBool (r : AperReader) : Except Error (Bool × AperReader) :=
  match r.readBits 1 with
  | .error e => .error e
  | .ok (v, r1) => .ok (v == 1, r1)

/-- Model of `AperReader.ReadInteger(c, e)`: an optional extension bit (which must be
clear), then the offset from the lower bound as a constrained whole number. -/
def AperReader.ReadInteger (r : AperReader) (c : Constraint) (e : Bool) :
    Except Error (Nat × AperReader) :=
  match (if e then r.readBits 1 else .ok (0, r)) with
  | .error err => .error err
  | .ok (x, r1) =>
    if x = 1 then .error "extended value" else
    match r1.readConstraintValue c.Range with
    | .error err => .error err
    | .ok (v, r2) => .ok (c.Lb + v, r2)

/-- Model of `AperReader.ReadEnumerate(c, e)`: the index of an enumerated value is a
constrained whole number over its bounds. -/
def AperReader.ReadEnumerate (r : AperReader) (c : Constraint) (e : Bool) :
    Except Error (Nat × AperReader) :=
  r.ReadInteger c e

/-- Model of `AperReader.ReadOpenType`: an aligned, unconstrained length determinant
(X.691 10.9.3.6 and 10.9.3.7: one octet below 128, two octets below 16384) followed by
that many octets.  Fragmented lengths are not modelled. -/
def AperReader.ReadOpenType (r : AperReader) : Except Error (List Nat × AperReader) :=
  match r.align.readBits 8 with
  | .error err => .error err
  | .ok (b, r1) =>
    if b < 128 then r1.readBytes b
    else if b < 192 then
      match r1.readBits 8 with
      | .error err => .error err
      | .ok (b2, r2) => r2.readBytes ((b - 128) * 256 + b2)
    else .error "unsupported length"

/-- The element loop of `aper.ReadSequenceOf`: call the element decoder `n` times and stop
at the first error.  The decoder is a closure over mutable state, modelled by threading
the state `s` through the calls. -/
def readItems {σ : Type} (decoder : σ → AperReader → σ × AperReader × Option Error) :
    Nat → σ → AperReader → σ × AperReader × Option Error
  | 0, s, r => (s, r, none)
  | n + 1, s, r =>
    match decoder s r with
    | (s1, r1, some err) => (s1, r1, some err)
    | (s1, r1, none) => readItems decoder n s1 r1

/-- Model of `aper.ReadSequenceOf(decoder, r, c, e)`: the element count as a constrained
whole number over the size bounds, then the elements. -/
def ReadSequenceOf {σ : Type} (decoder : σ → AperReader → σ × AperReader × Option Error)
    (s : σ) (r : AperReader) (c : Constraint) (e : Bool) : σ × AperReader × Option Error :=
  match r.ReadInteger c e with
  | .error err => (s, r, some err)
  | .ok (n, r1) => readItems decoder n s r1

/-! ## The writer side of the primitive codec -/

/-- Model of `aper.AperWriter`: the bits written so far. -/
structure AperWriter where
  bits : List Bool
  deriving DecidableEq, Repr

/-- Model of `aper.NewWriter(w)` on an empty sink. -/
def NewWriter : AperWriter := ⟨[]⟩

/-- Append an `n`-bit field. -/
def AperWriter.writeBits (w : AperWriter) (n v : Nat) : AperWriter :=
  ⟨w.bits ++ natToBits n v⟩

/-- Pad with zero bits to the next octet boundary. -/
def AperWriter.align (w : AperWriter) : AperWriter :=
  ⟨w.bits ++ List.replicate (padLen w.bits.length) false⟩

/-- Model of `AperWriter.Close`: flush the last octet, zero padded; the result is the
content of the sink. -/
def AperWriter.Close (w : AperWriter) : List Nat := bitsToBytes w.align.bits

/-- The whole octets a writer has already passed to its sink before `Close`. -/
def AperWriter.flushed (w : AperWriter) : List Nat := bitsToBytes w.bits

/-- Write a constrained whole number given its range, mirroring `readConstraintValue`. -/
def AperWriter.writeConstraintValue (w : AperWriter) (range v : Nat) : Except Error AperWriter :=
  if range ≤ 255 then .ok (w.writeBits (numBits range) v)
  else if range = 256 then .ok (w.align.writeBits 8 v)
  else if range ≤ 65536 then .ok (w.align.writeBits 16 v)
  else .error "unsupported range"

/-- Model of `AperWriter.WriteBool`. -/
def AperWriter.WriteBool (w : AperWriter) (b : Bool) : Except Error AperWriter :=
  .ok (w.writeBits 1 (if b then 1 else 0))

/-- Append whole octets. -/
def AperWriter.writeBytes (w : AperWriter) (bs : List Nat) : AperWriter :=
  ⟨w.bits ++ bytesToBits bs⟩

/-- The octets of a whole number, most significant first, at most `n + 1` of them. -/
def natOctets : Nat → Nat → List Nat
  | 0, v => [v % 256]
  | n + 1, v => if v < 256 then [v] else natOctets n (v / 256) ++ [v % 256]

/-- The content octets of a non-negative unconstrained whole number (X.691 10.8): the
shortest two's-complement form, so a leading zero octet when the top bit would be set. -/
def intOctets (v : Nat) : List Nat :=
  match natOctets 7 v with
  | [] => [0]
  | b :: bs => if 128 ≤ b then 0 :: b :: bs else b :: bs

/-- Model of `AperWriter.WriteInteger(v, c, e)`.  The writer does not reject a value outside
the bounds: with the extension flag it sets the extension bit and writes the value as an
unconstrained whole number (aligned length octet, then the content octets); without the
flag it writes the offset from the lower bound into the constrained field as it is. -/
def AperWriter.WriteInteger (w : AperWriter) (v : Nat) (c : Constraint) (e : Bool) :
    Except Error AperWriter :=
  if e ∧ (v < c.Lb ∨ c.Ub < v) then
    .ok ((((w.writeBits 1 1).align).writeBits 8 (intOctets v).length).writeBytes (intOctets v))
  else (if e then w.writeBits 1 0 else w).writeConstraintValue c.Range (v - c.Lb)

/-- Model of `AperWriter.WriteEnumerate(v, c, e)`. -/
def AperWriter.WriteEnumerate (w : AperWriter) (v : Nat) (c : Constraint) (e : Bool) :
    Except Error AperWriter :=
  w.WriteInteger v c e

/-- Model of `AperWriter.WriteChoice(v, uBound, e)`: the zero-based index `v - 1` as a
constrained whole number over `0..uBound`.  The extension bit of an extensible choice is
written by the caller with `WriteBool` (the wire format has one leading extension bit, then
the choice tag), so the flag `e` does not change the bits of an index within the bounds. -/
def AperWriter.WriteChoice (w : AperWriter) (v uBound : Nat) (_e : Bool) : Except Error AperWriter :=
  if v < 1 ∨ uBound + 1 < v then .error "choice out of range"
  else w.writeConstraintValue (uBound + 1) (v - 1)

/-- Model of `AperWriter.WriteOpenType`, mirroring `ReadOpenType`. -/
def AperWriter.WriteOpenType (w : AperWriter) (bs : List Nat) : Except Error AperWriter :=
  if bs.length < 128 then .ok ((w.align.writeBits 8 bs.length).writeBytes bs)
  else if bs.length < 16384 then
    .ok (((w.align.writeBits 8 (128 + bs.length / 256)).writeBits 8 (bs.length % 256)).writeBytes bs)
  else .error "unsupported length"

/-- The element loop of `aper.WriteSequenceOf`. -/
def writeItems {α : Type} (enc : α → AperWriter → Except Error AperWriter) :
    List α → AperWriter → Except Error AperWriter
  | [], w => .ok w
  | x :: xs, w =>
    match enc x w with
    | .error err => .error err
    | .ok w1 => writeItems enc xs w1

/-- Model of `aper.WriteSequenceOf(items, w, c, e)`: the element count over the size
bounds, then each element through its own `Encode`. -/
def WriteSequenceOf {α : Type} (enc : α → AperWriter → Except Error AperWriter)
    (items : List α) (w : AperWriter) (c : Constraint) (e : Bool) : Except Error AperWriter :=
  match w.WriteInteger items.length c e with
  | .error err => .error err
  | .ok w1 => writeItems enc items w1

/-! ## Error helpers -/

/-- The function `msgErrors` of common.go. -/
def msgErrors (err1 err2 : Option Error) : Option Error :=
  match err1, err2 with
  | none, none => none
  | none, some e2 => some e2
  | some e1, none => some e1
  | some e1, some e2 => some (e1 ++ ": " ++ e2)

/-- Model of the external helper `utils.WrapError(text, err)`: nil when the cause is nil,
otherwise the text, the joiner ` <<= ` and the cause. -/
def WrapError (text : String) (err : Option Error) : Option Error :=
  match err with
  | none => none
  | some e => some (text ++ " <<= " ++ e)

/-! ## Constants of common.go -/

def F1apPresentNothing : Nat := 0
def F1apPduInitiatingMessage : Nat := 1
def F1apPduSuccessfulOutcome : Nat := 2
def F1apPduUnsuccessfulOutcome : Nat := 3

def ProcedureCode_F1Setup : Nat := 1

def Criticality_PresentReject : Nat := 0
def Criticality_PresentIgnore : Nat := 1
def Criticality_PresentNotify : Nat := 2

def ProtocolIEID_gNBDUID : Nat := 42
def ProtocolIEID_gNBDUServedCellsList : Nat := 44
def ProtocolIEID_gNBDUName : Nat := 45
def ProtocolIEID_TransactionID : Nat := 78
def ProtocolIEID_GNBDURRCVersion : Nat := 171
def ProtocolIEID_TransportLayerAddressInfo : Nat := 254
def ProtocolIEID_BAPAddress : Nat := 281
def ProtocolIEID_ExtendedGNBCUName : Nat := 427

/-- Modelled from the spec: the error kinds of a diagnostics item (`TypeOfError`) are
declared outside the two source files; the spec names exactly two kinds, NotUnderstood and
Missing, numbered here in the order of the protocol's enumeration. -/
def TypeOfErrorNotunderstood : Nat := 0

/-- Modelled from the spec: see `TypeOfErrorNotunderstood`. -/
def TypeOfErrorMissing : Nat := 1

/-! ## Header types of common.go -/

structure ProcedureCode where
  Value : Nat
  deriving DecidableEq, Repr

structure Criticality where
  Value : Nat
  deriving DecidableEq, Repr

structure ProtocolIEID where
  Value : Nat
  deriving DecidableEq, Repr

/-- Modelled from the spec: the wrapper type of the error kind, declared outside the two
source files. -/
structure TypeOfError where
  Value : Nat
  deriving DecidableEq, Repr

/-- Modelled from the spec: a diagnostics item is the triple of identifier, criticality and
error kind; the type is declared outside the two source files and is used by them only
through these three fields. -/
structure CriticalityDiagnosticsIEItem where
  IECriticality : Criticality
  IEID : ProtocolIEID
  TypeOfError : TypeOfError
  deriving DecidableEq, Repr

def ProcedureCode.Decode (r : AperReader) : Except Error (ProcedureCode × AperReader) :=
  match r.ReadInteger ⟨0, 2⟩ false with
  | .error err => .error err
  | .ok (v, r1) => .ok (⟨v⟩, r1)

def ProcedureCode.Encode (ie : ProcedureCode) (w : AperWriter) : Except Error AperWriter :=
  w.WriteInteger ie.Value ⟨0, 255⟩ false

def Criticality.Decode (r : AperReader) : Except Error (Criticality × AperReader) :=
  match r.ReadInteger ⟨0, 2⟩ false with
  | .error err => .error err
  | .ok (v, r1) => .ok (⟨v⟩, r1)

def Criticality.Encode (ie : Criticality) (w : AperWriter) : Except Error AperWriter :=
  w.WriteEnumerate ie.Value ⟨0, 2⟩ false

def ProtocolIEID.Decode (r : AperReader) : Except Error (ProtocolIEID × AperReader) :=
  match r.ReadInteger ⟨0, 65535⟩ false with
  | .error err => .error err
  | .ok (v, r1) => .ok (⟨v⟩, r1)

def ProtocolIEID.Encode (ie : ProtocolIEID) (w : AperWriter) : Except Error AperWriter :=
  w.WriteInteger ie.Value ⟨0, 65535⟩ false

/-! ## Value types of the information elements -/

/-- The value types of the setup request's information elements, with their zero-argument
`Decode` and `Encode` methods and the list bound `maxCellingNBDU`.  They are declared in
other files of the package, so the embedding takes them as parameters: a decoder maps a
reader over the value octets to a value or an error, an encoder extends a writer or fails.
`OCTETSTRING` and `Sequence` carry their constraint and extension flag as fields; a Go
byte slice is `Option (List Nat)`, `none` being the nil slice. -/
structure IEValues where
  TransactionID : Type
  GNBDUID : Type
  RRCVersion : Type
  GNBDUServedCellItem : Type
  TransportLayerAddressInfo : Type
  BAPAddress : Type
  ExtendedGNBCUName : Type
  maxCellingNBDU : Nat
  decTransactionID : AperReader → Except Error TransactionID
  encTransactionID : TransactionID → AperWriter → Except Error AperWriter
  decGNBDUID : AperReader → Except Error GNBDUID
  encGNBDUID : GNBDUID → AperWriter → Except Error AperWriter
  decOCTETSTRING : Constraint → Bool → AperReader → Except Error (Option (List Nat))
  encOCTETSTRING : Constraint → Bool → Option (List Nat) → AperWriter → Except Error AperWriter
  decSequence : Constraint → Bool → AperReader → Except Error (List GNBDUServedCellItem)
  encSequence : Constraint → Bool → List GNBDUServedCellItem → AperWriter → Except Error AperWriter
  decRRCVersion : AperReader → Except Error RRCVersion
  encRRCVersion : RRCVersion → AperWriter → Except Error AperWriter
  decTransportLayerAddressInfo : AperReader → Except Error TransportLayerAddressInfo
  encTransportLayerAddressInfo : TransportLayerAddressInfo → AperWriter → Except Error AperWriter
  decBAPAddress : AperReader → Except Error BAPAddress
  encBAPAddress : BAPAddress → AperWriter → Except Error AperWriter
  decExtendedGNBCUName : AperReader → Except Error ExtendedGNBCUName
  encExtendedGNBCUName : ExtendedGNBCUName → AperWriter → Except Error AperWriter

/-- The values that `toIes` stores in the `Value` field (an `aper.AperMarshaller`) of an
information element: one alternative per concrete type it uses. -/
inductive IEValue (V : IEValues) where
  | transactionID (v : V.TransactionID)
  | gNBDUID (v : V.GNBDUID)
  | octetString (c : Constraint) (ext : Bool) (Value : Option (List Nat))
  | sequence (c : Constraint) (ext : Bool) (Value : List V.GNBDUServedCellItem)
  | rrcVersion (v : V.RRCVersion)
  | transportLayerAddressInfo (v : V.TransportLayerAddressInfo)
  | bapAddress (v : V.BAPAddress)
  | extendedGNBCUName (v : V.ExtendedGNBCUName)

/-- The method `Encode` of the value held by an information element. -/
def IEValue.Encode {V : IEValues} : IEValue V → AperWriter → Except Error AperWriter
  | .transactionID v, w => V.encTransactionID v w
  | .gNBDUID v, w => V.encGNBDUID v w
  | .octetString c ext v, w => V.encOCTETSTRING c ext v w
  | .sequence c ext v, w => V.encSequence c ext v w
  | .rrcVersion v, w => V.encRRCVersion v w
  | .transportLayerAddressInfo v, w => V.encTransportLayerAddressInfo v w
  | .bapAddress v, w => V.encBAPAddress v w
  | .extendedGNBCUName v, w => V.encExtendedGNBCUName v w

/-! ## Messages and information elements -/

/-- The type `F1apMessageIE` of common.go; `Value` is `none` for the nil interface, which is
what `decodeIE` leaves in the elements it creates. -/
structure F1apMessageIE (V : IEValues) where
  Id : ProtocolIEID
  Criticality : Criticality
  Value : Option (IEValue V)

/-- The method `F1apMessageIE.Encode` of common.go. -/
def F1apMessageIE.Encode {V : IEValues} (ie : F1apMessageIE V) (w : AperWriter) :
    Except Error AperWriter :=
  match ie.Id.Encode w with
  | .error err => .error err
  | .ok w1 =>
    match ie.Criticality.Encode w1 with
    | .error err => .error err
    | .ok w2 =>
      match ie.Value with
      | none => .error "nil value"
      | some v =>
        match v.Encode NewWriter with
        | .error err => .error err
        | .ok ieW => w2.WriteOpenType ieW.Close

/-- The container part of `encodeMessage` (common.go, lines 36 to 48): the octets of the
buffer `buf` after the container writer is closed. -/
def encodeBody {V : IEValues} (ies : List (F1apMessageIE V)) : Except Error (List Nat) :=
  let cW := NewWriter
  let cW1 := match cW.WriteBool false with
    | .ok w => w
    | .error _ => cW
  match WriteSequenceOf F1apMessageIE.Encode ies cW1 ⟨0, POW_16 - 1⟩ false with
  | .error err => .error err
  | .ok cW2 => .ok cW2.Close

/-- The function `encodeMessage` of common.go.  The result is the returned error and the
octets that have reached the sink `w`. -/
def encodeMessage {V : IEValues} (present procedureCode criticality : Nat)
    (ies : List (F1apMessageIE V)) : Option Error × List Nat :=
  let aw := NewWriter
  match aw.WriteBool false with
  | .error err => (some err, aw.flushed)
  | .ok aw1 =>
    match aw1.WriteChoice present 2 true with
    | .error err => (some err, aw1.flushed)
    | .ok aw2 =>
      match (ProcedureCode.mk procedureCode).Encode aw2 with
      | .error err => (some err, aw2.flushed)
      | .ok aw3 =>
        match (Criticality.mk criticality).Encode aw3 with
        | .error err => (some err, aw3.flushed)
        | .ok aw4 =>
          if ies.length = 0 then (some "empty message", aw4.flushed)
          else
            match encodeBody ies with
            | .error err => (some err, aw4.flushed)
            | .ok buf =>
              match aw4.WriteOpenType buf with
              | .error err => (some err, aw4.flushed)
              | .ok aw5 => (none, aw5.Close)

/-- The message type `F1SetupRequest`.  A pointer field is an `Option`, `none` being nil;
the byte slice `GNBDUName` likewise; the served-cells slice is a list, nil and empty
coinciding (the sources only take its length, range over it and append to it). -/
structure F1SetupRequest (V : IEValues) where
  TransactionID : V.TransactionID
  GNBDUID : V.GNBDUID
  GNBDUName : Option (List Nat)
  GNBDUServedCellsList : List V.GNBDUServedCellItem
  GNBDURRCVersion : V.RRCVersion
  TransportLayerAddressInfo : Option V.TransportLayerAddressInfo
  BAPAddress : Option V.BAPAddress
  ExtendedGNBCUName : Option V.ExtendedGNBCUName

/-- Append `x` when the condition holds: an `if cond { ies = append(ies, x) }` block. -/
def appendIf {α : Type} (cond : Bool) (x : α) (ies : List α) : List α :=
  if cond then ies ++ [x] else ies

/-- The loop `for _, i := range list { Value = append(Value, &i) }` of `toIes`; every
iteration has its own variable `i` (the loop semantics of Go 1.22 and later), so the k-th
pointer refers to a copy of the k-th element. -/
def rangeAppend {α : Type} (list : List α) : List α :=
  list.foldl (fun acc i => acc ++ [i]) []

/-- The method `F1SetupRequest.toIes`: the list built so far and the error.  In the branch
for an empty served-cells list the result `err` is still nil when it is handed to
`utils.WrapError` as the cause. -/
def F1SetupRequest.toIes {V : IEValues} (msg : F1SetupRequest V) :
    List (F1apMessageIE V) × Option Error :=
  let ies : List (F1apMessageIE V) := []
  let ies := ies ++ [⟨⟨ProtocolIEID_TransactionID⟩, ⟨Criticality_PresentReject⟩,
    some (.transactionID msg.TransactionID)⟩]
  let ies := ies ++ [⟨⟨ProtocolIEID_gNBDUID⟩, ⟨Criticality_PresentReject⟩,
    some (.gNBDUID msg.GNBDUID)⟩]
  let ies := appendIf msg.GNBDUName.isSome ⟨⟨ProtocolIEID_gNBDUName⟩,
    ⟨Criticality_PresentIgnore⟩, some (.octetString ⟨1, 150⟩ true msg.GNBDUName)⟩ ies
  if msg.GNBDUServedCellsList.length > 0 then
    let tmp_GNBDUServedCellsList : IEValue V :=
      .sequence ⟨1, V.maxCellingNBDU⟩ false (rangeAppend msg.GNBDUServedCellsList)
    let ies := ies ++ [⟨⟨ProtocolIEID_gNBDUServedCellsList⟩, ⟨Criticality_PresentReject⟩,
      some tmp_GNBDUServedCellsList⟩]
    let ies := ies ++ [⟨⟨ProtocolIEID_GNBDURRCVersion⟩, ⟨Criticality_PresentReject⟩,
      some (.rrcVersion msg.GNBDURRCVersion)⟩]
    let ies := match msg.TransportLayerAddressInfo with
      | some v => ies ++ [⟨⟨ProtocolIEID_TransportLayerAddressInfo⟩,
          ⟨Criticality_PresentIgnore⟩, some (.transportLayerAddressInfo v)⟩]
      | none => ies
    let ies := match msg.BAPAddress with
      | some v => ies ++ [⟨⟨ProtocolIEID_BAPAddress⟩, ⟨Criticality_PresentIgnore⟩,
          some (.bapAddress v)⟩]
      | none => ies
    let ies := match msg.ExtendedGNBCUName with
      | some v => ies ++ [⟨⟨ProtocolIEID_ExtendedGNBCUName⟩, ⟨Criticality_PresentIgnore⟩,
          some (.extendedGNBCUName v)⟩]
      | none => ies
    (ies, none)
  else
    (ies, WrapError "GNBDUServedCellsList is nil" none)

/-- The method `F1SetupRequest.Encode`: the returned error and the octets written to the
caller's writer. -/
def F1SetupRequest.Encode {V : IEValues} (msg : F1SetupRequest V) : Option Error × List Nat :=
  match msg.toIes with
  | (_, some err) => (msgErrors (some "F1SetupRequest") (some err), [])
  | (ies, none) =>
    encodeMessage F1apPduInitiatingMessage ProcedureCode_F1Setup Criticality_PresentReject ies

/-! ## Decoding -/

/-- The type `F1SetupRequestDecoder`: the target message, the diagnostics collected so
far, and the map of the identifiers already seen (an association list, newest first). -/
structure F1SetupRequestDecoder (V : IEValues) where
  msg : F1SetupRequest V
  diagList : List CriticalityDiagnosticsIEItem
  list : List (Nat × F1apMessageIE V)

/-- The body shared by the eight recognised cases of the switch in `decodeIE`: decode a
temporary with the value decoder `dec`; on failure return the error wrapped with `text`,
on success store the temporary into the message with `set`. -/
def readField {V : IEValues} {α : Type} (decoder : F1SetupRequestDecoder V) (ieR : AperReader)
    (dec : AperReader → Except Error α) (text : String)
    (set : F1SetupRequest V → α → F1SetupRequest V) : F1SetupRequestDecoder V × Option Error :=
  match dec ieR with
  | .error err => (decoder, WrapError text (some err))
  | .ok tmp => ({ decoder with msg := set decoder.msg tmp }, none)

/-- The switch on the identifier in `decodeIE` (F1apSetupRequest.go, lines 186 to 277),
over a reader `ieR` on the value octets.  The `fmt.Errorf` calls of the default case build
values that are dropped, so only the diagnostics item remains of it. -/
def F1SetupRequestDecoder.switchIE {V : IEValues} (decoder : F1SetupRequestDecoder V)
    (msgIe : F1apMessageIE V) (ieR : AperReader) : F1SetupRequestDecoder V × Option Error :=
  if msgIe.Id.Value = ProtocolIEID_TransactionID then
    readField decoder ieR V.decTransactionID "Read TransactionID"
      (fun msg tmp => { msg with TransactionID := tmp })
  else if msgIe.Id.Value = ProtocolIEID_gNBDUID then
    readField decoder ieR V.decGNBDUID "Read GNBDUID"
      (fun msg tmp => { msg with GNBDUID := tmp })
  else if msgIe.Id.Value = ProtocolIEID_gNBDUName then
    readField decoder ieR (V.decOCTETSTRING ⟨1, 150⟩ true) "Read GNBDUName"
      (fun msg tmp => { msg with GNBDUName := tmp })
  else if msgIe.Id.Value = ProtocolIEID_gNBDUServedCellsList then
    readField decoder ieR (V.decSequence ⟨1, V.maxCellingNBDU⟩ false)
      "Read GNBDUServedCellsList"
      (fun msg tmp => { msg with
        GNBDUServedCellsList := tmp.foldl (fun acc i => acc ++ [i]) [] })
  else if msgIe.Id.Value = ProtocolIEID_GNBDURRCVersion then
    readField decoder ieR V.decRRCVersion "Read GNBDURRCVersion"
      (fun msg tmp => { msg with GNBDURRCVersion := tmp })
  else if msgIe.Id.Value = ProtocolIEID_TransportLayerAddressInfo then
    readField decoder ieR V.decTransportLayerAddressInfo "Read TransportLayerAddressInfo"
      (fun msg tmp => { msg with TransportLayerAddressInfo := some tmp })
  else if msgIe.Id.Value = ProtocolIEID_BAPAddress then
    readField decoder ieR V.decBAPAddress "Read BAPAddress"
      (fun msg tmp => { msg with BAPAddress := some tmp })
  else if msgIe.Id.Value = ProtocolIEID_ExtendedGNBCUName then
    readField decoder ieR V.decExtendedGNBCUName "Read ExtendedGNBCUName"
      (fun msg tmp => { msg with ExtendedGNBCUName := some tmp })
  else
    if msgIe.Criticality.Value ≠ Criticality_PresentIgnore then
      ({ decoder with diagList := decoder.diagList ++
          [⟨msgIe.Criticality, msgIe.Id, ⟨TypeOfErrorNotunderstood⟩⟩] }, none)
    else (decoder, none)

/-- The second half of `decodeIE` (F1apSetupRequest.go, lines 175 to 279): the duplicate
check, the registration of the identifier in the map, and the switch over the value octets
`buf` read from the open type.  The result is the decoder after the call and the error. -/
def F1SetupRequestDecoder.dispatch {V : IEValues} (decoder : F1SetupRequestDecoder V)
    (msgIe : F1apMessageIE V) (buf : List Nat) : F1SetupRequestDecoder V × Option Error :=
  let ieId := msgIe.Id.Value
  if (decoder.list.lookup ieId).isSome then
    (decoder, some ("Duplicated protocol IEID[" ++ toString ieId ++ "] found"))
  else
    F1SetupRequestDecoder.switchIE { decoder with list := (ieId, msgIe) :: decoder.list }
      msgIe (NewReader buf)

/-- The method `F1SetupRequestDecoder.decodeIE`: the identifier, the criticality and the
open-type octets are read from `r` (lines 160 to 173), then the element is dispatched.
The result is the decoder and the reader after the call and the error; the element
pointer that the Go method also returns is only collected by `ReadSequenceOf` into a
slice that `Decode` discards. -/
def F1SetupRequestDecoder.decodeIE {V : IEValues} (decoder : F1SetupRequestDecoder V)
    (r : AperReader) : F1SetupRequestDecoder V × AperReader × Option Error :=
  match r.ReadInteger ⟨0, POW_16 - 1⟩ false with
  | .error err => (decoder, r, some err)
  | .ok (id, r1) =>
    match r1.ReadEnumerate ⟨0, 2⟩ false with
    | .error err => (decoder, r1, some err)
    | .ok (c, r2) =>
      match r2.ReadOpenType with
      | .error err => (decoder, r2, some err)
      | .ok (buf, r3) =>
        let msgIe : F1apMessageIE V := ⟨⟨id⟩, ⟨c⟩, none⟩
        ((decoder.dispatch msgIe buf).1, r3, (decoder.dispatch msgIe buf).2)

/-- What a call of `F1SetupRequest.Decode` leaves behind: the two results `err` and
`diagList`, the target struct `msg` (decoded into in place), and the local decoder at the
moment of return, which the caller cannot see. -/
structure DecodeResult (V : IEValues) where
  err : Option Error
  diagList : List CriticalityDiagnosticsIEItem
  msg : F1SetupRequest V
  decoder : F1SetupRequestDecoder V

/-- One mandatory-field check of `Decode` (lines 119 to 145): the error and the
diagnostics item recorded in the decoder when identifier `id` is not in the map. -/
def missingField {V : IEValues} (decoder : F1SetupRequestDecoder V) (id : Nat)
    (name : String) : Option Error × F1SetupRequestDecoder V :=
  (some ("Mandatory field " ++ name ++ " is missing"),
    { decoder with diagList := decoder.diagList ++
        [⟨⟨Criticality_PresentReject⟩, ⟨id⟩, ⟨TypeOfErrorMissing⟩⟩] })

/-- The mandatory-field checks of `Decode` (lines 119 to 146), run on the decoder that the
scan of the sequence left.  The named result `diagList` is never assigned, so it is
returned with its zero value. -/
def mandatoryCheck {V : IEValues} (decoder : F1SetupRequestDecoder V) : DecodeResult V :=
  let diagList : List CriticalityDiagnosticsIEItem := []
  if (decoder.list.lookup ProtocolIEID_TransactionID).isNone then
    ⟨(missingField decoder ProtocolIEID_TransactionID "TransactionID").1, diagList,
      decoder.msg, (missingField decoder ProtocolIEID_TransactionID "TransactionID").2⟩
  else if (decoder.list.lookup ProtocolIEID_gNBDUID).isNone then
    ⟨(missingField decoder ProtocolIEID_gNBDUID "GNBDUID").1, diagList,
      decoder.msg, (missingField decoder ProtocolIEID_gNBDUID "GNBDUID").2⟩
  else if (decoder.list.lookup ProtocolIEID_GNBDURRCVersion).isNone then
    ⟨(missingField decoder ProtocolIEID_GNBDURRCVersion "GNBDURRCVersion").1, diagList,
      decoder.msg, (missingField decoder ProtocolIEID_GNBDURRCVersion "GNBDURRCVersion").2⟩
  else ⟨none, diagList, decoder.msg, decoder⟩

/-- The reader that `Decode` hands to `ReadSequenceOf` (lines 110 and 111): a fresh reader
over the wire octets after one `ReadBool` whose result and error are dropped. -/
def bodyReader (wire : List Nat) : AperReader :=
  match (NewReader wire).ReadBool with
  | .ok (_, r1) => r1
  | .error _ => NewReader wire

/-- The body of `F1SetupRequest.Decode` before the deferred function runs. -/
def F1SetupRequest.decodeBody {V : IEValues} (msg : F1SetupRequest V) (wire : List Nat) :
    DecodeResult V :=
  let diagList : List CriticalityDiagnosticsIEItem := []
  let r := bodyReader wire
  let decoder : F1SetupRequestDecoder V := ⟨msg, [], []⟩
  match ReadSequenceOf F1SetupRequestDecoder.decodeIE decoder r ⟨0, POW_16 - 1⟩ false with
  | (decoder, _, some err) => ⟨some err, diagList, decoder.msg, decoder⟩
  | (decoder, _, none) => mandatoryCheck decoder

/-- The method `F1SetupRequest.Decode`: the body, then the deferred function that prefixes
a non-nil error with the message name. -/
def F1SetupRequest.Decode {V : IEValues} (msg : F1SetupRequest V) (wire : List Nat) :
    DecodeResult V :=
  let res := msg.decodeBody wire
  { res with err := if res.err ≠ none then msgErrors (some "F1SetupRequest") res.err else res.err }

/-! ## A concrete instance of the value types

Explicit inputs need concrete value codecs.  In this instance every value is a whole
number (or a list of them) written with the primitive codec above. -/

/-- An element decoder for `readItems` that collects constrained whole numbers. -/
def demoItem (c : Constraint) (acc : List Nat) (r : AperReader) :
    List Nat × AperReader × Option Error :=
  match r.ReadInteger c false with
  | .error err => (acc, r, some err)
  | .ok (v, r1) => (acc ++ [v], r1, none)

/-- Decode one whole number and drop the reader. -/
def demoInt (c : Constraint) (e : Bool) (r : AperReader) : Except Error Nat :=
  match r.ReadInteger c e with
  | .error err => .error err
  | .ok (v, _) => .ok v

/-- The concrete instance: a transaction identifier in 0..255 (extensible), a unit
identifier in 0..65535, a version in 0..7, cells in 0..255, octet strings with a
constrained length (the encoder refuses a string shorter than the lower bound), and the
three optional values in 0..255. -/
def demoValues : IEValues where
  TransactionID := Nat
  GNBDUID := Nat
  RRCVersion := Nat
  GNBDUServedCellItem := Nat
  TransportLayerAddressInfo := Nat
  BAPAddress := Nat
  ExtendedGNBCUName := Nat
  maxCellingNBDU := 512
  decTransactionID := demoInt ⟨0, 255⟩ true
  encTransactionID := fun v w => w.WriteInteger v ⟨0, 255⟩ true
  decGNBDUID := demoInt ⟨0, 65535⟩ false
  encGNBDUID := fun v w => w.WriteInteger v ⟨0, 65535⟩ false
  decOCTETSTRING := fun c e r =>
    match r.ReadInteger c e with
    | .error err => .error err
    | .ok (n, r1) =>
      match r1.align.readBytes n with
      | .error err => .error err
      | .ok (bs, _) => .ok (some bs)
  encOCTETSTRING := fun c e v w =>
    match v with
    | none => .error "nil octet string"
    | some bs =>
      if bs.length < c.Lb then .error "octet string shorter than its lower bound"
      else
        match w.WriteInteger bs.length c e with
        | .error err => .error err
        | .ok w1 => .ok (w1.align.writeBytes bs)
  decSequence := fun c e r =>
    match ReadSequenceOf (demoItem ⟨0, 255⟩) [] r c e with
    | (_, _, some err) => .error err
    | (acc, _, none) => .ok acc
  encSequence := fun c e items w =>
    WriteSequenceOf (fun v w1 => w1.WriteInteger v ⟨0, 255⟩ false) items w c e
  decRRCVersion := demoInt ⟨0, 7⟩ false
  encRRCVersion := fun v w => w.WriteInteger v ⟨0, 7⟩ false
  decTransportLayerAddressInfo := demoInt ⟨0, 255⟩ false
  encTransportLayerAddressInfo := fun v w => w.WriteInteger v ⟨0, 255⟩ false
  decBAPAddress := demoInt ⟨0, 255⟩ false
  encBAPAddress := fun v w => w.WriteInteger v ⟨0, 255⟩ false
  decExtendedGNBCUName := demoInt ⟨0, 255⟩ false
  encExtendedGNBCUName := fun v w => w.WriteInteger v ⟨0, 255⟩ false

/-- A message with only the mandatory fields set and a one-element served-cells list. -/
def demoMsg : F1SetupRequest demoValues :=
  { TransactionID := (7 : Nat), GNBDUID := (300 : Nat), GNBDUName := none,
    GNBDUServedCellsList := [(9 : Nat)], GNBDURRCVersion := (5 : Nat),
    TransportLayerAddressInfo := none, BAPAddress := none, ExtendedGNBCUName := none }

/-- The zero value of the message type in the concrete instance. -/
def demoZero : F1SetupRequest demoValues :=
  { TransactionID := (0 : Nat), GNBDUID := (0 : Nat), GNBDUName := none,
    GNBDUServedCellsList := [], GNBDURRCVersion := (0 : Nat),
    TransportLayerAddressInfo := none, BAPAddress := none, ExtendedGNBCUName := none }

/-! ## The sequence of information elements carried by a wire

The claims speak of the sequence of records on the wire.  The following functions read
that sequence with the same three primitive reads as `decodeIE`, and run the dispatch
half of `decodeIE` over a sequence that has already been read. -/

/-- A record as it is read from the wire: identifier, criticality, value octets. -/
structure WireIE where
  id : Nat
  crit : Nat
  value : List Nat
  deriving DecidableEq, Repr

/-- The element that `decodeIE` creates for a record (its `Value` stays nil). -/
def WireIE.toMsgIe {V : IEValues} (x : WireIE) : F1apMessageIE V := ⟨⟨x.id⟩, ⟨x.crit⟩, none⟩

/-- The three reads at the head of `decodeIE`. -/
def readIE (r : AperReader) : Except Error (WireIE × AperReader) :=
  match r.ReadInteger ⟨0, POW_16 - 1⟩ false with
  | .error err => .error err
  | .ok (id, r1) =>
    match r1.ReadEnumerate ⟨0, 2⟩ false with
    | .error err => .error err
    | .ok (c, r2) =>
      match r2.ReadOpenType with
      | .error err => .error err
      | .ok (buf, r3) => .ok (⟨id, c, buf⟩, r3)

/-- Read `n` records. -/
def readIEs : Nat → AperReader → Except Error (List WireIE × AperReader)
  | 0, r => .ok ([], r)
  | n + 1, r =>
    match readIE r with
    | .error err => .error err
    | .ok (x, r1) =>
      match readIEs n r1 with
      | .error err => .error err
      | .ok (xs, r2) => .ok (x :: xs, r2)

/-- The sequence of records that a wire carries: the count that `ReadSequenceOf` reads
from the reader `Decode` hands to it, then that many records. -/
def wireIEs (wire : List Nat) : Except Error (List WireIE) :=
  match (bodyReader wire).ReadInteger ⟨0, POW_16 - 1⟩ false with
  | .error err => .error err
  | .ok (n, r1) =>
    match readIEs n r1 with
    | .error err => .error err
    | .ok (xs, _) => .ok xs

/-- Run the dispatch half of `decodeIE` over a sequence of records, stopping at the first
error as the element loop does. -/
def decodeIEs {V : IEValues} (d : F1SetupRequestDecoder V) :
    List WireIE → F1SetupRequestDecoder V × Option Error
  | [] => (d, none)
  | x :: xs =>
    match d.dispatch x.toMsgIe x.value with
    | (d1, some err) => (d1, some err)
    | (d1, none) => decodeIEs d1 xs

/-- The value of a record decodes: dispatching the record on a decoder that has seen no
identifier raises no error. -/
def valueOk (V : IEValues) (msg : F1SetupRequest V) (x : WireIE) : Prop :=
  ((⟨msg, [], []⟩ : F1SetupRequestDecoder V).dispatch x.toMsgIe x.value).2 = none

/-- The identifiers that the dispatch of `decodeIE` recognises. -/
def recognised (id : Nat) : Prop :=
  id = ProtocolIEID_TransactionID ∨ id = ProtocolIEID_gNBDUID ∨ id = ProtocolIEID_gNBDUName ∨
  id = ProtocolIEID_gNBDUServedCellsList ∨ id = ProtocolIEID_GNBDURRCVersion ∨
  id = ProtocolIEID_TransportLayerAddressInfo ∨ id = ProtocolIEID_BAPAddress ∨
  id = ProtocolIEID_ExtendedGNBCUName

instance (id : Nat) : Decidable (recognised id) := by unfold recognised; infer_instance

/-! ## Auxiliary notions for the statements and proofs, and explicit inputs -/

/-- The message and diagnostics after dispatching a record on a decoder that has seen
no identifier. -/
def applyIE {V : IEValues} (s : F1SetupRequest V × List CriticalityDiagnosticsIEItem)
    (x : WireIE) : F1SetupRequest V × List CriticalityDiagnosticsIEItem :=
  (((⟨s.1, s.2, []⟩ : F1SetupRequestDecoder V).dispatch x.toMsgIe x.value).1.msg,
   ((⟨s.1, s.2, []⟩ : F1SetupRequestDecoder V).dispatch x.toMsgIe x.value).1.diagList)

/-- The identifiers registered in the map of a decoder. -/
def keys {V : IEValues} (d : F1SetupRequestDecoder V) : List Nat := d.list.map Prod.fst

/-- The map entry that `decodeIE` registers for a record. -/
def entry {V : IEValues} (x : WireIE) : Nat × F1apMessageIE V := (x.id, x.toMsgIe)

/-- The outcome of `decodeBody` on a decoder and error left by the scan. -/
def finish {V : IEValues} (p : F1SetupRequestDecoder V × Option Error) : DecodeResult V :=
  match p with
  | (d, some err) => ⟨some err, [], d.msg, d⟩
  | (d, none) => mandatoryCheck d

/-- A body that carries the four elements of `demoMsg`. -/
def wireValid : List Nat :=
  [0, 0, 4, 0, 78, 0, 2, 0, 7, 0, 42, 0, 2, 1, 44, 0, 44, 0, 3, 0, 0, 9, 0, 171, 0, 1, 160]

/-- A body that carries the identifier 78 twice. -/
def wireDup : List Nat := [0, 0, 2, 0, 78, 0, 2, 0, 7, 0, 78, 0, 2, 0, 8]

/-- The body `wireValid` with the identifier 42 overwritten by the unused identifier 999. -/
def wireCorrupt : List Nat :=
  [0, 0, 4, 0, 78, 0, 2, 0, 7, 3, 231, 0, 2, 1, 44, 0, 44, 0, 3, 0, 0, 9, 0, 171, 0, 1, 160]

/-- A body that carries no element at all. -/
def wireEmpty : List Nat := [0, 0, 0]

/-- The body `wireValid` extended with an element of the unused identifier 999, criticality
Notify and value octets 1, 2. -/
def wireNotify : List Nat :=
  [0, 0, 5, 0, 78, 0, 2, 0, 7, 0, 42, 0, 2, 1, 44, 0, 44, 0, 3, 0, 0, 9, 0, 171, 0, 1, 160,
    3, 231, 128, 2, 1, 2]

/-- The body `wireValid` extended with an element of the unused identifier 999, criticality
Ignore and value octets 1, 2. -/
def wireIgnore : List Nat :=
  [0, 0, 5, 0, 78, 0, 2, 0, 7, 0, 42, 0, 2, 1, 44, 0, 44, 0, 3, 0, 0, 9, 0, 171, 0, 1, 160,
    3, 231, 64, 2, 1, 2]

/-- The diagnostics items that the default case of the switch records for a record. -/
def notUnderstood (x : WireIE) : List CriticalityDiagnosticsIEItem :=
  if recognised x.id then []
  else if x.crit ≠ Criticality_PresentIgnore then
    [⟨⟨x.crit⟩, ⟨x.id⟩, ⟨TypeOfErrorNotunderstood⟩⟩]
  else []

/-- The message after dispatching a record on a decoder that has seen no identifier. -/
def setField {V : IEValues} (m : F1SetupRequest V) (x : WireIE) : F1SetupRequest V :=
  ((⟨m, [], []⟩ : F1SetupRequestDecoder V).switchIE x.toMsgIe (NewReader x.value)).1.msg

/-- The records of `wireValid` in another order: 171, 44, 78, 42. -/
def wirePermuted : List Nat :=
  [0, 0, 4, 0, 171, 0, 1, 160, 0, 44, 0, 3, 0, 0, 9, 0, 78, 0, 2, 0, 7, 0, 42, 0, 2, 1, 44]

/-- The bits of the length determinant that `WriteOpenType` writes for `n` octets. -/
def lengthBits (n : Nat) : List Bool :=
  if n < 128 then natToBits 8 n else natToBits 8 (128 + n / 256) ++ natToBits 8 (n % 256)

/-- The bits that `F1apMessageIE.Encode` appends to a writer holding `p` bits when the
element has the identifier, the criticality and the encoded value octets of `x`. -/
def ieBits (p : Nat) (x : WireIE) : List Bool :=
  List.replicate (padLen p) false ++ (natToBits 16 x.id ++ (natToBits 2 x.crit ++
    (List.replicate (padLen (p + padLen p + 16 + 2)) false ++
      (lengthBits x.value.length ++ bytesToBits x.value))))

/-- The bits of a sequence of records written from bit position `p` on. -/
def iesBits : Nat → List WireIE → List Bool
  | _, [] => []
  | p, x :: xs => ieBits p x ++ iesBits (p + (ieBits p x).length) xs

/-- The element `ie` is written on the wire as the record `x`: same identifier and
criticality, both within their bounds, and `x.value` holds the octets that the value's own
encoder produces, fewer than 16384 of them. -/
def Encodes {V : IEValues} (ie : F1apMessageIE V) (x : WireIE) : Prop :=
  ie.Id.Value = x.id ∧ x.id ≤ 65535 ∧ ie.Criticality.Value = x.crit ∧ x.crit ≤ 2 ∧
    x.value.length < 16384 ∧
    ∃ v w, ie.Value = some v ∧ v.Encode NewWriter = .ok w ∧ w.Close = x.value

/-- The bits that `encodeBody` writes for a sequence of records: the extension bit, the
aligned count, and the records from bit position 24 on. -/
def bodyBits (xs : List WireIE) : List Bool :=
  natToBits 1 0 ++ (List.replicate (padLen 1) false ++ (natToBits 16 xs.length ++ iesBits 24 xs))

/-- The record that an element is written as: its identifier, its criticality, and the
octets that its value encodes to on a fresh writer (none when the value cannot be
encoded). -/
def wireOf {V : IEValues} (ie : F1apMessageIE V) : WireIE :=
  ⟨ie.Id.Value, ie.Criticality.Value,
    match ie.Value with
    | none => []
    | some v =>
      match v.Encode NewWriter with
      | .error _ => []
      | .ok w => w.Close⟩

/-- The value `v` survives its own codec: the encoder succeeds on a fresh writer with fewer
than 16384 octets, and the decoder reads `v` back from them. -/
def valueRoundTrip {α : Type} (enc : α → AperWriter → Except Error AperWriter)
    (dec : AperReader → Except Error α) (v : α) : Prop :=
  ∃ w, enc v NewWriter = .ok w ∧ w.Close.length < 16384 ∧ dec (NewReader w.Close) = .ok v

/-- Every element of `ies` is written as its record, the value of each record decodes, and
running the switch over the records changes a message as `F` does. -/
def AllCarry {V : IEValues} (ies : List (F1apMessageIE V))
    (F : F1SetupRequest V → F1SetupRequest V) : Prop :=
  List.Forall₂ Encodes ies (ies.map wireOf) ∧
    (∀ x ∈ ies.map wireOf, ∀ m : F1SetupRequest V, valueOk V m x) ∧
    ∀ m : F1SetupRequest V, (ies.map wireOf).foldl setField m = F m

/-- Every field of the message survives its value codec; for an optional field this is
required only when the field is set. -/
def fieldsRoundTrip {V : IEValues} (m : F1SetupRequest V) : Prop :=
  valueRoundTrip V.encTransactionID V.decTransactionID m.TransactionID ∧
  valueRoundTrip V.encGNBDUID V.decGNBDUID m.GNBDUID ∧
  (∀ bs, m.GNBDUName = some bs →
    valueRoundTrip (V.encOCTETSTRING ⟨1, 150⟩ true) (V.decOCTETSTRING ⟨1, 150⟩ true)
      (some bs)) ∧
  valueRoundTrip (V.encSequence ⟨1, V.maxCellingNBDU⟩ false)
    (V.decSequence ⟨1, V.maxCellingNBDU⟩ false) m.GNBDUServedCellsList ∧
  valueRoundTrip V.encRRCVersion V.decRRCVersion m.GNBDURRCVersion ∧
  (∀ v, m.TransportLayerAddressInfo = some v →
    valueRoundTrip V.encTransportLayerAddressInfo V.decTransportLayerAddressInfo v) ∧
  (∀ v, m.BAPAddress = some v → valueRoundTrip V.encBAPAddress V.decBAPAddress v) ∧
  (∀ v, m.ExtendedGNBCUName = some v →
    valueRoundTrip V.encExtendedGNBCUName V.decExtendedGNBCUName v)

/-- The optional fields of a message are all nil, as in a freshly allocated message. -/
def optionalUnset {V : IEValues} (m : F1SetupRequest V) : Prop :=
  m.GNBDUName = none ∧ m.TransportLayerAddressInfo = none ∧ m.BAPAddress = none ∧
    m.ExtendedGNBCUName = none

/-- The octets that `Encode` writes for `demoMsg`: the envelope (0, 1, 0), the length 27 of
the body, and the body `wireValid`. -/
def demoPdu : List Nat :=
  [0, 1, 0, 27, 0, 0, 4, 0, 78, 0, 2, 0, 7, 0, 42, 0, 2, 1, 44, 0, 44, 0, 3, 0, 0, 9,
    0, 171, 0, 1, 160]

/-- The presence that a struct tag of `F1SetupRequest` declares. -/
inductive Presence where
  | mandatory
  | optional
  deriving DecidableEq, Repr

/-- One field of the struct `F1SetupRequest`: its name, the identifier under which `toIes`
and `decodeIE` handle it, and the presence and criticality that its struct tag declares. -/
structure FieldTag where
  name : String
  id : Nat
  presence : Presence
  criticality : Nat
  deriving DecidableEq, Repr

/-- The fields of the struct `F1SetupRequest` in declaration order with their tags
(F1apSetupRequest.go, lines 12 to 21). -/
def F1SetupRequestFields : List FieldTag :=
  [⟨"TransactionID", ProtocolIEID_TransactionID, .mandatory, Criticality_PresentReject⟩,
   ⟨"GNBDUID", ProtocolIEID_gNBDUID, .mandatory, Criticality_PresentReject⟩,
   ⟨"GNBDUName", ProtocolIEID_gNBDUName, .optional, Criticality_PresentIgnore⟩,
   ⟨"GNBDUServedCellsList", ProtocolIEID_gNBDUServedCellsList, .optional,
     Criticality_PresentIgnore⟩,
   ⟨"GNBDURRCVersion", ProtocolIEID_GNBDURRCVersion, .mandatory, Criticality_PresentReject⟩,
   ⟨"TransportLayerAddressInfo", ProtocolIEID_TransportLayerAddressInfo, .optional,
     Criticality_PresentIgnore⟩,
   ⟨"BAPAddress", ProtocolIEID_BAPAddress, .optional, Criticality_PresentIgnore⟩,
   ⟨"ExtendedGNBCUName", ProtocolIEID_ExtendedGNBCUName, .optional,
     Criticality_PresentIgnore⟩]

/-- Whether the field handled under identifier `id` is present in the struct, in the sense
of the guards of `toIes`: a value field always is, a pointer or byte slice when it is not
nil, the served-cells list when its length is positive. -/
def fieldPresent {V : IEValues} (msg : F1SetupRequest V) (id : Nat) : Bool :=
  if id = ProtocolIEID_gNBDUName then msg.GNBDUName.isSome
  else if id = ProtocolIEID_gNBDUServedCellsList then decide (msg.GNBDUServedCellsList.length > 0)
  else if id = ProtocolIEID_TransportLayerAddressInfo then msg.TransportLayerAddressInfo.isSome
  else if id = ProtocolIEID_BAPAddress then msg.BAPAddress.isSome
  else if id = ProtocolIEID_ExtendedGNBCUName then msg.ExtendedGNBCUName.isSome
  else true

/-- The message `demoMsg` with every optional field set. -/
def demoFull : F1SetupRequest demoValues :=
  { TransactionID := (7 : Nat), GNBDUID := (300 : Nat), GNBDUName := some [65, 66],
    GNBDUServedCellsList := [(9 : Nat), (10 : Nat)], GNBDURRCVersion := (5 : Nat),
    TransportLayerAddressInfo := some (1 : Nat), BAPAddress := some (2 : Nat),
    ExtendedGNBCUName := some (3 : Nat) }

/-- The message `demoMsg` with an empty byte slice that is not nil as `GNBDUName`. -/
def demoEmptyName : F1SetupRequest demoValues :=
  { TransactionID := (7 : Nat), GNBDUID := (300 : Nat), GNBDUName := some [],
    GNBDUServedCellsList := [(9 : Nat)], GNBDURRCVersion := (5 : Nat),
    TransportLayerAddressInfo := none, BAPAddress := none, ExtendedGNBCUName := none }

/-- A message with an empty served-cells list whose `TransportLayerAddressInfo` is set. -/
def demoNoCells : F1SetupRequest demoValues :=
  { TransactionID := (7 : Nat), GNBDUID := (300 : Nat), GNBDUName := none,
    GNBDUServedCellsList := [], GNBDURRCVersion := (5 : Nat),
    TransportLayerAddressInfo := some (1 : Nat), BAPAddress := none, ExtendedGNBCUName := none }

/-- The type `TriggeringMessage` of common.go. -/
structure TriggeringMessage where
  Value : Nat
  deriving DecidableEq, Repr

/-- Modelled from the spec: the record type `CriticalityDiagnostics` is declared outside
the two source files; its five fields are the ones named by the composite literal in
`BuildDiagnostics` (the spec lists procedure code, triggering message kind, procedure
criticality, transaction identifier, list of items). A pointer field is an `Option`; the
type of the field `TransactionID` is the parameter `τ`. -/
structure CriticalityDiagnostics (τ : Type) where
  ProcedureCode : Option ProcedureCode
  TriggeringMessage : Option TriggeringMessage
  ProcedureCriticality : Option Criticality
  TransactionID : τ
  IEsCriticalityDiagnostics : List CriticalityDiagnosticsIEItem

/-- The function `BuildDiagnostics` of common.go. The Go function has the four parameters
`present`, `procedureCode`, `criticality` and `diagnosticsItems`. The expression
`TransactionID` that initialises the field of the same name is none of them: it is a
package-level identifier (in these sources the name of the type of the first field of
`F1SetupRequest`), whose denotation is taken here as the first argument. -/
def BuildDiagnostics {τ : Type} (TransactionID : τ) (present : Nat)
    (procedureCode : ProcedureCode) (criticality : Criticality)
    (diagnosticsItems : List CriticalityDiagnosticsIEItem) : CriticalityDiagnostics τ :=
  { ProcedureCode := some procedureCode
    TriggeringMessage := some ⟨present⟩
    ProcedureCriticality := some criticality
    TransactionID := TransactionID
    IEsCriticalityDiagnostics := diagnosticsItems }

/-- The field name and the cause when a value decoder fails. -/
def errOf {α : Type} (name : String) (r : Except Error α) : Option (String × Error) :=
  match r with
  | .error e => some (name, e)
  | .ok _ => none

/-- The field name and the cause when the identifier of a record is recognised and the
value decoder that the switch of `decodeIE` selects for it fails on the value octets. -/
def readError (V : IEValues) (x : WireIE) : Option (String × Error) :=
  if x.id = ProtocolIEID_TransactionID then
    errOf "TransactionID" (V.decTransactionID (NewReader x.value))
  else if x.id = ProtocolIEID_gNBDUID then
    errOf "GNBDUID" (V.decGNBDUID (NewReader x.value))
  else if x.id = ProtocolIEID_gNBDUName then
    errOf "GNBDUName" (V.decOCTETSTRING ⟨1, 150⟩ true (NewReader x.value))
  else if x.id = ProtocolIEID_gNBDUServedCellsList then
    errOf "GNBDUServedCellsList" (V.decSequence ⟨1, V.maxCellingNBDU⟩ false (NewReader x.value))
  else if x.id = ProtocolIEID_GNBDURRCVersion then
    errOf "GNBDURRCVersion" (V.decRRCVersion (NewReader x.value))
  else if x.id = ProtocolIEID_TransportLayerAddressInfo then
    errOf "TransportLayerAddressInfo" (V.decTransportLayerAddressInfo (NewReader x.value))
  else if x.id = ProtocolIEID_BAPAddress then
    errOf "BAPAddress" (V.decBAPAddress (NewReader x.value))
  else if x.id = ProtocolIEID_ExtendedGNBCUName then
    errOf "ExtendedGNBCUName" (V.decExtendedGNBCUName (NewReader x.value))
  else none

/-- The mandatory fields in the order in which `Decode` checks them (F1apSetupRequest.go,
lines 119, 128 and 137), each with the name used in its error text. -/
def mandatoryOrder : List (Nat × String) :=
  [(ProtocolIEID_TransactionID, "TransactionID"), (ProtocolIEID_gNBDUID, "GNBDUID"),
    (ProtocolIEID_GNBDURRCVersion, "GNBDURRCVersion")]

/-- A body whose only record is the transaction identifier 7: the mandatory identifiers 42
and 171 are both absent. -/
def wireOnlyTransactionID : List Nat := [0, 0, 1, 0, 78, 0, 2, 0, 7]

/-- The message `m2` agrees with the message `m1` on every field whose identifier (the one
under which `decodeIE` stores into the field) is not in `ids`. -/
def sameOutside {V : IEValues} (ids : List Nat) (m1 m2 : F1SetupRequest V) : Prop :=
  (ProtocolIEID_TransactionID ∉ ids → m2.TransactionID = m1.TransactionID) ∧
  (ProtocolIEID_gNBDUID ∉ ids → m2.GNBDUID = m1.GNBDUID) ∧
  (ProtocolIEID_gNBDUName ∉ ids → m2.GNBDUName = m1.GNBDUName) ∧
  (ProtocolIEID_gNBDUServedCellsList ∉ ids →
    m2.GNBDUServedCellsList = m1.GNBDUServedCellsList) ∧
  (ProtocolIEID_GNBDURRCVersion ∉ ids → m2.GNBDURRCVersion = m1.GNBDURRCVersion) ∧
  (ProtocolIEID_TransportLayerAddressInfo ∉ ids →
    m2.TransportLayerAddressInfo = m1.TransportLayerAddressInfo) ∧
  (ProtocolIEID_BAPAddress ∉ ids → m2.BAPAddress = m1.BAPAddress) ∧
  (ProtocolIEID_ExtendedGNBCUName ∉ ids → m2.ExtendedGNBCUName = m1.ExtendedGNBCUName)

/-- The record `b` is the record `a` up to its criticality, which may differ only when the
identifier is one of the eight that the switch of `decodeIE` recognises. -/
def critVariant (a b : WireIE) : Prop :=
  a.id = b.id ∧ a.value = b.value ∧ (recognised a.id ∨ a.crit = b.crit)

/-- A body that carries the three mandatory elements 78, 42 and 171 and nothing else. -/
def wireMandatoryOnly : List Nat :=
  [0, 0, 3, 0, 78, 0, 2, 0, 7, 0, 42, 0, 2, 1, 44, 0, 171, 0, 1, 160]

/-- The body `wireValid` with other criticalities on its four recognised elements: Ignore
on 78, Notify on 42, Ignore on 44 and Notify on 171. -/
def wireCritVariant : List Nat :=
  [0, 0, 4, 0, 78, 64, 2, 0, 7, 0, 42, 128, 2, 1, 44, 0, 44, 64, 3, 0, 0, 9,
    0, 171, 128, 1, 160]

/-- The cell items held by the sequence value of the element with identifier 44 in a list
of elements, if there is such an element. -/
def servedCellsOf {V : IEValues} (ies : List (F1apMessageIE V)) :
    Option (List V.GNBDUServedCellItem) :=
  match ies.find? (fun ie => decide (ie.Id.Value = ProtocolIEID_gNBDUServedCellsList)) with
  | some ⟨_, _, some (.sequence _ _ v)⟩ => some v
  | _ => none

/-- The octets that `Encode` writes for the zero message `demoZero`: the envelope, the
length 15, and a body with the two elements 78 and 42. -/
def demoZeroPdu : List Nat :=
  [0, 1, 0, 15, 0, 0, 2, 0, 78, 0, 2, 0, 0, 0, 42, 0, 2, 0, 0]

/-- The octets that `Encode` writes for the struct decoded from `wireMandatoryOnly`: the
envelope, the length 15, and a body with the two elements 78 and 42. -/
def demoPartialPdu : List Nat :=
  [0, 1, 0, 15, 0, 0, 2, 0, 78, 0, 2, 0, 7, 0, 42, 0, 2, 1, 44]

/-- The concrete instance with a transaction-identifier decoder that refuses every value;
it exercises the error path of a recognised field in `decodeIE`. -/
def refusingValues : IEValues :=
  { demoValues with decTransactionID := fun _ => .error "value refused" }

/-- The zero value of the message type in the instance `refusingValues`. -/
def refusingZero : F1SetupRequest refusingValues :=
  { TransactionID := (0 : Nat), GNBDUID := (0 : Nat), GNBDUName := none,
    GNBDUServedCellsList := [], GNBDURRCVersion := (0 : Nat),
    TransportLayerAddressInfo := none, BAPAddress := none, ExtendedGNBCUName := none }

/-- A body with the record 42 followed by the record 78, both with well-formed values. -/
def wireLate : List Nat := [0, 0, 2, 0, 42, 0, 2, 1, 44, 0, 78, 0, 2, 0, 7]

/-! ## Supporting lemmas: the map of seen identifiers and the dispatch -/

theorem lookup_isSome_iff {β : Type} (l : List (Nat × β)) (a : Nat) :
    (l.lookup a).isSome = true ↔ a ∈ l.map Prod.fst := by
  induction l with
  | nil => simp
  | cons p l ih =>
    obtain ⟨k, v⟩ := p
    by_cases h : a = k
    · subst h; simp [List.lookup]
    · have h2 : (a == k) = false := by simpa using h
      simp [List.lookup, h2, ih, h]

theorem lookup_isNone_iff {β : Type} (l : List (Nat × β)) (a : Nat) :
    (l.lookup a).isNone = true ↔ a ∉ l.map Prod.fst := by
  rw [← lookup_isSome_iff]
  cases l.lookup a <;> simp

theorem dispatch_dup {V : IEValues} (d : F1SetupRequestDecoder V) (x : WireIE)
    (h : x.id ∈ d.list.map Prod.fst) :
    d.dispatch x.toMsgIe x.value =
      (d, some ("Duplicated protocol IEID[" ++ toString x.id ++ "] found")) := by
  have h1 : (d.list.lookup x.id).isSome = true := (lookup_isSome_iff _ _).2 h
  simp [F1SetupRequestDecoder.dispatch, WireIE.toMsgIe, h1]

theorem readField_eq {V : IEValues} {α : Type} (d : F1SetupRequestDecoder V) (ieR : AperReader)
    (dec : AperReader → Except Error α) (text : String)
    (set : F1SetupRequest V → α → F1SetupRequest V) (m0 : F1SetupRequest V)
    (l0 : List (Nat × F1apMessageIE V)) :
    readField d ieR dec text set =
      (⟨(readField ⟨d.msg, d.diagList, l0⟩ ieR dec text set).1.msg,
        (readField ⟨d.msg, d.diagList, l0⟩ ieR dec text set).1.diagList, d.list⟩,
       (readField ⟨m0, [], []⟩ ieR dec text set).2) := by
  unfold readField
  cases dec ieR <;> rfl

theorem switchIE_eq {V : IEValues} (d : F1SetupRequestDecoder V) (ie : F1apMessageIE V)
    (r : AperReader) (m0 : F1SetupRequest V) (l0 : List (Nat × F1apMessageIE V)) :
    d.switchIE ie r =
      (⟨((⟨d.msg, d.diagList, l0⟩ : F1SetupRequestDecoder V).switchIE ie r).1.msg,
        ((⟨d.msg, d.diagList, l0⟩ : F1SetupRequestDecoder V).switchIE ie r).1.diagList, d.list⟩,
       ((⟨m0, [], []⟩ : F1SetupRequestDecoder V).switchIE ie r).2) := by
  unfold F1SetupRequestDecoder.switchIE
  by_cases h1 : ie.Id.Value = ProtocolIEID_TransactionID
  · simp only [if_pos h1]; exact readField_eq _ _ _ _ _ m0 l0
  simp only [if_neg h1]
  by_cases h2 : ie.Id.Value = ProtocolIEID_gNBDUID
  · simp only [if_pos h2]; exact readField_eq _ _ _ _ _ m0 l0
  simp only [if_neg h2]
  by_cases h3 : ie.Id.Value = ProtocolIEID_gNBDUName
  · simp only [if_pos h3]; exact readField_eq _ _ _ _ _ m0 l0
  simp only [if_neg h3]
  by_cases h4 : ie.Id.Value = ProtocolIEID_gNBDUServedCellsList
  · simp only [if_pos h4]; exact readField_eq _ _ _ _ _ m0 l0
  simp only [if_neg h4]
  by_cases h5 : ie.Id.Value = ProtocolIEID_GNBDURRCVersion
  · simp only [if_pos h5]; exact readField_eq _ _ _ _ _ m0 l0
  simp only [if_neg h5]
  by_cases h6 : ie.Id.Value = ProtocolIEID_TransportLayerAddressInfo
  · simp only [if_pos h6]; exact readField_eq _ _ _ _ _ m0 l0
  simp only [if_neg h6]
  by_cases h7 : ie.Id.Value = ProtocolIEID_BAPAddress
  · simp only [if_pos h7]; exact readField_eq _ _ _ _ _ m0 l0
  simp only [if_neg h7]
  by_cases h8 : ie.Id.Value = ProtocolIEID_ExtendedGNBCUName
  · simp only [if_pos h8]; exact readField_eq _ _ _ _ _ m0 l0
  simp only [if_neg h8]
  by_cases h9 : ie.Criticality.Value ≠ Criticality_PresentIgnore
  · simp only [if_pos h9]
  · simp only [if_neg h9]

theorem dispatch_fresh {V : IEValues} (d : F1SetupRequestDecoder V) (x : WireIE)
    (h : x.id ∉ d.list.map Prod.fst) (m0 : F1SetupRequest V) :
    d.dispatch x.toMsgIe x.value =
      (⟨(applyIE (d.msg, d.diagList) x).1, (applyIE (d.msg, d.diagList) x).2,
          (x.id, x.toMsgIe) :: d.list⟩,
        ((⟨m0, [], []⟩ : F1SetupRequestDecoder V).dispatch x.toMsgIe x.value).2) := by
  have h1 : (d.list.lookup x.id).isSome = false := by
    have := (lookup_isNone_iff d.list x.id).2 h
    cases hh : d.list.lookup x.id <;> simp_all
  have e1 : d.dispatch x.toMsgIe x.value =
      F1SetupRequestDecoder.switchIE { d with list := (x.id, x.toMsgIe) :: d.list }
        x.toMsgIe (NewReader x.value) := by
    simp [F1SetupRequestDecoder.dispatch, WireIE.toMsgIe, h1]
  have e2 : ∀ (m : F1SetupRequest V) (dl : List CriticalityDiagnosticsIEItem),
      (⟨m, dl, []⟩ : F1SetupRequestDecoder V).dispatch x.toMsgIe x.value =
      F1SetupRequestDecoder.switchIE ⟨m, dl, [(x.id, x.toMsgIe)]⟩
        x.toMsgIe (NewReader x.value) := by
    intro m dl
    simp [F1SetupRequestDecoder.dispatch, WireIE.toMsgIe]
  rw [e1, applyIE, e2, e2, switchIE_eq _ _ _ m0 [(x.id, x.toMsgIe)]]
  congr 1
  rw [switchIE_eq ⟨m0, [], [(x.id, x.toMsgIe)]⟩ _ _ m0 []]
theorem valueOk_indep {V : IEValues} (m m0 : F1SetupRequest V) (x : WireIE) :
    valueOk V m x ↔ valueOk V m0 x := by
  unfold valueOk
  rw [dispatch_fresh ⟨m, [], []⟩ x (by simp) m0]

theorem dispatch_none_fresh {V : IEValues} (d : F1SetupRequestDecoder V) (x : WireIE)
    (h : (d.dispatch x.toMsgIe x.value).2 = none) : x.id ∉ d.list.map Prod.fst := by
  intro hmem
  rw [dispatch_dup d x hmem] at h
  simp at h

/-! ## The element loop and the sequence of records -/

theorem decodeIE_error {V : IEValues} (d : F1SetupRequestDecoder V) (r : AperReader) (e : Error)
    (h : readIE r = .error e) : (d.decodeIE r).1 = d ∧ (d.decodeIE r).2.2 = some e := by
  unfold readIE at h
  unfold F1SetupRequestDecoder.decodeIE
  cases h1 : r.ReadInteger ⟨0, POW_16 - 1⟩ false with
  | error e1 => simp [h1] at h ⊢; exact h
  | ok p1 =>
    obtain ⟨id, r1⟩ := p1
    simp only [h1] at h ⊢
    cases h2 : r1.ReadEnumerate ⟨0, 2⟩ false with
    | error e2 => simp [h2] at h ⊢; exact h
    | ok p2 =>
      obtain ⟨c, r2⟩ := p2
      simp only [h2] at h ⊢
      cases h3 : r2.ReadOpenType with
      | error e3 => simp [h3] at h ⊢; exact h
      | ok p3 =>
        obtain ⟨buf, r3⟩ := p3
        simp [h3] at h

theorem decodeIE_ok {V : IEValues} (d : F1SetupRequestDecoder V) (r r' : AperReader) (x : WireIE)
    (h : readIE r = .ok (x, r')) :
    d.decodeIE r = ((d.dispatch x.toMsgIe x.value).1, r', (d.dispatch x.toMsgIe x.value).2) := by
  unfold readIE at h
  unfold F1SetupRequestDecoder.decodeIE
  cases h1 : r.ReadInteger ⟨0, POW_16 - 1⟩ false with
  | error e1 => simp [h1] at h
  | ok p1 =>
    obtain ⟨id, r1⟩ := p1
    simp only [h1] at h ⊢
    cases h2 : r1.ReadEnumerate ⟨0, 2⟩ false with
    | error e2 => simp [h2] at h
    | ok p2 =>
      obtain ⟨c, r2⟩ := p2
      simp only [h2] at h ⊢
      cases h3 : r2.ReadOpenType with
      | error e3 => simp [h3] at h
      | ok p3 =>
        obtain ⟨buf, r3⟩ := p3
        simp only [h3, Except.ok.injEq, Prod.mk.injEq] at h ⊢
        obtain ⟨hx, hr⟩ := h
        subst hx; subst hr
        exact ⟨rfl, rfl, rfl⟩

theorem readItems_decodeIE {V : IEValues} :
    ∀ (n : Nat) (d : F1SetupRequestDecoder V) (r r' : AperReader) (l : List WireIE),
      readIEs n r = .ok (l, r') →
      (readItems F1SetupRequestDecoder.decodeIE n d r).1 = (decodeIEs d l).1 ∧
      (readItems F1SetupRequestDecoder.decodeIE n d r).2.2 = (decodeIEs d l).2 := by
  intro n
  induction n with
  | zero =>
    intro d r r' l h
    simp only [readIEs, Except.ok.injEq, Prod.mk.injEq] at h
    obtain ⟨hl, -⟩ := h
    subst hl
    simp [readItems, decodeIEs]
  | succ n ih =>
    intro d r r' l h
    simp only [readIEs] at h
    cases h1 : readIE r with
    | error e => simp [h1] at h
    | ok p =>
      obtain ⟨x, r1⟩ := p
      simp only [h1] at h
      cases h2 : readIEs n r1 with
      | error e => simp [h2] at h
      | ok q =>
        obtain ⟨xs, r2⟩ := q
        simp only [h2, Except.ok.injEq, Prod.mk.injEq] at h
        obtain ⟨hl, -⟩ := h
        subst hl
        simp only [readItems, decodeIE_ok d r r1 x h1, decodeIEs]
        cases h3 : (d.dispatch x.toMsgIe x.value) with
        | mk d1 e1 =>
          cases e1 with
          | some err => simp
          | none =>
            simp only
            exact ih d1 r1 r2 xs h2

theorem readItems_none {V : IEValues} :
    ∀ (n : Nat) (d : F1SetupRequestDecoder V) (r : AperReader),
      (readItems F1SetupRequestDecoder.decodeIE n d r).2.2 = none →
      ∃ l r', readIEs n r = .ok (l, r') := by
  intro n
  induction n with
  | zero => intro d r _; exact ⟨[], r, rfl⟩
  | succ n ih =>
    intro d r h
    cases h1 : readIE r with
    | error e =>
      have := (decodeIE_error d r e h1).2
      simp only [readItems] at h
      cases h4 : d.decodeIE r with
      | mk s1 p =>
        obtain ⟨r1, e1⟩ := p
        rw [h4] at this h
        simp only at this
        subst this
        simp at h
    | ok p =>
      obtain ⟨x, r1⟩ := p
      simp only [readItems, decodeIE_ok d r r1 x h1] at h
      cases h3 : (d.dispatch x.toMsgIe x.value) with
      | mk d1 e1 =>
        rw [h3] at h
        cases e1 with
        | some err => simp at h
        | none =>
          simp only at h
          obtain ⟨l, r', hl⟩ := ih d1 r1 h
          exact ⟨x :: l, r', by simp [readIEs, h1, hl]⟩

theorem decodeIEs_ok {V : IEValues} (m0 : F1SetupRequest V) :
    ∀ (l : List WireIE) (d : F1SetupRequestDecoder V),
      (∀ x ∈ l, valueOk V m0 x) → (l.map WireIE.id).Nodup →
      (∀ x ∈ l, x.id ∉ keys d) →
      decodeIEs d l =
        (⟨(l.foldl applyIE (d.msg, d.diagList)).1, (l.foldl applyIE (d.msg, d.diagList)).2,
          (l.map entry).reverse ++ d.list⟩, none) := by
  intro l
  induction l with
  | nil => intro d _ _ _; simp [decodeIEs]
  | cons x xs ih =>
    intro d hv hn hk
    have hx : x.id ∉ d.list.map Prod.fst := hk x (List.mem_cons_self _ _)
    have hvx : valueOk V m0 x := hv x (List.mem_cons_self _ _)
    unfold valueOk at hvx
    simp only [decodeIEs, dispatch_fresh d x hx m0, hvx]
    simp only [List.map_cons, List.nodup_cons] at hn
    rw [ih _ (fun y hy => hv y (List.mem_cons_of_mem _ hy)) hn.2]
    · simp [entry]
    · intro y hy
      simp only [keys, List.map_cons, List.mem_cons, not_or]
      refine ⟨?_, hk y (List.mem_cons_of_mem _ hy)⟩
      intro h
      exact hn.1 (h ▸ List.mem_map_of_mem _ hy)

theorem decodeIEs_none {V : IEValues} (m0 : F1SetupRequest V) :
    ∀ (l : List WireIE) (d : F1SetupRequestDecoder V),
      (decodeIEs d l).2 = none →
      (∀ x ∈ l, valueOk V m0 x) ∧ (l.map WireIE.id).Nodup ∧ (∀ x ∈ l, x.id ∉ keys d) := by
  intro l
  induction l with
  | nil => intro d _; simp
  | cons x xs ih =>
    intro d h
    simp only [decodeIEs] at h
    cases h3 : (d.dispatch x.toMsgIe x.value) with
    | mk d1 e1 =>
      rw [h3] at h
      cases e1 with
      | some err => simp at h
      | none =>
        simp only at h
        have hx : x.id ∉ d.list.map Prod.fst := dispatch_none_fresh d x (by rw [h3])
        have h4 := dispatch_fresh d x hx m0
        rw [h3] at h4
        simp only [Prod.mk.injEq] at h4
        obtain ⟨hd1, he⟩ := h4
        obtain ⟨a, b, c⟩ := ih d1 h
        have hk1 : keys d1 = x.id :: keys d := by rw [hd1]; simp [keys]
        refine ⟨?_, ?_, ?_⟩
        · intro y hy
          rcases List.mem_cons.1 hy with rfl | hy
          · exact he.symm
          · exact a y hy
        · simp only [List.map_cons, List.nodup_cons]
          refine ⟨?_, b⟩
          intro hmem
          obtain ⟨y, hy, hyx⟩ := List.mem_map.1 hmem
          have := c y hy
          rw [hk1, hyx] at this
          simp at this
        · intro y hy
          rcases List.mem_cons.1 hy with rfl | hy
          · exact hx
          · have := c y hy
            rw [hk1] at this
            simp only [List.mem_cons, not_or] at this
            exact this.2

theorem decodeBody_eq {V : IEValues} (msg : F1SetupRequest V) (wire : List Nat)
    (l : List WireIE) (h : wireIEs wire = .ok l) :
    msg.decodeBody wire = finish (decodeIEs ⟨msg, [], []⟩ l) := by
  unfold wireIEs at h
  unfold F1SetupRequest.decodeBody ReadSequenceOf
  cases h1 : (bodyReader wire).ReadInteger ⟨0, POW_16 - 1⟩ false with
  | error e => simp [h1] at h
  | ok p =>
    obtain ⟨n, r1⟩ := p
    simp only [h1] at h ⊢
    cases h2 : readIEs n r1 with
    | error e => simp [h2] at h
    | ok q =>
      obtain ⟨xs, r2⟩ := q
      simp only [h2, Except.ok.injEq] at h
      subst h
      obtain ⟨ha, hb⟩ := readItems_decodeIE n ⟨msg, [], []⟩ r1 r2 xs h2
      cases h3 : readItems F1SetupRequestDecoder.decodeIE n ⟨msg, [], []⟩ r1 with
      | mk s1 p =>
        obtain ⟨rr, e1⟩ := p
        rw [h3] at ha hb
        simp only at ha hb
        cases h4 : decodeIEs ⟨msg, [], []⟩ xs with
        | mk d2 e2 =>
          rw [h4] at ha hb
          simp only at ha hb
          subst ha; subst hb
          cases e1 <;> rfl

theorem decodeBody_none {V : IEValues} (msg : F1SetupRequest V) (wire : List Nat)
    (h : (msg.decodeBody wire).err = none) : ∃ l, wireIEs wire = .ok l := by
  unfold F1SetupRequest.decodeBody ReadSequenceOf at h
  unfold wireIEs
  cases h1 : (bodyReader wire).ReadInteger ⟨0, POW_16 - 1⟩ false with
  | error e => simp [h1] at h
  | ok p =>
    obtain ⟨n, r1⟩ := p
    simp only [h1] at h ⊢
    cases h3 : readItems F1SetupRequestDecoder.decodeIE n ⟨msg, [], []⟩ r1 with
    | mk s1 p =>
      obtain ⟨rr, e1⟩ := p
      rw [h3] at h
      cases e1 with
      | some err => simp at h
      | none =>
        obtain ⟨l, r', hl⟩ := readItems_none n ⟨msg, [], []⟩ r1 (by rw [h3])
        exact ⟨l, by simp [hl]⟩

/-! ## The deferred wrapper and the mandatory checks -/

theorem Decode_err {V : IEValues} (msg : F1SetupRequest V) (wire : List Nat) :
    (msg.Decode wire).err =
      match (msg.decodeBody wire).err with
      | none => none
      | some e => some ("F1SetupRequest: " ++ e) := by
  show (if (msg.decodeBody wire).err ≠ none then
      msgErrors (some "F1SetupRequest") (msg.decodeBody wire).err
    else (msg.decodeBody wire).err) = _
  cases (msg.decodeBody wire).err with
  | none => rfl
  | some e => simp [msgErrors]

theorem Decode_err_none_iff {V : IEValues} (msg : F1SetupRequest V) (wire : List Nat) :
    (msg.Decode wire).err = none ↔ (msg.decodeBody wire).err = none := by
  rw [Decode_err]
  cases (msg.decodeBody wire).err <;> simp

theorem Decode_err_some {V : IEValues} (msg : F1SetupRequest V) (wire : List Nat) (e : Error)
    (h : (msg.decodeBody wire).err = some e) :
    (msg.Decode wire).err = some ("F1SetupRequest: " ++ e) := by
  rw [Decode_err, h]

theorem Decode_msg {V : IEValues} (msg : F1SetupRequest V) (wire : List Nat) :
    (msg.Decode wire).msg = (msg.decodeBody wire).msg := rfl

theorem Decode_decoder {V : IEValues} (msg : F1SetupRequest V) (wire : List Nat) :
    (msg.Decode wire).decoder = (msg.decodeBody wire).decoder := rfl

theorem Decode_diagList {V : IEValues} (msg : F1SetupRequest V) (wire : List Nat) :
    (msg.Decode wire).diagList = (msg.decodeBody wire).diagList := rfl

theorem mandatoryCheck_msg {V : IEValues} (d : F1SetupRequestDecoder V) :
    (mandatoryCheck d).msg = d.msg := by
  unfold mandatoryCheck
  split_ifs <;> rfl

theorem mandatoryCheck_diagList {V : IEValues} (d : F1SetupRequestDecoder V) :
    (mandatoryCheck d).diagList = [] := by
  unfold mandatoryCheck
  split_ifs <;> rfl

theorem mandatoryCheck_err {V : IEValues} (d : F1SetupRequestDecoder V) :
    (mandatoryCheck d).err =
      if ProtocolIEID_TransactionID ∉ keys d then
        some "Mandatory field TransactionID is missing"
      else if ProtocolIEID_gNBDUID ∉ keys d then some "Mandatory field GNBDUID is missing"
      else if ProtocolIEID_GNBDURRCVersion ∉ keys d then
        some "Mandatory field GNBDURRCVersion is missing"
      else none := by
  unfold mandatoryCheck keys
  simp only [lookup_isNone_iff]
  split_ifs <;> rfl

theorem mandatoryCheck_decoder_diag {V : IEValues} (d : F1SetupRequestDecoder V) :
    (mandatoryCheck d).decoder.diagList =
      if ProtocolIEID_TransactionID ∉ keys d then
        d.diagList ++ [⟨⟨Criticality_PresentReject⟩, ⟨ProtocolIEID_TransactionID⟩,
          ⟨TypeOfErrorMissing⟩⟩]
      else if ProtocolIEID_gNBDUID ∉ keys d then
        d.diagList ++ [⟨⟨Criticality_PresentReject⟩, ⟨ProtocolIEID_gNBDUID⟩,
          ⟨TypeOfErrorMissing⟩⟩]
      else if ProtocolIEID_GNBDURRCVersion ∉ keys d then
        d.diagList ++ [⟨⟨Criticality_PresentReject⟩, ⟨ProtocolIEID_GNBDURRCVersion⟩,
          ⟨TypeOfErrorMissing⟩⟩]
      else d.diagList := by
  unfold mandatoryCheck keys
  simp only [lookup_isNone_iff]
  split_ifs <;> rfl

theorem decodeIEs_append {V : IEValues} :
    ∀ (l1 l2 : List WireIE) (d : F1SetupRequestDecoder V),
      decodeIEs d (l1 ++ l2) =
        match decodeIEs d l1 with
        | (d1, some err) => (d1, some err)
        | (d1, none) => decodeIEs d1 l2 := by
  intro l1
  induction l1 with
  | nil => intro l2 d; rfl
  | cons x xs ih =>
    intro l2 d
    simp only [List.cons_append, decodeIEs]
    cases h3 : (d.dispatch x.toMsgIe x.value) with
    | mk d1 e1 =>
      cases e1 with
      | some err => rfl
      | none => exact ih l2 d1

theorem keys_decodeIEs {V : IEValues} (l : List WireIE) (d : F1SetupRequestDecoder V)
    (h : (decodeIEs d l).2 = none) :
    keys (decodeIEs d l).1 = (l.map WireIE.id).reverse ++ keys d := by
  obtain ⟨a, b, c⟩ := decodeIEs_none d.msg l d h
  rw [decodeIEs_ok d.msg l d a b c]
  simp [keys, entry, List.map_reverse, Function.comp_def]

/-! ## Duplicates, missing mandatory fields, returned diagnostics (C2 to C5) -/

/-- C2. Duplicate rejection: when the wire carries the records `pre ++ y :: post`, the
identifier of `y` already occurs in `pre`, and the records of `pre` are dispatched without
error, `Decode` fails with the duplicate error raised for `y`; the decoder, and with it the
message, is left exactly as it was after `pre`, so the value of `y` is never decoded or
stored (whatever the identifier of `y` is). -/
theorem C2_duplicate_rejected {V : IEValues} (msg : F1SetupRequest V) (wire : List Nat)
    (pre post : List WireIE) (y : WireIE)
    (hw : wireIEs wire = .ok (pre ++ y :: post))
    (hdup : y.id ∈ pre.map WireIE.id)
    (hpre : (decodeIEs ⟨msg, [], []⟩ pre).2 = none) :
    (msg.Decode wire).err =
        some ("F1SetupRequest: " ++
          ("Duplicated protocol IEID[" ++ toString y.id ++ "] found")) ∧
      (msg.Decode wire).decoder = (decodeIEs ⟨msg, [], []⟩ pre).1 ∧
      (msg.Decode wire).msg = (decodeIEs ⟨msg, [], []⟩ pre).1.msg := by
  have hk := keys_decodeIEs pre ⟨msg, [], []⟩ hpre
  have hy : y.id ∈ (decodeIEs ⟨msg, [], []⟩ pre).1.list.map Prod.fst := by
    have : y.id ∈ keys (decodeIEs ⟨msg, [], []⟩ pre).1 := by
      rw [hk]; simp only [List.mem_append, List.mem_reverse]; exact Or.inl hdup
    exact this
  have hb := decodeBody_eq msg wire _ hw
  rw [decodeIEs_append] at hb
  cases h1 : decodeIEs ⟨msg, [], []⟩ pre with
  | mk d1 e1 =>
    rw [h1] at hpre hy hb
    simp only at hpre hy
    subst hpre
    simp only [decodeIEs, dispatch_dup d1 y hy, finish] at hb
    refine ⟨?_, ?_, ?_⟩
    · exact Decode_err_some msg wire _ (by rw [hb])
    · rw [Decode_decoder, hb]
    · rw [Decode_msg, hb]

set_option maxRecDepth 100000 in
/-- Witness of C2 on the body `wireDup`, decoded into the zero message: the second record
with identifier 78 is rejected and the decoder stays as the first record left it. -/
theorem C2_duplicate_rejected_witness :
    wireIEs wireDup = .ok ([⟨78, 0, [0, 7]⟩] ++ ⟨78, 0, [0, 8]⟩ :: []) ∧
      (demoZero.Decode wireDup).err =
        some ("F1SetupRequest: " ++ ("Duplicated protocol IEID[" ++ toString 78 ++ "] found")) ∧
      (demoZero.Decode wireDup).decoder = (decodeIEs ⟨demoZero, [], []⟩ [⟨78, 0, [0, 7]⟩]).1 ∧
      (demoZero.Decode wireDup).msg = (decodeIEs ⟨demoZero, [], []⟩ [⟨78, 0, [0, 7]⟩]).1.msg :=
  ⟨by rfl, C2_duplicate_rejected demoZero wireDup [⟨78, 0, [0, 7]⟩] [] ⟨78, 0, [0, 8]⟩
    (by rfl) (by decide) (by rfl)⟩

set_option maxRecDepth 100000 in
/-- C3, counterexample. The body `wireEmpty` is read without error and lacks the mandatory
identifier 42 (gNBDUID), yet the error that `Decode` returns does not name GNBDUID: it names
TransactionID, the first mandatory field that is checked. -/
theorem C3_counterexample :
    wireIEs wireEmpty = .ok [] ∧
      ProtocolIEID_gNBDUID ∉ ([] : List WireIE).map WireIE.id ∧
      (demoZero.Decode wireEmpty).err =
        some "F1SetupRequest: Mandatory field TransactionID is missing" ∧
      (demoZero.Decode wireEmpty).err ≠
        some "F1SetupRequest: Mandatory field GNBDUID is missing" := by
  refine ⟨by rfl, by decide, by rfl, by decide⟩

/-- C3, amended. When the records of the wire have pairwise distinct identifiers and their
values decode, `Decode` fails with the missing-field error of the first mandatory
identifier that is absent, in the order TransactionID (78), GNBDUID (42), GNBDURRCVersion
(171): an absent mandatory field is named when every mandatory field checked before it is
present. -/
theorem C3_missing_mandatory {V : IEValues} (msg : F1SetupRequest V) (wire : List Nat)
    (ies : List WireIE) (hw : wireIEs wire = .ok ies)
    (hnd : (ies.map WireIE.id).Nodup) (hv : ∀ x ∈ ies, valueOk V msg x) :
    (ProtocolIEID_TransactionID ∉ ies.map WireIE.id →
      (msg.Decode wire).err =
        some ("F1SetupRequest: " ++ "Mandatory field TransactionID is missing")) ∧
    (ProtocolIEID_TransactionID ∈ ies.map WireIE.id →
      ProtocolIEID_gNBDUID ∉ ies.map WireIE.id →
      (msg.Decode wire).err =
        some ("F1SetupRequest: " ++ "Mandatory field GNBDUID is missing")) ∧
    (ProtocolIEID_TransactionID ∈ ies.map WireIE.id →
      ProtocolIEID_gNBDUID ∈ ies.map WireIE.id →
      ProtocolIEID_GNBDURRCVersion ∉ ies.map WireIE.id →
      (msg.Decode wire).err =
        some ("F1SetupRequest: " ++ "Mandatory field GNBDURRCVersion is missing")) := by
  have hb := decodeBody_eq msg wire _ hw
  have hd := decodeIEs_ok msg ies ⟨msg, [], []⟩ hv hnd (by simp [keys])
  rw [hd] at hb
  simp only [finish] at hb
  have he := mandatoryCheck_err (V := V) ⟨(ies.foldl applyIE (msg, [])).1,
    (ies.foldl applyIE (msg, [])).2, (ies.map entry).reverse ++ []⟩
  have hkeys : keys (V := V) ⟨(ies.foldl applyIE (msg, [])).1,
      (ies.foldl applyIE (msg, [])).2, (ies.map entry).reverse ++ []⟩ =
      (ies.map WireIE.id).reverse := by
    simp [keys, entry, List.map_reverse, Function.comp_def]
  rw [hkeys] at he
  simp only [List.mem_reverse] at he
  refine ⟨?_, ?_, ?_⟩
  · intro h1
    apply Decode_err_some
    rw [hb, he, if_pos h1]
  · intro h1 h2
    apply Decode_err_some
    rw [hb, he, if_neg (not_not.2 h1), if_pos h2]
  · intro h1 h2 h3
    apply Decode_err_some
    rw [hb, he, if_neg (not_not.2 h1), if_neg (not_not.2 h2), if_pos h3]

set_option maxRecDepth 100000 in
/-- Witness of C3 (amended) on the corruption scenario: in `wireCorrupt` the identifier 42
of a valid body is replaced by the unused identifier 999, and `Decode` fails with the
missing-field error for GNBDUID. -/
theorem C3_missing_mandatory_witness :
    wireIEs wireCorrupt =
        .ok [⟨78, 0, [0, 7]⟩, ⟨999, 0, [1, 44]⟩, ⟨44, 0, [0, 0, 9]⟩, ⟨171, 0, [160]⟩] ∧
      (demoZero.Decode wireCorrupt).err =
        some ("F1SetupRequest: " ++ "Mandatory field GNBDUID is missing") :=
  ⟨by rfl,
    (C3_missing_mandatory demoZero wireCorrupt
      [⟨78, 0, [0, 7]⟩, ⟨999, 0, [1, 44]⟩, ⟨44, 0, [0, 0, 9]⟩, ⟨171, 0, [160]⟩]
      (by rfl) (by decide)
      (by
        intro x hx
        simp only [List.mem_cons, List.mem_singleton, List.not_mem_nil, or_false] at hx
        rcases hx with rfl | rfl | rfl | rfl <;> rfl)).2.1 (by decide) (by decide)⟩

set_option maxRecDepth 100000 in
/-- C4, evaluation at the failing input. Decoding the body `wireEmpty` into the zero message
fails because TransactionID is missing; the decoder has recorded the Missing item for
identifier 78, but the diagnostics list returned to the caller is empty. -/
theorem C4_missing_item_not_returned :
    (demoZero.Decode wireEmpty).err =
        some "F1SetupRequest: Mandatory field TransactionID is missing" ∧
      (demoZero.Decode wireEmpty).decoder.diagList =
        [⟨⟨Criticality_PresentReject⟩, ⟨ProtocolIEID_TransactionID⟩, ⟨TypeOfErrorMissing⟩⟩] ∧
      (demoZero.Decode wireEmpty).diagList = [] := by
  refine ⟨by rfl, by rfl, by rfl⟩

set_option maxRecDepth 100000 in
/-- C5, evaluation at the failing input. Decoding the body `wireNotify` (a valid body plus
one unrecognised element of criticality Notify) into the zero message succeeds; the decoder
has recorded the NotUnderstood item for identifier 999, but the diagnostics list returned
to the caller is empty. -/
theorem C5_notify_item_not_returned :
    (demoZero.Decode wireNotify).err = none ∧
      (demoZero.Decode wireNotify).decoder.diagList =
        [⟨⟨Criticality_PresentNotify⟩, ⟨999⟩, ⟨TypeOfErrorNotunderstood⟩⟩] ∧
      (demoZero.Decode wireNotify).diagList = [] := by
  refine ⟨by rfl, by rfl, by rfl⟩

/-! ## Successful decodes (C9) -/

theorem finish_err_none {V : IEValues} (p : F1SetupRequestDecoder V × Option Error)
    (h : (finish p).err = none) : p.2 = none ∧ (mandatoryCheck p.1).err = none := by
  obtain ⟨d, e⟩ := p
  cases e with
  | some err => simp [finish] at h
  | none => exact ⟨rfl, h⟩

theorem mandatoryCheck_err_none {V : IEValues} (d : F1SetupRequestDecoder V)
    (h : (mandatoryCheck d).err = none) :
    ProtocolIEID_TransactionID ∈ keys d ∧ ProtocolIEID_gNBDUID ∈ keys d ∧
      ProtocolIEID_GNBDURRCVersion ∈ keys d := by
  rw [mandatoryCheck_err] at h
  split_ifs at h with h1 h2 h3
  exact ⟨h1, h2, h3⟩

/-- C9. Decoded-message invariant: when `Decode` succeeds, the wire carries a sequence of
records in which every identifier occurs exactly once, and each of the mandatory
identifiers 78, 42 and 171 occurs exactly once. -/
theorem C9_success_ids_once {V : IEValues} (msg : F1SetupRequest V) (wire : List Nat)
    (h : (msg.Decode wire).err = none) :
    ∃ ies, wireIEs wire = .ok ies ∧
      (∀ k ∈ ies.map WireIE.id, (ies.map WireIE.id).count k = 1) ∧
      (ies.map WireIE.id).count ProtocolIEID_TransactionID = 1 ∧
      (ies.map WireIE.id).count ProtocolIEID_gNBDUID = 1 ∧
      (ies.map WireIE.id).count ProtocolIEID_GNBDURRCVersion = 1 := by
  have h0 := (Decode_err_none_iff msg wire).1 h
  obtain ⟨ies, hw⟩ := decodeBody_none msg wire h0
  rw [decodeBody_eq msg wire ies hw] at h0
  obtain ⟨h1, h2⟩ := finish_err_none _ h0
  obtain ⟨-, hnd, -⟩ := decodeIEs_none msg ies _ h1
  have hk := keys_decodeIEs ies ⟨msg, [], []⟩ h1
  obtain ⟨a, b, c⟩ := mandatoryCheck_err_none _ h2
  rw [hk] at a b c
  simp only [keys, List.map_nil, List.append_nil, List.mem_reverse] at a b c
  exact ⟨ies, hw, fun k hk => List.count_eq_one_of_mem hnd hk,
    List.count_eq_one_of_mem hnd a, List.count_eq_one_of_mem hnd b,
    List.count_eq_one_of_mem hnd c⟩

set_option maxRecDepth 100000 in
/-- Witness of C9 on the body `wireValid`, decoded into the zero message. -/
theorem C9_success_ids_once_witness :
    (demoZero.Decode wireValid).err = none ∧
    ∃ ies, wireIEs wireValid = .ok ies ∧
      (∀ k ∈ ies.map WireIE.id, (ies.map WireIE.id).count k = 1) ∧
      (ies.map WireIE.id).count ProtocolIEID_TransactionID = 1 ∧
      (ies.map WireIE.id).count ProtocolIEID_gNBDUID = 1 ∧
      (ies.map WireIE.id).count ProtocolIEID_GNBDURRCVersion = 1 :=
  ⟨by rfl, C9_success_ids_once demoZero wireValid (by rfl)⟩

/-! ## The effect of one record on message and diagnostics; the ignored extra record (C6) -/

theorem readField_diag {V : IEValues} {α : Type} (d : F1SetupRequestDecoder V) (ieR : AperReader)
    (dec : AperReader → Except Error α) (text : String)
    (set : F1SetupRequest V → α → F1SetupRequest V) :
    (readField d ieR dec text set).1.diagList = d.diagList := by
  unfold readField
  cases dec ieR <;> rfl

theorem readField_msg {V : IEValues} {α : Type} (d : F1SetupRequestDecoder V) (ieR : AperReader)
    (dec : AperReader → Except Error α) (text : String)
    (set : F1SetupRequest V → α → F1SetupRequest V) :
    (readField d ieR dec text set).1.msg =
      match dec ieR with
      | .error _ => d.msg
      | .ok tmp => set d.msg tmp := by
  unfold readField
  cases dec ieR <;> rfl

theorem switchIE_unrecognised {V : IEValues} (d : F1SetupRequestDecoder V) (x : WireIE)
    (r : AperReader) (h : ¬ recognised x.id) :
    d.switchIE x.toMsgIe r =
      (⟨d.msg, d.diagList ++ notUnderstood x, d.list⟩, none) := by
  unfold recognised at h
  simp only [not_or] at h
  obtain ⟨h1, h2, h3, h4, h5, h6, h7, h8⟩ := h
  unfold F1SetupRequestDecoder.switchIE
  simp only [WireIE.toMsgIe, if_neg h1, if_neg h2, if_neg h3, if_neg h4, if_neg h5, if_neg h6,
    if_neg h7, if_neg h8]
  have hr : ¬ recognised x.id := by
    unfold recognised; simp only [not_or]; exact ⟨h1, h2, h3, h4, h5, h6, h7, h8⟩
  by_cases h9 : x.crit ≠ Criticality_PresentIgnore
  · simp only [if_pos h9, notUnderstood, if_neg hr]
  · simp only [if_neg h9, notUnderstood, if_neg hr]
    simp

theorem switchIE_diag {V : IEValues} (d : F1SetupRequestDecoder V) (x : WireIE)
    (r : AperReader) :
    (d.switchIE x.toMsgIe r).1.diagList = d.diagList ++ notUnderstood x := by
  by_cases h : recognised x.id
  · have hn : notUnderstood x = [] := by simp [notUnderstood, h]
    rw [hn, List.append_nil]
    unfold F1SetupRequestDecoder.switchIE
    by_cases h1 : (x.toMsgIe (V := V)).Id.Value = ProtocolIEID_TransactionID
    · simp only [if_pos h1]; exact readField_diag _ _ _ _ _
    simp only [if_neg h1]
    by_cases h2 : (x.toMsgIe (V := V)).Id.Value = ProtocolIEID_gNBDUID
    · simp only [if_pos h2]; exact readField_diag _ _ _ _ _
    simp only [if_neg h2]
    by_cases h3 : (x.toMsgIe (V := V)).Id.Value = ProtocolIEID_gNBDUName
    · simp only [if_pos h3]; exact readField_diag _ _ _ _ _
    simp only [if_neg h3]
    by_cases h4 : (x.toMsgIe (V := V)).Id.Value = ProtocolIEID_gNBDUServedCellsList
    · simp only [if_pos h4]; exact readField_diag _ _ _ _ _
    simp only [if_neg h4]
    by_cases h5 : (x.toMsgIe (V := V)).Id.Value = ProtocolIEID_GNBDURRCVersion
    · simp only [if_pos h5]; exact readField_diag _ _ _ _ _
    simp only [if_neg h5]
    by_cases h6 : (x.toMsgIe (V := V)).Id.Value = ProtocolIEID_TransportLayerAddressInfo
    · simp only [if_pos h6]; exact readField_diag _ _ _ _ _
    simp only [if_neg h6]
    by_cases h7 : (x.toMsgIe (V := V)).Id.Value = ProtocolIEID_BAPAddress
    · simp only [if_pos h7]; exact readField_diag _ _ _ _ _
    simp only [if_neg h7]
    by_cases h8 : (x.toMsgIe (V := V)).Id.Value = ProtocolIEID_ExtendedGNBCUName
    · simp only [if_pos h8]; exact readField_diag _ _ _ _ _
    exfalso
    exact (by unfold recognised at h; simp only [WireIE.toMsgIe] at *; tauto)
  · rw [switchIE_unrecognised d x r h]

theorem switchIE_rel {V : IEValues}
    (R : F1SetupRequestDecoder V × Option Error → F1SetupRequestDecoder V × Option Error → Prop)
    (d d' : F1SetupRequestDecoder V) (ie : F1apMessageIE V) (r : AperReader)
    (hread : ∀ (α : Type) (dec : AperReader → Except Error α) (text : String)
      (set : F1SetupRequest V → α → F1SetupRequest V),
      R (readField d r dec text set) (readField d' r dec text set))
    (hdef : ∀ items, R ({ d with diagList := d.diagList ++ items }, none)
      ({ d' with diagList := d'.diagList ++ items }, none))
    (hnone : R (d, none) (d', none)) :
    R (d.switchIE ie r) (d'.switchIE ie r) := by
  unfold F1SetupRequestDecoder.switchIE
  by_cases h1 : ie.Id.Value = ProtocolIEID_TransactionID
  · simp only [if_pos h1]; exact hread _ _ _ _
  simp only [if_neg h1]
  by_cases h2 : ie.Id.Value = ProtocolIEID_gNBDUID
  · simp only [if_pos h2]; exact hread _ _ _ _
  simp only [if_neg h2]
  by_cases h3 : ie.Id.Value = ProtocolIEID_gNBDUName
  · simp only [if_pos h3]; exact hread _ _ _ _
  simp only [if_neg h3]
  by_cases h4 : ie.Id.Value = ProtocolIEID_gNBDUServedCellsList
  · simp only [if_pos h4]; exact hread _ _ _ _
  simp only [if_neg h4]
  by_cases h5 : ie.Id.Value = ProtocolIEID_GNBDURRCVersion
  · simp only [if_pos h5]; exact hread _ _ _ _
  simp only [if_neg h5]
  by_cases h6 : ie.Id.Value = ProtocolIEID_TransportLayerAddressInfo
  · simp only [if_pos h6]; exact hread _ _ _ _
  simp only [if_neg h6]
  by_cases h7 : ie.Id.Value = ProtocolIEID_BAPAddress
  · simp only [if_pos h7]; exact hread _ _ _ _
  simp only [if_neg h7]
  by_cases h8 : ie.Id.Value = ProtocolIEID_ExtendedGNBCUName
  · simp only [if_pos h8]; exact hread _ _ _ _
  simp only [if_neg h8]
  by_cases h9 : ie.Criticality.Value ≠ Criticality_PresentIgnore
  · simp only [if_pos h9]; exact hdef _
  · simp only [if_neg h9]; exact hnone

theorem switchIE_msg {V : IEValues} (d d' : F1SetupRequestDecoder V) (ie : F1apMessageIE V)
    (r : AperReader) (h : d.msg = d'.msg) :
    (d.switchIE ie r).1.msg = (d'.switchIE ie r).1.msg := by
  apply switchIE_rel (fun p q => p.1.msg = q.1.msg)
  · intro α dec text set
    rw [readField_msg, readField_msg, h]
  · intro _; exact h
  · exact h

theorem applyIE_eq {V : IEValues} (s : F1SetupRequest V × List CriticalityDiagnosticsIEItem)
    (x : WireIE) : applyIE s x = (setField s.1 x, s.2 ++ notUnderstood x) := by
  have e2 : (⟨s.1, s.2, []⟩ : F1SetupRequestDecoder V).dispatch x.toMsgIe x.value =
      F1SetupRequestDecoder.switchIE ⟨s.1, s.2, [(x.id, x.toMsgIe)]⟩
        x.toMsgIe (NewReader x.value) := by
    simp [F1SetupRequestDecoder.dispatch, WireIE.toMsgIe]
  unfold applyIE setField
  rw [e2, switchIE_diag,
    switchIE_msg ⟨s.1, s.2, [(x.id, x.toMsgIe)]⟩ ⟨s.1, [], []⟩ _ _ rfl]

theorem foldl_applyIE {V : IEValues} (l : List WireIE)
    (s : F1SetupRequest V × List CriticalityDiagnosticsIEItem) :
    l.foldl applyIE s = (l.foldl setField s.1, s.2 ++ l.flatMap notUnderstood) := by
  induction l generalizing s with
  | nil => simp
  | cons x xs ih => simp [List.foldl_cons, ih, applyIE_eq, List.append_assoc]

theorem setField_unrecognised {V : IEValues} (m : F1SetupRequest V) (x : WireIE)
    (h : ¬ recognised x.id) : setField m x = m := by
  unfold setField
  rw [switchIE_unrecognised _ x _ h]

theorem valueOk_unrecognised {V : IEValues} (m : F1SetupRequest V) (x : WireIE)
    (h : ¬ recognised x.id) : valueOk V m x := by
  unfold valueOk
  have e2 : (⟨m, [], []⟩ : F1SetupRequestDecoder V).dispatch x.toMsgIe x.value =
      F1SetupRequestDecoder.switchIE ⟨m, [], [(x.id, x.toMsgIe)]⟩
        x.toMsgIe (NewReader x.value) := by
    simp [F1SetupRequestDecoder.dispatch, WireIE.toMsgIe]
  rw [e2, switchIE_unrecognised _ x _ h]

theorem decodeBody_of_ok {V : IEValues} (msg : F1SetupRequest V) (wire : List Nat)
    (ies : List WireIE) (hw : wireIEs wire = .ok ies)
    (hnd : (ies.map WireIE.id).Nodup) (hv : ∀ x ∈ ies, valueOk V msg x) :
    msg.decodeBody wire =
      mandatoryCheck ⟨ies.foldl setField msg, ies.flatMap notUnderstood,
        (ies.map entry).reverse⟩ := by
  rw [decodeBody_eq msg wire _ hw,
    decodeIEs_ok msg ies ⟨msg, [], []⟩ hv hnd (by simp [keys])]
  simp [finish, foldl_applyIE]

theorem keys_mk {V : IEValues} (m : F1SetupRequest V) (dl : List CriticalityDiagnosticsIEItem)
    (ies : List WireIE) :
    keys (V := V) ⟨m, dl, (ies.map entry).reverse⟩ = (ies.map WireIE.id).reverse := by
  simp [keys, entry, List.map_reverse, Function.comp_def]

theorem decodeBody_valid {V : IEValues} (msg : F1SetupRequest V) (wire : List Nat)
    (ies : List WireIE) (hw : wireIEs wire = .ok ies)
    (h : (msg.decodeBody wire).err = none) :
    (ies.map WireIE.id).Nodup ∧ (∀ x ∈ ies, valueOk V msg x) ∧
      ProtocolIEID_TransactionID ∈ ies.map WireIE.id ∧
      ProtocolIEID_gNBDUID ∈ ies.map WireIE.id ∧
      ProtocolIEID_GNBDURRCVersion ∈ ies.map WireIE.id := by
  have h0 := h
  rw [decodeBody_eq msg wire ies hw] at h0
  obtain ⟨h1, h2⟩ := finish_err_none _ h0
  obtain ⟨hv, hnd, -⟩ := decodeIEs_none msg ies _ h1
  have hk := keys_decodeIEs ies ⟨msg, [], []⟩ h1
  obtain ⟨a, b, c⟩ := mandatoryCheck_err_none _ h2
  rw [hk] at a b c
  simp only [keys, List.map_nil, List.append_nil, List.mem_reverse] at a b c
  exact ⟨hnd, hv, a, b, c⟩

/-- C6. Criticality-driven tolerance (Ignore): let a wire carry the records `pre ++ post`
and be decoded without error, and let a second wire carry the same records with one extra
record `x` inserted, whose identifier is not recognised, does not occur among the others,
and whose criticality is Ignore.  Then decoding the second wire succeeds too, yields the
same message, returns no diagnostics, and the decoder has recorded exactly the items it
records without the extra record. -/
theorem C6_ignore_extra {V : IEValues} (msg : F1SetupRequest V) (wire wire' : List Nat)
    (pre post : List WireIE) (x : WireIE)
    (hw : wireIEs wire = .ok (pre ++ post))
    (hw' : wireIEs wire' = .ok (pre ++ x :: post))
    (hx : ¬ recognised x.id) (hc : x.crit = Criticality_PresentIgnore)
    (hfresh : x.id ∉ (pre ++ post).map WireIE.id)
    (hvalid : (msg.Decode wire).err = none) :
    (msg.Decode wire').err = none ∧
      (msg.Decode wire').msg = (msg.Decode wire).msg ∧
      (msg.Decode wire').diagList = [] ∧
      (msg.Decode wire').decoder.diagList = (msg.Decode wire).decoder.diagList := by
  have h0 := (Decode_err_none_iff msg wire).1 hvalid
  obtain ⟨hnd, hv, a, b, c⟩ := decodeBody_valid msg wire _ hw h0
  have hnd' : ((pre ++ x :: post).map WireIE.id).Nodup := by
    simp only [List.map_append, List.map_cons] at hnd hfresh ⊢
    rw [List.nodup_middle, List.nodup_cons]
    exact ⟨hfresh, hnd⟩
  have hv' : ∀ y ∈ pre ++ x :: post, valueOk V msg y := by
    intro y hy
    simp only [List.mem_append, List.mem_cons] at hy
    rcases hy with hy | rfl | hy
    · exact hv y (List.mem_append_left _ hy)
    · exact valueOk_unrecognised msg y hx
    · exact hv y (List.mem_append_right _ hy)
  have e := decodeBody_of_ok msg wire _ hw hnd hv
  have e' := decodeBody_of_ok msg wire' _ hw' hnd' hv'
  have hnu : notUnderstood x = [] := by simp [notUnderstood, hx, hc]
  have hf : (pre ++ x :: post).foldl setField msg = (pre ++ post).foldl setField msg := by
    simp only [List.foldl_append, List.foldl_cons, setField_unrecognised _ x hx]
  have hd : (pre ++ x :: post).flatMap notUnderstood = (pre ++ post).flatMap notUnderstood := by
    simp [List.flatMap_append, List.flatMap_cons, hnu]
  rw [hf, hd] at e'
  have a' : ProtocolIEID_TransactionID ∈ (pre ++ x :: post).map WireIE.id := by
    simp only [List.map_append, List.map_cons, List.mem_append, List.mem_cons] at a ⊢; tauto
  have b' : ProtocolIEID_gNBDUID ∈ (pre ++ x :: post).map WireIE.id := by
    simp only [List.map_append, List.map_cons, List.mem_append, List.mem_cons] at b ⊢; tauto
  have c' : ProtocolIEID_GNBDURRCVersion ∈ (pre ++ x :: post).map WireIE.id := by
    simp only [List.map_append, List.map_cons, List.mem_append, List.mem_cons] at c ⊢; tauto
  refine ⟨?_, ?_, ?_, ?_⟩
  · rw [Decode_err_none_iff, e', mandatoryCheck_err, keys_mk]
    simp only [List.mem_reverse]
    rw [if_neg (not_not.2 a'), if_neg (not_not.2 b'), if_neg (not_not.2 c')]
  · rw [Decode_msg, Decode_msg, e, e', mandatoryCheck_msg, mandatoryCheck_msg]
  · rw [Decode_diagList, e', mandatoryCheck_diagList]
  · rw [Decode_decoder, Decode_decoder, e, e', mandatoryCheck_decoder_diag,
      mandatoryCheck_decoder_diag, keys_mk, keys_mk]
    simp only [List.mem_reverse]
    rw [if_neg (not_not.2 a'), if_neg (not_not.2 b'), if_neg (not_not.2 c'),
      if_neg (not_not.2 a), if_neg (not_not.2 b), if_neg (not_not.2 c)]

set_option maxRecDepth 100000 in
/-- Witness of C6: `wireIgnore` is `wireValid` with one extra record of the unrecognised
identifier 999 and criticality Ignore. -/
theorem C6_ignore_extra_witness :
    (demoZero.Decode wireValid).err = none ∧
      wireIEs wireIgnore = .ok ([⟨78, 0, [0, 7]⟩, ⟨42, 0, [1, 44]⟩, ⟨44, 0, [0, 0, 9]⟩,
        ⟨171, 0, [160]⟩] ++ ⟨999, 1, [1, 2]⟩ :: []) ∧
      (demoZero.Decode wireIgnore).err = none ∧
      (demoZero.Decode wireIgnore).msg = (demoZero.Decode wireValid).msg ∧
      (demoZero.Decode wireIgnore).diagList = [] ∧
      (demoZero.Decode wireIgnore).decoder.diagList =
        (demoZero.Decode wireValid).decoder.diagList :=
  ⟨by rfl, by rfl,
    C6_ignore_extra demoZero wireValid wireIgnore
      [⟨78, 0, [0, 7]⟩, ⟨42, 0, [1, 44]⟩, ⟨44, 0, [0, 0, 9]⟩, ⟨171, 0, [160]⟩] []
      ⟨999, 1, [1, 2]⟩ (by rfl) (by rfl) (by decide) (by rfl) (by decide) (by rfl)⟩

/-! ## The stores of distinct identifiers commute; wire order (C8) -/

theorem readField_msg_error {V : IEValues} {α : Type} (d : F1SetupRequestDecoder V)
    (ieR : AperReader) (dec : AperReader → Except Error α) (text : String)
    (set : F1SetupRequest V → α → F1SetupRequest V) (e : Error) (h : dec ieR = .error e) :
    (readField d ieR dec text set).1.msg = d.msg := by
  unfold readField
  rw [h]

theorem readField_msg_ok {V : IEValues} {α : Type} (d : F1SetupRequestDecoder V)
    (ieR : AperReader) (dec : AperReader → Except Error α) (text : String)
    (set : F1SetupRequest V → α → F1SetupRequest V) (v : α) (h : dec ieR = .ok v) :
    (readField d ieR dec text set).1.msg = set d.msg v := by
  unfold readField
  rw [h]

theorem setField_cases {V : IEValues} (x : WireIE) :
    (∀ m : F1SetupRequest V, setField m x = m) ∨
    (x.id = ProtocolIEID_TransactionID ∧
      ∃ v, ∀ m : F1SetupRequest V, setField m x = { m with TransactionID := v }) ∨
    (x.id = ProtocolIEID_gNBDUID ∧
      ∃ v, ∀ m : F1SetupRequest V, setField m x = { m with GNBDUID := v }) ∨
    (x.id = ProtocolIEID_gNBDUName ∧
      ∃ v, ∀ m : F1SetupRequest V, setField m x = { m with GNBDUName := v }) ∨
    (x.id = ProtocolIEID_gNBDUServedCellsList ∧
      ∃ v, ∀ m : F1SetupRequest V, setField m x = { m with GNBDUServedCellsList := v }) ∨
    (x.id = ProtocolIEID_GNBDURRCVersion ∧
      ∃ v, ∀ m : F1SetupRequest V, setField m x = { m with GNBDURRCVersion := v }) ∨
    (x.id = ProtocolIEID_TransportLayerAddressInfo ∧
      ∃ v, ∀ m : F1SetupRequest V, setField m x = { m with TransportLayerAddressInfo := v }) ∨
    (x.id = ProtocolIEID_BAPAddress ∧
      ∃ v, ∀ m : F1SetupRequest V, setField m x = { m with BAPAddress := v }) ∨
    (x.id = ProtocolIEID_ExtendedGNBCUName ∧
      ∃ v, ∀ m : F1SetupRequest V, setField m x = { m with ExtendedGNBCUName := v }) := by
  by_cases h1 : x.id = ProtocolIEID_TransactionID
  · cases hd : V.decTransactionID (NewReader x.value) with
    | error err =>
      left; intro m
      unfold setField F1SetupRequestDecoder.switchIE
      simp only [WireIE.toMsgIe, if_pos h1]
      rw [readField_msg_error _ _ _ _ _ _ hd]
    | ok v =>
      right; left
      refine ⟨h1, v, fun m => ?_⟩
      unfold setField F1SetupRequestDecoder.switchIE
      simp only [WireIE.toMsgIe, if_pos h1]
      rw [readField_msg_ok _ _ _ _ _ _ hd]
  by_cases h2 : x.id = ProtocolIEID_gNBDUID
  · cases hd : V.decGNBDUID (NewReader x.value) with
    | error err =>
      left; intro m
      unfold setField F1SetupRequestDecoder.switchIE
      simp only [WireIE.toMsgIe, if_neg h1, if_pos h2]
      rw [readField_msg_error _ _ _ _ _ _ hd]
    | ok v =>
      right; right; left
      refine ⟨h2, v, fun m => ?_⟩
      unfold setField F1SetupRequestDecoder.switchIE
      simp only [WireIE.toMsgIe, if_neg h1, if_pos h2]
      rw [readField_msg_ok _ _ _ _ _ _ hd]
  by_cases h3 : x.id = ProtocolIEID_gNBDUName
  · cases hd : V.decOCTETSTRING ⟨1, 150⟩ true (NewReader x.value) with
    | error err =>
      left; intro m
      unfold setField F1SetupRequestDecoder.switchIE
      simp only [WireIE.toMsgIe, if_neg h1, if_neg h2, if_pos h3]
      rw [readField_msg_error _ _ _ _ _ _ hd]
    | ok v =>
      right; right; right; left
      refine ⟨h3, v, fun m => ?_⟩
      unfold setField F1SetupRequestDecoder.switchIE
      simp only [WireIE.toMsgIe, if_neg h1, if_neg h2, if_pos h3]
      rw [readField_msg_ok _ _ _ _ _ _ hd]
  by_cases h4 : x.id = ProtocolIEID_gNBDUServedCellsList
  · cases hd : V.decSequence ⟨1, V.maxCellingNBDU⟩ false (NewReader x.value) with
    | error err =>
      left; intro m
      unfold setField F1SetupRequestDecoder.switchIE
      simp only [WireIE.toMsgIe, if_neg h1, if_neg h2, if_neg h3, if_pos h4]
      rw [readField_msg_error _ _ _ _ _ _ hd]
    | ok v =>
      right; right; right; right; left
      refine ⟨h4, v.foldl (fun acc i => acc ++ [i]) [], fun m => ?_⟩
      unfold setField F1SetupRequestDecoder.switchIE
      simp only [WireIE.toMsgIe, if_neg h1, if_neg h2, if_neg h3, if_pos h4]
      rw [readField_msg_ok _ _ _ _ _ _ hd]
  by_cases h5 : x.id = ProtocolIEID_GNBDURRCVersion
  · cases hd : V.decRRCVersion (NewReader x.value) with
    | error err =>
      left; intro m
      unfold setField F1SetupRequestDecoder.switchIE
      simp only [WireIE.toMsgIe, if_neg h1, if_neg h2, if_neg h3, if_neg h4, if_pos h5]
      rw [readField_msg_error _ _ _ _ _ _ hd]
    | ok v =>
      right; right; right; right; right; left
      refine ⟨h5, v, fun m => ?_⟩
      unfold setField F1SetupRequestDecoder.switchIE
      simp only [WireIE.toMsgIe, if_neg h1, if_neg h2, if_neg h3, if_neg h4, if_pos h5]
      rw [readField_msg_ok _ _ _ _ _ _ hd]
  by_cases h6 : x.id = ProtocolIEID_TransportLayerAddressInfo
  · cases hd : V.decTransportLayerAddressInfo (NewReader x.value) with
    | error err =>
      left; intro m
      unfold setField F1SetupRequestDecoder.switchIE
      simp only [WireIE.toMsgIe, if_neg h1, if_neg h2, if_neg h3, if_neg h4, if_neg h5, if_pos h6]
      rw [readField_msg_error _ _ _ _ _ _ hd]
    | ok v =>
      right; right; right; right; right; right; left
      refine ⟨h6, some v, fun m => ?_⟩
      unfold setField F1SetupRequestDecoder.switchIE
      simp only [WireIE.toMsgIe, if_neg h1, if_neg h2, if_neg h3, if_neg h4, if_neg h5, if_pos h6]
      rw [readField_msg_ok _ _ _ _ _ _ hd]
  by_cases h7 : x.id = ProtocolIEID_BAPAddress
  · cases hd : V.decBAPAddress (NewReader x.value) with
    | error err =>
      left; intro m
      unfold setField F1SetupRequestDecoder.switchIE
      simp only [WireIE.toMsgIe, if_neg h1, if_neg h2, if_neg h3, if_neg h4, if_neg h5, if_neg h6, if_pos h7]
      rw [readField_msg_error _ _ _ _ _ _ hd]
    | ok v =>
      right; right; right; right; right; right; right; left
      refine ⟨h7, some v, fun m => ?_⟩
      unfold setField F1SetupRequestDecoder.switchIE
      simp only [WireIE.toMsgIe, if_neg h1, if_neg h2, if_neg h3, if_neg h4, if_neg h5, if_neg h6, if_pos h7]
      rw [readField_msg_ok _ _ _ _ _ _ hd]
  by_cases h8 : x.id = ProtocolIEID_ExtendedGNBCUName
  · cases hd : V.decExtendedGNBCUName (NewReader x.value) with
    | error err =>
      left; intro m
      unfold setField F1SetupRequestDecoder.switchIE
      simp only [WireIE.toMsgIe, if_neg h1, if_neg h2, if_neg h3, if_neg h4, if_neg h5, if_neg h6, if_neg h7, if_pos h8]
      rw [readField_msg_error _ _ _ _ _ _ hd]
    | ok v =>
      right; right; right; right; right; right; right; right
      refine ⟨h8, some v, fun m => ?_⟩
      unfold setField F1SetupRequestDecoder.switchIE
      simp only [WireIE.toMsgIe, if_neg h1, if_neg h2, if_neg h3, if_neg h4, if_neg h5, if_neg h6, if_neg h7, if_pos h8]
      rw [readField_msg_ok _ _ _ _ _ _ hd]
  left
  intro m
  exact setField_unrecognised m x (by unfold recognised; tauto)

theorem setField_comm {V : IEValues} (m : F1SetupRequest V) (x y : WireIE)
    (h : x.id ≠ y.id) : setField (setField m x) y = setField (setField m y) x := by
  rcases setField_cases (V := V) x with hx' | ⟨hx, vx, hx'⟩ | ⟨hx, vx, hx'⟩ | ⟨hx, vx, hx'⟩ |
      ⟨hx, vx, hx'⟩ | ⟨hx, vx, hx'⟩ | ⟨hx, vx, hx'⟩ | ⟨hx, vx, hx'⟩ | ⟨hx, vx, hx'⟩ <;>
    rcases setField_cases (V := V) y with hy' | ⟨hy, vy, hy'⟩ | ⟨hy, vy, hy'⟩ | ⟨hy, vy, hy'⟩ |
      ⟨hy, vy, hy'⟩ | ⟨hy, vy, hy'⟩ | ⟨hy, vy, hy'⟩ | ⟨hy, vy, hy'⟩ | ⟨hy, vy, hy'⟩ <;>
    first
    | exact absurd (hx.trans hy.symm) h
    | (simp only [hx', hy'])

/-- C8. Wire-order tolerance: when two wires carry sequences of records that are
permutations of each other, with pairwise distinct identifiers and values that decode,
`Decode` returns the same error or success on both, leaves the same message, and the
decoders have recorded the same diagnostics items up to order. -/
theorem C8_wire_order {V : IEValues} (msg : F1SetupRequest V) (w1 w2 : List Nat)
    (l1 l2 : List WireIE) (hw1 : wireIEs w1 = .ok l1) (hw2 : wireIEs w2 = .ok l2)
    (hperm : l1.Perm l2) (hnd : (l1.map WireIE.id).Nodup)
    (hv : ∀ x ∈ l1, valueOk V msg x) :
    (msg.Decode w1).err = (msg.Decode w2).err ∧
      (msg.Decode w1).msg = (msg.Decode w2).msg ∧
      ((msg.Decode w1).decoder.diagList).Perm (msg.Decode w2).decoder.diagList ∧
      (msg.Decode w1).diagList = (msg.Decode w2).diagList := by
  have hnd2 : (l2.map WireIE.id).Nodup := (hperm.map WireIE.id).nodup_iff.1 hnd
  have hv2 : ∀ x ∈ l2, valueOk V msg x := fun x hx => hv x (hperm.mem_iff.2 hx)
  have e1 := decodeBody_of_ok msg w1 _ hw1 hnd hv
  have e2 := decodeBody_of_ok msg w2 _ hw2 hnd2 hv2
  have hmem : ∀ k, k ∈ l1.map WireIE.id ↔ k ∈ l2.map WireIE.id :=
    fun k => (hperm.map WireIE.id).mem_iff
  have hfold : l1.foldl setField msg = l2.foldl setField msg := by
    apply hperm.foldl_eq'
    intro x hx y hy z
    by_cases hxy : x.id = y.id
    · rw [List.inj_on_of_nodup_map hnd hx hy hxy]
    · exact setField_comm z x y hxy
  have hdiag : (l1.flatMap notUnderstood).Perm (l2.flatMap notUnderstood) :=
    hperm.flatMap_right _
  refine ⟨?_, ?_, ?_, ?_⟩
  · rw [Decode_err, Decode_err, e1, e2, mandatoryCheck_err, mandatoryCheck_err, keys_mk, keys_mk]
    simp only [List.mem_reverse, hmem]
  · rw [Decode_msg, Decode_msg, e1, e2, mandatoryCheck_msg, mandatoryCheck_msg, hfold]
  · rw [Decode_decoder, Decode_decoder, e1, e2, mandatoryCheck_decoder_diag,
      mandatoryCheck_decoder_diag, keys_mk, keys_mk]
    simp only [List.mem_reverse, hmem]
    split_ifs <;> first | exact hdiag.append_right _ | exact hdiag
  · rw [Decode_diagList, Decode_diagList, e1, e2, mandatoryCheck_diagList,
      mandatoryCheck_diagList]

set_option maxRecDepth 100000 in
/-- Witness of C8: `wirePermuted` carries the records of `wireValid` in another order. -/
theorem C8_wire_order_witness :
    wireIEs wireValid =
        .ok [⟨78, 0, [0, 7]⟩, ⟨42, 0, [1, 44]⟩, ⟨44, 0, [0, 0, 9]⟩, ⟨171, 0, [160]⟩] ∧
      wireIEs wirePermuted =
        .ok [⟨171, 0, [160]⟩, ⟨44, 0, [0, 0, 9]⟩, ⟨78, 0, [0, 7]⟩, ⟨42, 0, [1, 44]⟩] ∧
      (demoZero.Decode wireValid).err = (demoZero.Decode wirePermuted).err ∧
      (demoZero.Decode wireValid).msg = (demoZero.Decode wirePermuted).msg ∧
      ((demoZero.Decode wireValid).decoder.diagList).Perm
        (demoZero.Decode wirePermuted).decoder.diagList ∧
      (demoZero.Decode wireValid).diagList = (demoZero.Decode wirePermuted).diagList :=
  ⟨by rfl, by rfl,
    C8_wire_order demoZero wireValid wirePermuted
      [⟨78, 0, [0, 7]⟩, ⟨42, 0, [1, 44]⟩, ⟨44, 0, [0, 0, 9]⟩, ⟨171, 0, [160]⟩]
      [⟨171, 0, [160]⟩, ⟨44, 0, [0, 0, 9]⟩, ⟨78, 0, [0, 7]⟩, ⟨42, 0, [1, 44]⟩]
      (by rfl) (by rfl) (by decide) (by decide)
      (by
        intro x hx
        simp only [List.mem_cons, List.mem_singleton, List.not_mem_nil, or_false] at hx
        rcases hx with rfl | rfl | rfl | rfl <;> rfl)⟩

/-! ## Bits, octets and the framing of records -/

theorem natToBits_length (n v : Nat) : (natToBits n v).length = n := by
  induction n generalizing v with
  | zero => rfl
  | succ n ih => simp [natToBits, ih]

theorem bitsToNat_append_single (l : List Bool) (b : Bool) :
    bitsToNat (l ++ [b]) = 2 * bitsToNat l + (if b then 1 else 0) := by
  simp [bitsToNat, List.foldl_append]

theorem bitsToNat_natToBits (n v : Nat) : bitsToNat (natToBits n v) = v % 2 ^ n := by
  induction n generalizing v with
  | zero => simp [natToBits, bitsToNat, Nat.mod_one]
  | succ n ih =>
    rw [natToBits, bitsToNat_append_single, ih, Nat.pow_succ', Nat.mod_mul]
    rcases Nat.mod_two_eq_zero_or_one v with h | h
    · simp [h]
    · simp [h]; omega

theorem readBits_append (n v p : Nat) (rest : List Bool) :
    (⟨natToBits n v ++ rest, p⟩ : AperReader).readBits n =
      .ok (v % 2 ^ n, ⟨rest, p + n⟩) := by
  have hl := natToBits_length n v
  unfold AperReader.readBits
  simp only [List.length_append, hl]
  rw [if_neg (by omega)]
  have h1 : (natToBits n v ++ rest).take n = natToBits n v := by
    rw [List.take_append_of_le_length (by omega), List.take_of_length_le (by omega)]
  have h2 : (natToBits n v ++ rest).drop n = rest := by
    rw [List.drop_append_of_le_length (by omega), List.drop_of_length_le (by omega)]
    rfl
  rw [h1, h2, bitsToNat_natToBits]

theorem align_append (p : Nat) (rest : List Bool) :
    (⟨List.replicate (padLen p) false ++ rest, p⟩ : AperReader).align =
      ⟨rest, p + padLen p⟩ := by
  unfold AperReader.align
  simp only [AperReader.mk.injEq, and_true]
  rw [List.drop_append_of_le_length (by simp), List.drop_of_length_le (by simp)]
  rfl

theorem octet_roundtrip : ∀ b0 b1 b2 b3 b4 b5 b6 b7 : Bool,
    natToBits 8 (bitsToNat [b0, b1, b2, b3, b4, b5, b6, b7]) = [b0, b1, b2, b3, b4, b5, b6, b7] := by
  decide

theorem octet_lt : ∀ b0 b1 b2 b3 b4 b5 b6 b7 : Bool,
    bitsToNat [b0, b1, b2, b3, b4, b5, b6, b7] < 256 := by
  decide

theorem bitsToBytes_lt : ∀ (n : Nat) (X : List Bool), X.length ≤ n →
    ∀ b ∈ bitsToBytes X, b < 256 := by
  intro n
  induction n using Nat.strong_induction_on with
  | _ n ih =>
    intro X hX b hb
    match X, hX, hb with
    | b0 :: b1 :: b2 :: b3 :: b4 :: b5 :: b6 :: b7 :: rest, hX, hb =>
      simp only [bitsToBytes, List.mem_cons] at hb
      rcases hb with rfl | hb
      · exact octet_lt _ _ _ _ _ _ _ _
      · simp only [List.length_cons] at hX
        exact ih (n - 8) (by omega) rest (by omega) b hb
    | [], _, hb => simp [bitsToBytes] at hb
    | [_], _, hb => simp [bitsToBytes] at hb
    | [_, _], _, hb => simp [bitsToBytes] at hb
    | [_, _, _], _, hb => simp [bitsToBytes] at hb
    | [_, _, _, _], _, hb => simp [bitsToBytes] at hb
    | [_, _, _, _, _], _, hb => simp [bitsToBytes] at hb
    | [_, _, _, _, _, _], _, hb => simp [bitsToBytes] at hb
    | [_, _, _, _, _, _, _], _, hb => simp [bitsToBytes] at hb

theorem bytesToBits_bitsToBytes : ∀ (n : Nat) (X : List Bool), X.length = 8 * n →
    bytesToBits (bitsToBytes X) = X := by
  intro n
  induction n with
  | zero =>
    intro X hX
    have : X = [] := List.eq_nil_of_length_eq_zero (by omega)
    subst this
    rfl
  | succ n ih =>
    intro X hX
    match X, hX with
    | b0 :: b1 :: b2 :: b3 :: b4 :: b5 :: b6 :: b7 :: rest, hX =>
      simp only [List.length_cons] at hX
      simp only [bitsToBytes, bytesToBits, octet_roundtrip, ih rest (by omega)]
      rfl
    | [], hX => simp at hX
    | [_], hX => simp at hX; omega
    | [_, _], hX => simp at hX; omega
    | [_, _, _], hX => simp at hX; omega
    | [_, _, _, _], hX => simp at hX; omega
    | [_, _, _, _, _], hX => simp at hX; omega
    | [_, _, _, _, _, _], hX => simp at hX; omega
    | [_, _, _, _, _, _, _], hX => simp at hX; omega

theorem bytesToBits_length (bs : List Nat) : (bytesToBits bs).length = 8 * bs.length := by
  induction bs with
  | nil => rfl
  | cons b bs ih => simp [bytesToBits, natToBits_length, ih]; omega

theorem bitsToBytes_bytesToBits (bs : List Nat) (h : ∀ b ∈ bs, b < 256) :
    bitsToBytes (bytesToBits bs) = bs := by
  induction bs with
  | nil => rfl
  | cons b bs ih =>
    have hb : b < 256 := h b (List.mem_cons_self _ _)
    have e : natToBits 8 b = [b / 128 % 2 == 1, b / 64 % 2 == 1, b / 32 % 2 == 1,
        b / 16 % 2 == 1, b / 8 % 2 == 1, b / 4 % 2 == 1, b / 2 % 2 == 1, b % 2 == 1] := by
      simp [natToBits, Nat.div_div_eq_div_mul]
    have e2 : bitsToNat (natToBits 8 b) = b := by
      rw [bitsToNat_natToBits]; omega
    have ih' := ih (fun c hc => h c (List.mem_cons_of_mem _ hc))
    rw [e] at e2
    rw [bytesToBits, e]
    simp only [List.cons_append, List.nil_append, bitsToBytes]
    rw [e2]
    exact congrArg _ ih'

theorem readBytes_append (bs : List Nat) (h : ∀ b ∈ bs, b < 256) (p : Nat) (rest : List Bool) :
    (⟨bytesToBits bs ++ rest, p⟩ : AperReader).readBytes bs.length =
      .ok (bs, ⟨rest, p + 8 * bs.length⟩) := by
  induction bs generalizing p with
  | nil => rfl
  | cons b bs ih =>
    have hb : b < 256 := h b (List.mem_cons_self _ _)
    simp only [bytesToBits, List.length_cons, AperReader.readBytes, List.append_assoc]
    rw [readBits_append]
    simp only
    rw [ih (fun c hc => h c (List.mem_cons_of_mem _ hc))]
    simp only [Except.ok.injEq, Prod.mk.injEq, List.cons.injEq, and_true, AperReader.mk.injEq,
      true_and]
    constructor
    · omega
    · omega

theorem Close_lt (w : AperWriter) : ∀ b ∈ w.Close, b < 256 :=
  bitsToBytes_lt _ _ (le_refl _)

theorem readOpenType_append (bs : List Nat) (h : ∀ b ∈ bs, b < 256) (hl : bs.length < 16384)
    (p : Nat) (rest : List Bool) :
    (⟨List.replicate (padLen p) false ++ (lengthBits bs.length ++ (bytesToBits bs ++ rest)), p⟩ :
      AperReader).ReadOpenType =
      .ok (bs, ⟨rest, p + padLen p + (lengthBits bs.length).length + 8 * bs.length⟩) := by
  unfold AperReader.ReadOpenType
  rw [align_append]
  unfold lengthBits
  by_cases h1 : bs.length < 128
  · simp only [if_pos h1]
    rw [readBits_append]
    simp only
    have e : bs.length % 2 ^ 8 = bs.length := Nat.mod_eq_of_lt (by omega)
    rw [e, if_pos h1, readBytes_append bs h, natToBits_length]
  · simp only [if_neg h1, List.append_assoc]
    rw [readBits_append]
    simp only
    have e : (128 + bs.length / 256) % 2 ^ 8 = 128 + bs.length / 256 :=
      Nat.mod_eq_of_lt (by omega)
    rw [e, if_neg (by omega), if_pos (by omega), readBits_append]
    simp only
    have e2 : (128 + bs.length / 256 - 128) * 256 + bs.length % 256 % 2 ^ 8 = bs.length := by
      omega
    rw [e2, readBytes_append bs h]
    simp only [List.length_append, natToBits_length]

theorem readInteger16_append (v : Nat) (hv : v ≤ 65535) (p : Nat) (rest : List Bool) :
    (⟨List.replicate (padLen p) false ++ (natToBits 16 v ++ rest), p⟩ :
      AperReader).ReadInteger ⟨0, POW_16 - 1⟩ false =
      .ok (v, ⟨rest, p + padLen p + 16⟩) := by
  unfold AperReader.ReadInteger AperReader.readConstraintValue Constraint.Range POW_16
  simp only [Bool.false_eq_true, ↓reduceIte]
  norm_num
  rw [align_append, readBits_append]
  simp only
  rw [Nat.mod_eq_of_lt (by omega)]

theorem readEnumerate2_append (c : Nat) (hc : c ≤ 2) (p : Nat) (rest : List Bool) :
    (⟨natToBits 2 c ++ rest, p⟩ : AperReader).ReadEnumerate ⟨0, 2⟩ false =
      .ok (c, ⟨rest, p + 2⟩) := by
  unfold AperReader.ReadEnumerate AperReader.ReadInteger AperReader.readConstraintValue
    Constraint.Range
  simp only [Bool.false_eq_true, ↓reduceIte]
  norm_num [numBits]
  rw [readBits_append]
  simp only
  rw [Nat.mod_eq_of_lt (by omega)]

theorem readIE_append (x : WireIE) (hid : x.id ≤ 65535) (hc : x.crit ≤ 2)
    (hb : ∀ b ∈ x.value, b < 256) (hl : x.value.length < 16384) (p : Nat)
    (rest : List Bool) :
    readIE ⟨ieBits p x ++ rest, p⟩ = .ok (x, ⟨rest, p + (ieBits p x).length⟩) := by
  unfold readIE ieBits
  simp only [List.append_assoc]
  rw [readInteger16_append x.id hid]
  simp only
  rw [readEnumerate2_append x.crit hc]
  simp only
  rw [readOpenType_append x.value hb hl]
  simp only [List.length_append, List.length_replicate, natToBits_length, bytesToBits_length,
    Except.ok.injEq, Prod.mk.injEq, true_and, AperReader.mk.injEq]
  omega

theorem readIEs_append (xs : List WireIE)
    (h : ∀ x ∈ xs, x.id ≤ 65535 ∧ x.crit ≤ 2 ∧ (∀ b ∈ x.value, b < 256) ∧
      x.value.length < 16384) (p : Nat) (rest : List Bool) :
    readIEs xs.length ⟨iesBits p xs ++ rest, p⟩ =
      .ok (xs, ⟨rest, p + (iesBits p xs).length⟩) := by
  induction xs generalizing p with
  | nil => rfl
  | cons x xs ih =>
    obtain ⟨h1, h2, h3, h4⟩ := h x (List.mem_cons_self _ _)
    simp only [List.length_cons, readIEs, iesBits, List.append_assoc]
    rw [readIE_append x h1 h2 h3 h4]
    simp only
    rw [ih (fun y hy => h y (List.mem_cons_of_mem _ hy))]
    simp only [List.length_append, Except.ok.injEq, Prod.mk.injEq, true_and,
      AperReader.mk.injEq]
    omega

theorem writeInteger16 (w : AperWriter) (v : Nat) (_hv : v ≤ 65535) :
    w.WriteInteger v ⟨0, 65535⟩ false =
      .ok ⟨w.bits ++ (List.replicate (padLen w.bits.length) false ++ natToBits 16 v)⟩ := by
  unfold AperWriter.WriteInteger AperWriter.writeConstraintValue Constraint.Range
  simp only [Bool.false_eq_true, false_and, ↓reduceIte]
  norm_num
  simp [AperWriter.align, AperWriter.writeBits]

theorem writeEnumerate2 (w : AperWriter) (c : Nat) (_hc : c ≤ 2) :
    w.WriteEnumerate c ⟨0, 2⟩ false = .ok ⟨w.bits ++ natToBits 2 c⟩ := by
  unfold AperWriter.WriteEnumerate AperWriter.WriteInteger AperWriter.writeConstraintValue
    Constraint.Range
  simp only [Bool.false_eq_true, false_and, ↓reduceIte]
  norm_num [numBits]
  simp [AperWriter.writeBits]

theorem writeOpenType (w : AperWriter) (bs : List Nat) (hl : bs.length < 16384) :
    w.WriteOpenType bs =
      .ok ⟨w.bits ++ (List.replicate (padLen w.bits.length) false ++
        (lengthBits bs.length ++ bytesToBits bs))⟩ := by
  unfold AperWriter.WriteOpenType lengthBits
  by_cases h1 : bs.length < 128
  · simp [h1, AperWriter.align, AperWriter.writeBits, AperWriter.writeBytes]
  · simp [h1, hl, AperWriter.align, AperWriter.writeBits, AperWriter.writeBytes]

theorem encode_ieBits {V : IEValues} (ie : F1apMessageIE V) (x : WireIE) (h : Encodes ie x)
    (w : AperWriter) :
    ie.Encode w = .ok ⟨w.bits ++ ieBits w.bits.length x⟩ := by
  obtain ⟨h1, h2, h3, h4, h5, v, wv, h6, h7, h8⟩ := h
  unfold F1apMessageIE.Encode ProtocolIEID.Encode Criticality.Encode
  rw [h1, h3, h6, writeInteger16 w x.id h2]
  simp only
  rw [writeEnumerate2 _ x.crit h4]
  simp only
  rw [h7]
  simp only
  rw [h8, writeOpenType _ x.value h5]
  simp only [ieBits, List.append_assoc, List.length_append, List.length_replicate,
    natToBits_length, Except.ok.injEq, AperWriter.mk.injEq]
  rfl

theorem writeItems_iesBits {V : IEValues} (ies : List (F1apMessageIE V)) (xs : List WireIE)
    (h : List.Forall₂ Encodes ies xs) (w : AperWriter) :
    writeItems F1apMessageIE.Encode ies w = .ok ⟨w.bits ++ iesBits w.bits.length xs⟩ := by
  induction h generalizing w with
  | nil => simp [writeItems, iesBits]
  | cons hx _ ih =>
    simp only [writeItems, encode_ieBits _ _ hx w, ih, iesBits, List.length_append,
      List.append_assoc]

theorem padLen_spec (n : Nat) : (n + padLen n) % 8 = 0 := by
  unfold padLen; omega

theorem encodeBody_eq {V : IEValues} (ies : List (F1apMessageIE V)) (xs : List WireIE)
    (h : List.Forall₂ Encodes ies xs) (hn : ies.length ≤ 65535) :
    encodeBody ies =
      .ok (bitsToBytes (bodyBits xs ++ List.replicate (padLen (bodyBits xs).length) false)) := by
  have hlen : ies.length = xs.length := h.length_eq
  unfold encodeBody WriteSequenceOf
  simp only [AperWriter.WriteBool, NewWriter, AperWriter.writeBits, List.nil_append,
    Bool.false_eq_true, ↓reduceIte]
  have e : (POW_16 - 1) = 65535 := rfl
  rw [e, writeInteger16 _ _ hn]
  simp only
  rw [writeItems_iesBits ies xs h]
  simp only [AperWriter.Close, AperWriter.align, List.length_append, natToBits_length,
    List.length_replicate, bodyBits, List.append_assoc, hlen]
  rfl

theorem Encodes_wf {V : IEValues} (ie : F1apMessageIE V) (x : WireIE) (h : Encodes ie x) :
    x.id ≤ 65535 ∧ x.crit ≤ 2 ∧ (∀ b ∈ x.value, b < 256) ∧ x.value.length < 16384 := by
  obtain ⟨-, h2, -, h4, h5, v, wv, -, -, h8⟩ := h
  exact ⟨h2, h4, h8 ▸ Close_lt wv, h5⟩

theorem wireIEs_bodyBits (xs : List WireIE)
    (h : ∀ x ∈ xs, x.id ≤ 65535 ∧ x.crit ≤ 2 ∧ (∀ b ∈ x.value, b < 256) ∧
      x.value.length < 16384) (hn : xs.length ≤ 65535) :
    wireIEs (bitsToBytes (bodyBits xs ++ List.replicate (padLen (bodyBits xs).length) false)) =
      .ok xs := by
  have hdiv : ∃ n, (bodyBits xs ++ List.replicate (padLen (bodyBits xs).length) false).length =
      8 * n := by
    have := padLen_spec (bodyBits xs).length
    refine ⟨((bodyBits xs).length + padLen (bodyBits xs).length) / 8, ?_⟩
    simp only [List.length_append, List.length_replicate]
    omega
  obtain ⟨n, hn8⟩ := hdiv
  unfold wireIEs bodyReader NewReader
  rw [bytesToBits_bitsToBytes n _ hn8]
  unfold AperReader.ReadBool
  simp only [bodyBits, List.append_assoc]
  rw [readBits_append]
  simp only
  have e : (POW_16 - 1) = 65535 := rfl
  have e0 : (0 + 1 : Nat) = 1 := rfl
  rw [e0, readInteger16_append _ hn]
  simp only
  have e1 : 1 + padLen 1 + 16 = 24 := rfl
  rw [e1, readIEs_append xs h]

/-! ## Round trip through the body (C1) -/

theorem dispatch_nil {V : IEValues} (m : F1SetupRequest V)
    (dl : List CriticalityDiagnosticsIEItem) (x : WireIE) :
    (⟨m, dl, []⟩ : F1SetupRequestDecoder V).dispatch x.toMsgIe x.value =
      F1SetupRequestDecoder.switchIE ⟨m, dl, [(x.id, x.toMsgIe)]⟩
        x.toMsgIe (NewReader x.value) := by
  simp [F1SetupRequestDecoder.dispatch, WireIE.toMsgIe]

theorem switchIE_ok_TransactionID {V : IEValues} (d : F1SetupRequestDecoder V) (x : WireIE)
    (v : V.TransactionID) (hid : x.id = ProtocolIEID_TransactionID)
    (hd : V.decTransactionID (NewReader x.value) = .ok v) :
    d.switchIE x.toMsgIe (NewReader x.value) =
      ({ d with msg := { d.msg with TransactionID := v } }, none) := by
  unfold F1SetupRequestDecoder.switchIE readField
  simp only [WireIE.toMsgIe, if_pos hid]
  rw [hd]

theorem switchIE_ok_gNBDUID {V : IEValues} (d : F1SetupRequestDecoder V) (x : WireIE)
    (v : V.GNBDUID) (hid : x.id = ProtocolIEID_gNBDUID)
    (hd : V.decGNBDUID (NewReader x.value) = .ok v) :
    d.switchIE x.toMsgIe (NewReader x.value) =
      ({ d with msg := { d.msg with GNBDUID := v } }, none) := by
  unfold F1SetupRequestDecoder.switchIE readField
  simp only [WireIE.toMsgIe, if_neg (show ¬ x.id = ProtocolIEID_TransactionID by rw [hid]; decide), if_pos hid]
  rw [hd]

theorem switchIE_ok_gNBDUName {V : IEValues} (d : F1SetupRequestDecoder V) (x : WireIE)
    (v : Option (List Nat)) (hid : x.id = ProtocolIEID_gNBDUName)
    (hd : V.decOCTETSTRING ⟨1, 150⟩ true (NewReader x.value) = .ok v) :
    d.switchIE x.toMsgIe (NewReader x.value) =
      ({ d with msg := { d.msg with GNBDUName := v } }, none) := by
  unfold F1SetupRequestDecoder.switchIE readField
  simp only [WireIE.toMsgIe, if_neg (show ¬ x.id = ProtocolIEID_TransactionID by rw [hid]; decide), if_neg (show ¬ x.id = ProtocolIEID_gNBDUID by rw [hid]; decide), if_pos hid]
  rw [hd]

theorem switchIE_ok_gNBDUServedCellsList {V : IEValues} (d : F1SetupRequestDecoder V) (x : WireIE)
    (v : List V.GNBDUServedCellItem) (hid : x.id = ProtocolIEID_gNBDUServedCellsList)
    (hd : V.decSequence ⟨1, V.maxCellingNBDU⟩ false (NewReader x.value) = .ok v) :
    d.switchIE x.toMsgIe (NewReader x.value) =
      ({ d with msg := { d.msg with GNBDUServedCellsList := v.foldl (fun acc i => acc ++ [i]) [] } }, none) := by
  unfold F1SetupRequestDecoder.switchIE readField
  simp only [WireIE.toMsgIe, if_neg (show ¬ x.id = ProtocolIEID_TransactionID by rw [hid]; decide), if_neg (show ¬ x.id = ProtocolIEID_gNBDUID by rw [hid]; decide), if_neg (show ¬ x.id = ProtocolIEID_gNBDUName by rw [hid]; decide), if_pos hid]
  rw [hd]

theorem switchIE_ok_GNBDURRCVersion {V : IEValues} (d : F1SetupRequestDecoder V) (x : WireIE)
    (v : V.RRCVersion) (hid : x.id = ProtocolIEID_GNBDURRCVersion)
    (hd : V.decRRCVersion (NewReader x.value) = .ok v) :
    d.switchIE x.toMsgIe (NewReader x.value) =
      ({ d with msg := { d.msg with GNBDURRCVersion := v } }, none) := by
  unfold F1SetupRequestDecoder.switchIE readField
  simp only [WireIE.toMsgIe, if_neg (show ¬ x.id = ProtocolIEID_TransactionID by rw [hid]; decide), if_neg (show ¬ x.id = ProtocolIEID_gNBDUID by rw [hid]; decide), if_neg (show ¬ x.id = ProtocolIEID_gNBDUName by rw [hid]; decide), if_neg (show ¬ x.id = ProtocolIEID_gNBDUServedCellsList by rw [hid]; decide), if_pos hid]
  rw [hd]

theorem switchIE_ok_TransportLayerAddressInfo {V : IEValues} (d : F1SetupRequestDecoder V) (x : WireIE)
    (v : V.TransportLayerAddressInfo) (hid : x.id = ProtocolIEID_TransportLayerAddressInfo)
    (hd : V.decTransportLayerAddressInfo (NewReader x.value) = .ok v) :
    d.switchIE x.toMsgIe (NewReader x.value) =
      ({ d with msg := { d.msg with TransportLayerAddressInfo := some v } }, none) := by
  unfold F1SetupRequestDecoder.switchIE readField
  simp only [WireIE.toMsgIe, if_neg (show ¬ x.id = ProtocolIEID_TransactionID by rw [hid]; decide), if_neg (show ¬ x.id = ProtocolIEID_gNBDUID by rw [hid]; decide), if_neg (show ¬ x.id = ProtocolIEID_gNBDUName by rw [hid]; decide), if_neg (show ¬ x.id = ProtocolIEID_gNBDUServedCellsList by rw [hid]; decide), if_neg (show ¬ x.id = ProtocolIEID_GNBDURRCVersion by rw [hid]; decide), if_pos hid]
  rw [hd]

theorem switchIE_ok_BAPAddress {V : IEValues} (d : F1SetupRequestDecoder V) (x : WireIE)
    (v : V.BAPAddress) (hid : x.id = ProtocolIEID_BAPAddress)
    (hd : V.decBAPAddress (NewReader x.value) = .ok v) :
    d.switchIE x.toMsgIe (NewReader x.value) =
      ({ d with msg := { d.msg with BAPAddress := some v } }, none) := by
  unfold F1SetupRequestDecoder.switchIE readField
  simp only [WireIE.toMsgIe, if_neg (show ¬ x.id = ProtocolIEID_TransactionID by rw [hid]; decide), if_neg (show ¬ x.id = ProtocolIEID_gNBDUID by rw [hid]; decide), if_neg (show ¬ x.id = ProtocolIEID_gNBDUName by rw [hid]; decide), if_neg (show ¬ x.id = ProtocolIEID_gNBDUServedCellsList by rw [hid]; decide), if_neg (show ¬ x.id = ProtocolIEID_GNBDURRCVersion by rw [hid]; decide), if_neg (show ¬ x.id = ProtocolIEID_TransportLayerAddressInfo by rw [hid]; decide), if_pos hid]
  rw [hd]

theorem switchIE_ok_ExtendedGNBCUName {V : IEValues} (d : F1SetupRequestDecoder V) (x : WireIE)
    (v : V.ExtendedGNBCUName) (hid : x.id = ProtocolIEID_ExtendedGNBCUName)
    (hd : V.decExtendedGNBCUName (NewReader x.value) = .ok v) :
    d.switchIE x.toMsgIe (NewReader x.value) =
      ({ d with msg := { d.msg with ExtendedGNBCUName := some v } }, none) := by
  unfold F1SetupRequestDecoder.switchIE readField
  simp only [WireIE.toMsgIe, if_neg (show ¬ x.id = ProtocolIEID_TransactionID by rw [hid]; decide), if_neg (show ¬ x.id = ProtocolIEID_gNBDUID by rw [hid]; decide), if_neg (show ¬ x.id = ProtocolIEID_gNBDUName by rw [hid]; decide), if_neg (show ¬ x.id = ProtocolIEID_gNBDUServedCellsList by rw [hid]; decide), if_neg (show ¬ x.id = ProtocolIEID_GNBDURRCVersion by rw [hid]; decide), if_neg (show ¬ x.id = ProtocolIEID_TransportLayerAddressInfo by rw [hid]; decide), if_neg (show ¬ x.id = ProtocolIEID_BAPAddress by rw [hid]; decide), if_pos hid]
  rw [hd]

theorem AllCarry.nil {V : IEValues} : AllCarry ([] : List (F1apMessageIE V)) id :=
  ⟨List.Forall₂.nil, by simp, fun _ => rfl⟩

theorem AllCarry.append {V : IEValues} {l1 l2 : List (F1apMessageIE V)}
    {F1 F2 : F1SetupRequest V → F1SetupRequest V} (h1 : AllCarry l1 F1) (h2 : AllCarry l2 F2) :
    AllCarry (l1 ++ l2) (fun m => F2 (F1 m)) := by
  obtain ⟨a1, b1, c1⟩ := h1
  obtain ⟨a2, b2, c2⟩ := h2
  refine ⟨?_, ?_, ?_⟩
  · rw [List.map_append]; exact List.rel_append a1 a2
  · intro x hx m
    rw [List.map_append, List.mem_append] at hx
    rcases hx with hx | hx
    · exact b1 x hx m
    · exact b2 x hx m
  · intro m
    rw [List.map_append, List.foldl_append, c1, c2]

theorem AllCarry.single {V : IEValues} (ie : F1apMessageIE V)
    (f : F1SetupRequest V → F1SetupRequest V) (he : Encodes ie (wireOf ie))
    (hs : ∀ d : F1SetupRequestDecoder V,
      d.switchIE (wireOf ie).toMsgIe (NewReader (wireOf ie).value) =
        ({ d with msg := f d.msg }, none)) :
    AllCarry [ie] f := by
  refine ⟨List.Forall₂.cons he List.Forall₂.nil, ?_, ?_⟩
  · intro x hx m
    simp only [List.map_cons, List.map_nil, List.mem_singleton] at hx
    subst hx
    unfold valueOk
    rw [dispatch_nil, hs]
  · intro m
    simp only [List.map_cons, List.map_nil, List.foldl_cons, List.foldl_nil]
    unfold setField
    rw [hs]

theorem AllCarry.opt {V : IEValues} {α : Type} (o : Option α) (mk : α → F1apMessageIE V)
    (set : α → F1SetupRequest V → F1SetupRequest V)
    (h : ∀ v, o = some v → AllCarry [mk v] (set v)) :
    AllCarry (o.map mk).toList
      (fun m => match o with
        | some v => set v m
        | none => m) := by
  cases o with
  | none => exact AllCarry.nil
  | some v => exact h v rfl

theorem Encodes_wireOf {V : IEValues} (id crit : Nat) (v : IEValue V) (w : AperWriter)
    (hid : id ≤ 65535) (hc : crit ≤ 2) (he : v.Encode NewWriter = .ok w)
    (hl : w.Close.length < 16384) :
    Encodes (⟨⟨id⟩, ⟨crit⟩, some v⟩ : F1apMessageIE V) (wireOf ⟨⟨id⟩, ⟨crit⟩, some v⟩) := by
  have e : (wireOf (⟨⟨id⟩, ⟨crit⟩, some v⟩ : F1apMessageIE V)).value = w.Close := by
    simp only [wireOf, he]
  refine ⟨rfl, hid, rfl, hc, ?_, v, w, rfl, he, e.symm⟩
  rw [e]; exact hl

theorem wireOf_value {V : IEValues} (id crit : Nat) (v : IEValue V) (w : AperWriter)
    (he : v.Encode NewWriter = .ok w) :
    (wireOf (⟨⟨id⟩, ⟨crit⟩, some v⟩ : F1apMessageIE V)).value = w.Close := by
  simp only [wireOf, he]

theorem foldl_append_singletons {α : Type} (l : List α) :
    l.foldl (fun acc i => acc ++ [i]) [] = l := by
  have h : ∀ (l acc : List α), l.foldl (fun acc i => acc ++ [i]) acc = acc ++ l := by
    intro l
    induction l with
    | nil => intro acc; simp
    | cons x xs ih => intro acc; simp [ih]
  simpa using h l []

theorem toIes_eq {V : IEValues} (m : F1SetupRequest V) (h : m.GNBDUServedCellsList ≠ []) :
    m.toIes =
      ([⟨⟨ProtocolIEID_TransactionID⟩, ⟨Criticality_PresentReject⟩,
          some (.transactionID m.TransactionID)⟩] ++
        ([⟨⟨ProtocolIEID_gNBDUID⟩, ⟨Criticality_PresentReject⟩, some (.gNBDUID m.GNBDUID)⟩] ++
        ((m.GNBDUName.map (fun bs => (⟨⟨ProtocolIEID_gNBDUName⟩, ⟨Criticality_PresentIgnore⟩,
          some (.octetString ⟨1, 150⟩ true (some bs))⟩ : F1apMessageIE V))).toList ++
        ([⟨⟨ProtocolIEID_gNBDUServedCellsList⟩, ⟨Criticality_PresentReject⟩,
          some (.sequence ⟨1, V.maxCellingNBDU⟩ false m.GNBDUServedCellsList)⟩] ++
        ([⟨⟨ProtocolIEID_GNBDURRCVersion⟩, ⟨Criticality_PresentReject⟩,
          some (.rrcVersion m.GNBDURRCVersion)⟩] ++
        ((m.TransportLayerAddressInfo.map (fun v =>
          (⟨⟨ProtocolIEID_TransportLayerAddressInfo⟩, ⟨Criticality_PresentIgnore⟩,
            some (.transportLayerAddressInfo v)⟩ : F1apMessageIE V))).toList ++
        ((m.BAPAddress.map (fun v => (⟨⟨ProtocolIEID_BAPAddress⟩, ⟨Criticality_PresentIgnore⟩,
          some (.bapAddress v)⟩ : F1apMessageIE V))).toList ++
        (m.ExtendedGNBCUName.map (fun v =>
          (⟨⟨ProtocolIEID_ExtendedGNBCUName⟩, ⟨Criticality_PresentIgnore⟩,
            some (.extendedGNBCUName v)⟩ : F1apMessageIE V))).toList)))))), none) := by
  have hl : m.GNBDUServedCellsList.length > 0 := List.length_pos.2 h
  unfold F1SetupRequest.toIes
  simp only [hl, ↓reduceIte, appendIf, rangeAppend, foldl_append_singletons]
  cases m.GNBDUName <;> cases m.TransportLayerAddressInfo <;> cases m.BAPAddress <;>
    cases m.ExtendedGNBCUName <;> rfl

theorem carry_TransactionID {V : IEValues} (v : V.TransactionID)
    (h : valueRoundTrip V.encTransactionID V.decTransactionID v) :
    AllCarry [(⟨⟨ProtocolIEID_TransactionID⟩, ⟨Criticality_PresentReject⟩,
      some (.transactionID v)⟩ : F1apMessageIE V)] (fun m => { m with TransactionID := v }) := by
  obtain ⟨w, he, hl, hd⟩ := h
  have he : (IEValue.Encode (.transactionID v : IEValue V)) NewWriter = .ok w := he
  apply AllCarry.single
  · exact Encodes_wireOf _ _ _ w (by decide) (by decide) he hl
  · intro d
    apply switchIE_ok_TransactionID d _ v rfl
    rw [wireOf_value _ _ _ w he]; exact hd

theorem carry_gNBDUID {V : IEValues} (v : V.GNBDUID)
    (h : valueRoundTrip V.encGNBDUID V.decGNBDUID v) :
    AllCarry [(⟨⟨ProtocolIEID_gNBDUID⟩, ⟨Criticality_PresentReject⟩,
      some (.gNBDUID v)⟩ : F1apMessageIE V)] (fun m => { m with GNBDUID := v }) := by
  obtain ⟨w, he, hl, hd⟩ := h
  have he : (IEValue.Encode (.gNBDUID v : IEValue V)) NewWriter = .ok w := he
  apply AllCarry.single
  · exact Encodes_wireOf _ _ _ w (by decide) (by decide) he hl
  · intro d
    apply switchIE_ok_gNBDUID d _ v rfl
    rw [wireOf_value _ _ _ w he]; exact hd

theorem carry_gNBDUName {V : IEValues} (bs : List Nat)
    (h : valueRoundTrip (V.encOCTETSTRING ⟨1, 150⟩ true) (V.decOCTETSTRING ⟨1, 150⟩ true)
      (some bs)) :
    AllCarry [(⟨⟨ProtocolIEID_gNBDUName⟩, ⟨Criticality_PresentIgnore⟩,
      some (.octetString ⟨1, 150⟩ true (some bs))⟩ : F1apMessageIE V)]
      (fun m => { m with GNBDUName := some bs }) := by
  obtain ⟨w, he, hl, hd⟩ := h
  have he : (IEValue.Encode (.octetString ⟨1, 150⟩ true (some bs) : IEValue V)) NewWriter = .ok w := he
  apply AllCarry.single
  · exact Encodes_wireOf _ _ _ w (by decide) (by decide) he hl
  · intro d
    apply switchIE_ok_gNBDUName d _ (some bs) rfl
    rw [wireOf_value _ _ _ w he]; exact hd

theorem carry_gNBDUServedCellsList {V : IEValues} (v : List V.GNBDUServedCellItem)
    (h : valueRoundTrip (V.encSequence ⟨1, V.maxCellingNBDU⟩ false)
      (V.decSequence ⟨1, V.maxCellingNBDU⟩ false) v) :
    AllCarry [(⟨⟨ProtocolIEID_gNBDUServedCellsList⟩, ⟨Criticality_PresentReject⟩,
      some (.sequence ⟨1, V.maxCellingNBDU⟩ false v)⟩ : F1apMessageIE V)]
      (fun m => { m with GNBDUServedCellsList := v }) := by
  obtain ⟨w, he, hl, hd⟩ := h
  have he : (IEValue.Encode (.sequence ⟨1, V.maxCellingNBDU⟩ false v : IEValue V)) NewWriter = .ok w := he
  apply AllCarry.single
  · exact Encodes_wireOf _ _ _ w (by decide) (by decide) he hl
  · intro d
    have := switchIE_ok_gNBDUServedCellsList d
      (wireOf (⟨⟨ProtocolIEID_gNBDUServedCellsList⟩, ⟨Criticality_PresentReject⟩,
        some (.sequence ⟨1, V.maxCellingNBDU⟩ false v)⟩ : F1apMessageIE V)) v rfl
      (by rw [wireOf_value _ _ _ w he]; exact hd)
    rw [foldl_append_singletons] at this
    exact this

theorem carry_GNBDURRCVersion {V : IEValues} (v : V.RRCVersion)
    (h : valueRoundTrip V.encRRCVersion V.decRRCVersion v) :
    AllCarry [(⟨⟨ProtocolIEID_GNBDURRCVersion⟩, ⟨Criticality_PresentReject⟩,
      some (.rrcVersion v)⟩ : F1apMessageIE V)] (fun m => { m with GNBDURRCVersion := v }) := by
  obtain ⟨w, he, hl, hd⟩ := h
  have he : (IEValue.Encode (.rrcVersion v : IEValue V)) NewWriter = .ok w := he
  apply AllCarry.single
  · exact Encodes_wireOf _ _ _ w (by decide) (by decide) he hl
  · intro d
    apply switchIE_ok_GNBDURRCVersion d _ v rfl
    rw [wireOf_value _ _ _ w he]; exact hd

theorem carry_TransportLayerAddressInfo {V : IEValues} (v : V.TransportLayerAddressInfo)
    (h : valueRoundTrip V.encTransportLayerAddressInfo V.decTransportLayerAddressInfo v) :
    AllCarry [(⟨⟨ProtocolIEID_TransportLayerAddressInfo⟩, ⟨Criticality_PresentIgnore⟩,
      some (.transportLayerAddressInfo v)⟩ : F1apMessageIE V)]
      (fun m => { m with TransportLayerAddressInfo := some v }) := by
  obtain ⟨w, he, hl, hd⟩ := h
  have he : (IEValue.Encode (.transportLayerAddressInfo v : IEValue V)) NewWriter = .ok w := he
  apply AllCarry.single
  · exact Encodes_wireOf _ _ _ w (by decide) (by decide) he hl
  · intro d
    apply switchIE_ok_TransportLayerAddressInfo d _ v rfl
    rw [wireOf_value _ _ _ w he]; exact hd

theorem carry_BAPAddress {V : IEValues} (v : V.BAPAddress)
    (h : valueRoundTrip V.encBAPAddress V.decBAPAddress v) :
    AllCarry [(⟨⟨ProtocolIEID_BAPAddress⟩, ⟨Criticality_PresentIgnore⟩,
      some (.bapAddress v)⟩ : F1apMessageIE V)] (fun m => { m with BAPAddress := some v }) := by
  obtain ⟨w, he, hl, hd⟩ := h
  have he : (IEValue.Encode (.bapAddress v : IEValue V)) NewWriter = .ok w := he
  apply AllCarry.single
  · exact Encodes_wireOf _ _ _ w (by decide) (by decide) he hl
  · intro d
    apply switchIE_ok_BAPAddress d _ v rfl
    rw [wireOf_value _ _ _ w he]; exact hd

theorem carry_ExtendedGNBCUName {V : IEValues} (v : V.ExtendedGNBCUName)
    (h : valueRoundTrip V.encExtendedGNBCUName V.decExtendedGNBCUName v) :
    AllCarry [(⟨⟨ProtocolIEID_ExtendedGNBCUName⟩, ⟨Criticality_PresentIgnore⟩,
      some (.extendedGNBCUName v)⟩ : F1apMessageIE V)]
      (fun m => { m with ExtendedGNBCUName := some v }) := by
  obtain ⟨w, he, hl, hd⟩ := h
  have he : (IEValue.Encode (.extendedGNBCUName v : IEValue V)) NewWriter = .ok w := he
  apply AllCarry.single
  · exact Encodes_wireOf _ _ _ w (by decide) (by decide) he hl
  · intro d
    apply switchIE_ok_ExtendedGNBCUName d _ v rfl
    rw [wireOf_value _ _ _ w he]; exact hd

theorem toIes_carry {V : IEValues} (m : F1SetupRequest V) (h : m.GNBDUServedCellsList ≠ [])
    (hrt : fieldsRoundTrip m) :
    ∃ F, AllCarry m.toIes.1 F ∧
      ∀ target : F1SetupRequest V, optionalUnset target → F target = m := by
  obtain ⟨h1, h2, h3, h4, h5, h6, h7, h8⟩ := hrt
  rw [toIes_eq m h]
  refine ⟨_, (carry_TransactionID _ h1).append ((carry_gNBDUID _ h2).append
    ((AllCarry.opt m.GNBDUName _ (fun bs m => { m with GNBDUName := some bs })
        (fun bs hbs => carry_gNBDUName bs (h3 bs hbs))).append
    ((carry_gNBDUServedCellsList _ h4).append ((carry_GNBDURRCVersion _ h5).append
    ((AllCarry.opt m.TransportLayerAddressInfo _
        (fun v m => { m with TransportLayerAddressInfo := some v })
        (fun v hv => carry_TransportLayerAddressInfo v (h6 v hv))).append
    ((AllCarry.opt m.BAPAddress _ (fun v m => { m with BAPAddress := some v })
        (fun v hv => carry_BAPAddress v (h7 v hv))).append
    (AllCarry.opt m.ExtendedGNBCUName _ (fun v m => { m with ExtendedGNBCUName := some v })
        (fun v hv => carry_ExtendedGNBCUName v (h8 v hv))))))))), ?_⟩
  intro target ht
  obtain ⟨t1, t2, t3, t4⟩ := ht
  obtain ⟨a1, a2, a3, a4, a5, a6, a7, a8⟩ := m
  obtain ⟨b1, b2, b3, b4, b5, b6, b7, b8⟩ := target
  simp only at t1 t2 t3 t4
  subst t1 t2 t3 t4
  cases a3 <;> cases a6 <;> cases a7 <;> cases a8 <;> rfl

theorem bitsToBytes_append : ∀ (n : Nat) (A B : List Bool), A.length = 8 * n →
    bitsToBytes (A ++ B) = bitsToBytes A ++ bitsToBytes B := by
  intro n
  induction n with
  | zero =>
    intro A B hA
    have : A = [] := List.eq_nil_of_length_eq_zero (by omega)
    subst this
    rfl
  | succ n ih =>
    intro A B hA
    match A, hA with
    | b0 :: b1 :: b2 :: b3 :: b4 :: b5 :: b6 :: b7 :: rest, hA =>
      simp only [List.length_cons] at hA
      simp only [List.cons_append, bitsToBytes]
      exact congrArg _ (ih rest B (by omega))
    | [], hA => simp at hA
    | [_], hA => simp at hA; omega
    | [_, _], hA => simp at hA; omega
    | [_, _, _], hA => simp at hA; omega
    | [_, _, _, _], hA => simp at hA; omega
    | [_, _, _, _, _], hA => simp at hA; omega
    | [_, _, _, _, _, _], hA => simp at hA; omega
    | [_, _, _, _, _, _, _], hA => simp at hA; omega

theorem lengthBits_length (n : Nat) : ∃ k, (lengthBits n).length = 8 * k := by
  unfold lengthBits
  by_cases h : n < 128
  · exact ⟨1, by simp [h, natToBits_length]⟩
  · exact ⟨2, by simp [h, natToBits_length]⟩

theorem encodeMessage_ok {V : IEValues} (ies : List (F1apMessageIE V)) (body : List Nat)
    (hne : ies.length ≠ 0) (hb : encodeBody ies = .ok body) (hlt : ∀ b ∈ body, b < 256)
    (hl : body.length < 16384) :
    encodeMessage F1apPduInitiatingMessage ProcedureCode_F1Setup Criticality_PresentReject ies =
      (none, [0, 1, 0] ++ (bitsToBytes (lengthBits body.length) ++ body)) := by
  have hdr : ∀ aw4 : AperWriter,
      aw4 = ⟨natToBits 8 0 ++ (natToBits 8 1 ++ natToBits 2 0)⟩ →
      aw4.WriteOpenType body = .ok ⟨natToBits 8 0 ++ (natToBits 8 1 ++ (natToBits 8 0 ++
        (lengthBits body.length ++ bytesToBits body)))⟩ := by
    intro aw4 h4
    subst h4
    rw [writeOpenType _ body hl]
    rfl
  obtain ⟨k, hk⟩ := lengthBits_length body.length
  unfold encodeMessage
  have e1 : (NewWriter.WriteBool false) = .ok ⟨[false]⟩ := rfl
  have e2 : (⟨[false]⟩ : AperWriter).WriteChoice F1apPduInitiatingMessage 2 true =
      .ok ⟨[false, false, false]⟩ := rfl
  have e3 : (ProcedureCode.mk ProcedureCode_F1Setup).Encode ⟨[false, false, false]⟩ =
      .ok ⟨natToBits 8 0 ++ natToBits 8 1⟩ := rfl
  have e4 : (Criticality.mk Criticality_PresentReject).Encode ⟨natToBits 8 0 ++ natToBits 8 1⟩ =
      .ok ⟨natToBits 8 0 ++ (natToBits 8 1 ++ natToBits 2 0)⟩ := rfl
  simp only [e1, e2, e3, e4, if_neg hne, hb, hdr _ rfl]
  have hlen : (natToBits 8 0 ++ (natToBits 8 1 ++ (natToBits 8 0 ++
      (lengthBits body.length ++ bytesToBits body)))).length = 8 * (3 + k + body.length) := by
    simp only [List.length_append, natToBits_length, hk, bytesToBits_length]
    omega
  have hpad : padLen (8 * (3 + k + body.length)) = 0 := by unfold padLen; omega
  simp only [AperWriter.Close, AperWriter.align, hlen, hpad, List.replicate_zero,
    List.append_nil, Prod.mk.injEq, true_and]
  rw [bitsToBytes_append 1 _ _ (natToBits_length 8 0), bitsToBytes_append 1 _ _ (natToBits_length 8 1),
    bitsToBytes_append 1 _ _ (natToBits_length 8 0), bitsToBytes_append k _ _ hk,
    bitsToBytes_bytesToBits body hlt]
  rfl

theorem demoMsg_fieldsRoundTrip : fieldsRoundTrip demoMsg := by
  refine ⟨⟨_, rfl, by decide, rfl⟩, ⟨_, rfl, by decide, rfl⟩, ?_, ⟨_, rfl, by decide, rfl⟩,
    ⟨_, rfl, by decide, rfl⟩, ?_, ?_, ?_⟩
  · intro bs h; exact absurd h (by simp [demoMsg])
  · intro v h; exact absurd h (by simp [demoMsg])
  · intro v h; exact absurd h (by simp [demoMsg])
  · intro v h; exact absurd h (by simp [demoMsg])

/-- C12, evaluation at the failing input. For `demoMsg` the element that `toIes` builds for
the served-cells list (identifier 44) carries criticality Reject, while the struct tag of
`GNBDUServedCellsList` declares Ignore; the other three elements carry their declared
criticality. -/
theorem C12_served_cells_criticality :
    demoMsg.toIes.1.map (fun ie => (ie.Id.Value, ie.Criticality.Value)) =
        [(78, Criticality_PresentReject), (42, Criticality_PresentReject),
          (44, Criticality_PresentReject), (171, Criticality_PresentReject)] ∧
      (F1SetupRequestFields.filter (fun f => f.id = 44)).map FieldTag.criticality =
        [Criticality_PresentIgnore] ∧
      Criticality_PresentReject ≠ Criticality_PresentIgnore := by
  refine ⟨rfl, by decide, by decide⟩

/-! ## Envelope and body; procedure code; the diagnostics builder (C14, C16, C20) -/

set_option maxRecDepth 100000 in
/-- C14, counterexample. On the octets `demoPdu` that `Encode` writes for `demoMsg`, the
reader that `Decode` hands to `ReadSequenceOf` has consumed a single bit, and the element
count that is read next is 256: it is made of the procedure code octet 1 and the criticality
octet 0 of the envelope, not of the count 4 that `encodeMessage` wrote inside the open
type. The reads of `Decode` therefore do not line up with the writes of `Encode`, and no
record sequence is read. -/
theorem C14_counterexample :
    demoMsg.Encode = (none, demoPdu) ∧
      (bodyReader demoPdu).pos = 1 ∧
      ((bodyReader demoPdu).ReadInteger ⟨0, POW_16 - 1⟩ false).toOption.map Prod.fst =
        some 256 ∧
      demoMsg.toIes.1.length = 4 ∧
      wireIEs demoPdu = .error "EOF" := by
  refine ⟨by rfl, by rfl, by rfl, by rfl, by rfl⟩

/-- C14, amended. `Decode` consumes no envelope. Its reads line up with the writes of the
container part of `encodeMessage`: when every element of `ies` is written as the
corresponding record of `xs`, `encodeBody` succeeds, the records that `Decode` reads from
the body are exactly `xs`, and (for a body shorter than 16384 octets) `encodeMessage` puts
in front of the body the three envelope octets and the length of the open type, none of
which `Decode` reads. -/
theorem C14_body_alignment {V : IEValues} (ies : List (F1apMessageIE V)) (xs : List WireIE)
    (target : F1SetupRequest V)
    (h : List.Forall₂ Encodes ies xs) (hn : ies.length ≤ 65535) (hne : ies.length ≠ 0) :
    ∃ body, encodeBody ies = .ok body ∧
      wireIEs body = .ok xs ∧
      (target.Decode body).decoder = (finish (decodeIEs ⟨target, [], []⟩ xs)).decoder ∧
      (body.length < 16384 →
        encodeMessage F1apPduInitiatingMessage ProcedureCode_F1Setup
            Criticality_PresentReject ies =
          (none, [0, 1, 0] ++ (bitsToBytes (lengthBits body.length) ++ body))) := by
  have hbody := encodeBody_eq ies xs h hn
  have hwf : ∀ x ∈ xs, x.id ≤ 65535 ∧ x.crit ≤ 2 ∧ (∀ b ∈ x.value, b < 256) ∧
      x.value.length < 16384 := by
    intro x hx
    obtain ⟨i, hi⟩ := List.mem_iff_get.1 hx
    have hlen := h.length_eq
    have h2 := (List.forall₂_iff_get.1 h).2 i.1 (by rw [hlen]; exact i.2) i.2
    simp only [List.get_eq_getElem] at h2 hi
    rw [hi] at h2
    exact Encodes_wf _ _ h2
  have hw := wireIEs_bodyBits xs hwf (by rw [← h.length_eq]; exact hn)
  refine ⟨_, hbody, hw, ?_, ?_⟩
  · rw [Decode_decoder, decodeBody_eq target _ xs hw]
  · intro hl
    exact encodeMessage_ok ies _ hne hbody (bitsToBytes_lt _ _ (le_refl _)) hl

theorem demoMsg_encodes :
    List.Forall₂ Encodes demoMsg.toIes.1 (demoMsg.toIes.1.map wireOf) := by
  obtain ⟨F, ⟨hE, -, -⟩, -⟩ := toIes_carry demoMsg (List.cons_ne_nil _ _) demoMsg_fieldsRoundTrip
  exact hE

set_option maxRecDepth 100000 in
/-- Witness of C14 (amended) on the elements of `demoMsg`, whose body is `wireValid`. -/
theorem C14_body_alignment_witness :
    List.Forall₂ Encodes demoMsg.toIes.1 (demoMsg.toIes.1.map wireOf) ∧
      demoMsg.toIes.1.map wireOf =
        [⟨78, 0, [0, 7]⟩, ⟨42, 0, [1, 44]⟩, ⟨44, 0, [0, 0, 9]⟩, ⟨171, 0, [160]⟩] ∧
      encodeBody demoMsg.toIes.1 = .ok wireValid ∧
      ∃ body, encodeBody demoMsg.toIes.1 = .ok body ∧
        wireIEs body = .ok (demoMsg.toIes.1.map wireOf) ∧
        (demoZero.Decode body).decoder =
          (finish (decodeIEs ⟨demoZero, [], []⟩ (demoMsg.toIes.1.map wireOf))).decoder ∧
        (body.length < 16384 →
          encodeMessage F1apPduInitiatingMessage ProcedureCode_F1Setup
              Criticality_PresentReject demoMsg.toIes.1 =
            (none, [0, 1, 0] ++ (bitsToBytes (lengthBits body.length) ++ body))) :=
  ⟨demoMsg_encodes, by rfl, by rfl,
    C14_body_alignment demoMsg.toIes.1 (demoMsg.toIes.1.map wireOf) demoZero demoMsg_encodes
      (by decide) (by decide)⟩

/-- C16, evaluation at the failing input. `ProcedureCode.Encode` writes the value 1 as one
aligned octet (bounds 0..255), but `ProcedureCode.Decode` reads with the bounds 0..2, that
is a two-bit field: from the octet 1 it returns 0 and stops after two bits; from the
octet 255 it returns 3. -/
theorem C16_procedure_code_decode_bounds :
    (ProcedureCode.mk 1).Encode NewWriter = .ok ⟨natToBits 8 1⟩ ∧
      (⟨natToBits 8 1⟩ : AperWriter).Close = [1] ∧
      ProcedureCode.Decode (NewReader [1]) = .ok (⟨0⟩, ⟨natToBits 6 1, 2⟩) ∧
      (ProcedureCode.mk 255).Encode NewWriter = .ok ⟨natToBits 8 255⟩ ∧
      (⟨natToBits 8 255⟩ : AperWriter).Close = [255] ∧
      ProcedureCode.Decode (NewReader [255]) = .ok (⟨3⟩, ⟨natToBits 6 63, 2⟩) := by
  refine ⟨by rfl, by rfl, by rfl, by rfl, by rfl, by rfl⟩

/-- C20, evaluation. Four fields of the record that `BuildDiagnostics` returns are its four
arguments, the list of items unchanged; the field `TransactionID` is the package-level
`TransactionID`, so it is the same for any two calls whatever the caller passes: no
argument carries a transaction identifier. -/
theorem C20_transaction_id_not_an_argument (τ : Type) (pkg : τ) (present : Nat)
    (procedureCode : ProcedureCode) (criticality : Criticality)
    (diagnosticsItems : List CriticalityDiagnosticsIEItem) :
    (BuildDiagnostics pkg present procedureCode criticality diagnosticsItems).ProcedureCode =
        some procedureCode ∧
      (BuildDiagnostics pkg present procedureCode criticality diagnosticsItems).TriggeringMessage =
        some ⟨present⟩ ∧
      (BuildDiagnostics pkg present procedureCode criticality
        diagnosticsItems).ProcedureCriticality = some criticality ∧
      (BuildDiagnostics pkg present procedureCode criticality
        diagnosticsItems).IEsCriticalityDiagnostics = diagnosticsItems ∧
      (BuildDiagnostics pkg present procedureCode criticality diagnosticsItems).TransactionID =
        pkg ∧
      ∀ (present' : Nat) (procedureCode' : ProcedureCode) (criticality' : Criticality)
        (diagnosticsItems' : List CriticalityDiagnosticsIEItem),
        (BuildDiagnostics pkg present' procedureCode' criticality' diagnosticsItems').TransactionID =
          (BuildDiagnostics pkg present procedureCode criticality diagnosticsItems).TransactionID :=
  ⟨rfl, rfl, rfl, rfl, rfl, fun _ _ _ _ => rfl⟩

/-! ## Errors of Decode: the failing value decoder and what the target holds (C19) -/

theorem readField_error {V : IEValues} {α : Type} (d : F1SetupRequestDecoder V)
    (ieR : AperReader) (dec : AperReader → Except Error α) (text name : String)
    (set : F1SetupRequest V → α → F1SetupRequest V) (c : Error)
    (ht : text = "Read " ++ name) (h : errOf name (dec ieR) = some (name, c)) :
    readField d ieR dec text set = (d, WrapError ("Read " ++ name) (some c)) := by
  unfold readField
  cases hd : dec ieR with
  | ok v => rw [hd] at h; simp [errOf] at h
  | error e =>
    rw [hd] at h
    simp only [errOf, Option.some.injEq, Prod.mk.injEq, true_and] at h
    subst h
    rw [ht]

theorem errOf_name {α : Type} (name n : String) (r : Except Error α) (c : Error)
    (h : errOf name r = some (n, c)) : n = name := by
  cases r with
  | ok v => simp [errOf] at h
  | error e =>
    simp only [errOf, Option.some.injEq, Prod.mk.injEq] at h
    exact h.1.symm

theorem switchIE_readError {V : IEValues} (d : F1SetupRequestDecoder V) (x : WireIE)
    (name : String) (c : Error) (h : readError V x = some (name, c)) :
    d.switchIE x.toMsgIe (NewReader x.value) = (d, WrapError ("Read " ++ name) (some c)) := by
  unfold readError at h
  unfold F1SetupRequestDecoder.switchIE
  by_cases h1 : x.id = ProtocolIEID_TransactionID
  · simp only [if_pos h1] at h
    have hn := errOf_name _ _ _ _ h
    subst hn
    simp only [WireIE.toMsgIe, if_pos h1]
    exact readField_error _ _ _ _ _ _ _ (by decide) h
  simp only [if_neg h1] at h
  simp only [WireIE.toMsgIe, if_neg h1]
  by_cases h2 : x.id = ProtocolIEID_gNBDUID
  · simp only [if_pos h2] at h
    have hn := errOf_name _ _ _ _ h
    subst hn
    simp only [WireIE.toMsgIe, if_pos h2]
    exact readField_error _ _ _ _ _ _ _ (by decide) h
  simp only [if_neg h2] at h
  simp only [WireIE.toMsgIe, if_neg h2]
  by_cases h3 : x.id = ProtocolIEID_gNBDUName
  · simp only [if_pos h3] at h
    have hn := errOf_name _ _ _ _ h
    subst hn
    simp only [WireIE.toMsgIe, if_pos h3]
    exact readField_error _ _ _ _ _ _ _ (by decide) h
  simp only [if_neg h3] at h
  simp only [WireIE.toMsgIe, if_neg h3]
  by_cases h4 : x.id = ProtocolIEID_gNBDUServedCellsList
  · simp only [if_pos h4] at h
    have hn := errOf_name _ _ _ _ h
    subst hn
    simp only [WireIE.toMsgIe, if_pos h4]
    exact readField_error _ _ _ _ _ _ _ (by decide) h
  simp only [if_neg h4] at h
  simp only [WireIE.toMsgIe, if_neg h4]
  by_cases h5 : x.id = ProtocolIEID_GNBDURRCVersion
  · simp only [if_pos h5] at h
    have hn := errOf_name _ _ _ _ h
    subst hn
    simp only [WireIE.toMsgIe, if_pos h5]
    exact readField_error _ _ _ _ _ _ _ (by decide) h
  simp only [if_neg h5] at h
  simp only [WireIE.toMsgIe, if_neg h5]
  by_cases h6 : x.id = ProtocolIEID_TransportLayerAddressInfo
  · simp only [if_pos h6] at h
    have hn := errOf_name _ _ _ _ h
    subst hn
    simp only [WireIE.toMsgIe, if_pos h6]
    exact readField_error _ _ _ _ _ _ _ (by decide) h
  simp only [if_neg h6] at h
  simp only [WireIE.toMsgIe, if_neg h6]
  by_cases h7 : x.id = ProtocolIEID_BAPAddress
  · simp only [if_pos h7] at h
    have hn := errOf_name _ _ _ _ h
    subst hn
    simp only [WireIE.toMsgIe, if_pos h7]
    exact readField_error _ _ _ _ _ _ _ (by decide) h
  simp only [if_neg h7] at h
  simp only [WireIE.toMsgIe, if_neg h7]
  by_cases h8 : x.id = ProtocolIEID_ExtendedGNBCUName
  · simp only [if_pos h8] at h
    have hn := errOf_name _ _ _ _ h
    subst hn
    simp only [WireIE.toMsgIe, if_pos h8]
    exact readField_error _ _ _ _ _ _ _ (by decide) h
  simp only [if_neg h8] at h
  simp only [WireIE.toMsgIe, if_neg h8]
  simp at h

theorem dispatch_readError {V : IEValues} (d : F1SetupRequestDecoder V) (x : WireIE)
    (name : String) (c : Error) (hx : x.id ∉ keys d) (h : readError V x = some (name, c)) :
    d.dispatch x.toMsgIe x.value =
      ({ d with list := (x.id, x.toMsgIe) :: d.list }, WrapError ("Read " ++ name) (some c)) := by
  have h1 : (d.list.lookup x.id).isSome = false := by
    have := (lookup_isNone_iff d.list x.id).2 hx
    cases hh : d.list.lookup x.id <;> simp_all
  have e1 : d.dispatch x.toMsgIe x.value =
      F1SetupRequestDecoder.switchIE { d with list := (x.id, x.toMsgIe) :: d.list }
        x.toMsgIe (NewReader x.value) := by
    simp [F1SetupRequestDecoder.dispatch, WireIE.toMsgIe, h1]
  rw [e1, switchIE_readError _ x name c h]

theorem dispatch_err_msg {V : IEValues} (d : F1SetupRequestDecoder V) (x : WireIE)
    (h : (d.dispatch x.toMsgIe x.value).2 ≠ none) :
    (d.dispatch x.toMsgIe x.value).1.msg = d.msg := by
  by_cases hx : x.id ∈ d.list.map Prod.fst
  · rw [dispatch_dup d x hx]
  · have h1 : (d.list.lookup x.id).isSome = false := by
      have := (lookup_isNone_iff d.list x.id).2 hx
      cases hh : d.list.lookup x.id <;> simp_all
    have e1 : d.dispatch x.toMsgIe x.value =
        F1SetupRequestDecoder.switchIE { d with list := (x.id, x.toMsgIe) :: d.list }
          x.toMsgIe (NewReader x.value) := by
      simp [F1SetupRequestDecoder.dispatch, WireIE.toMsgIe, h1]
    rw [e1] at h ⊢
    revert h
    apply switchIE_rel (fun p _ => p.2 ≠ none → p.1.msg = d.msg)
      { d with list := (x.id, x.toMsgIe) :: d.list }
      { d with list := (x.id, x.toMsgIe) :: d.list }
    · intro α dec text set
      unfold readField
      cases dec (NewReader x.value) with
      | error e => intro _; rfl
      | ok v => intro hne; exact absurd rfl hne
    · intro items hne; exact absurd rfl hne
    · intro hne; exact absurd rfl hne

theorem decodeIEs_split {V : IEValues} :
    ∀ (l : List WireIE) (d : F1SetupRequestDecoder V),
      (decodeIEs d l).2 = none ∨
      ∃ pre y post, l = pre ++ y :: post ∧ (decodeIEs d pre).2 = none ∧
        ((decodeIEs d pre).1.dispatch y.toMsgIe y.value).2 ≠ none ∧
        decodeIEs d l = (decodeIEs d pre).1.dispatch y.toMsgIe y.value := by
  intro l
  induction l with
  | nil => intro d; left; rfl
  | cons x xs ih =>
    intro d
    cases h3 : d.dispatch x.toMsgIe x.value with
    | mk d1 e1 =>
      cases e1 with
      | some err =>
        right
        refine ⟨[], x, xs, rfl, rfl, ?_, ?_⟩
        · simp only [decodeIEs, h3]; simp
        · simp only [decodeIEs, h3]
      | none =>
        rcases ih d1 with h | ⟨pre, y, post, hl, hp, hy, he⟩
        · left
          simp only [decodeIEs, h3]; exact h
        · right
          refine ⟨x :: pre, y, post, by rw [hl]; rfl, ?_, ?_, ?_⟩
          · simp only [decodeIEs, h3]; exact hp
          · simp only [decodeIEs, h3]; exact hy
          · simp only [decodeIEs, h3]; exact he

theorem decodeIEs_msg {V : IEValues} (l : List WireIE) (d : F1SetupRequestDecoder V)
    (h : (decodeIEs d l).2 = none) : (decodeIEs d l).1.msg = l.foldl setField d.msg := by
  obtain ⟨a, b, c⟩ := decodeIEs_none d.msg l d h
  rw [decodeIEs_ok d.msg l d a b c, foldl_applyIE]

set_option maxRecDepth 100000 in
/-- C19, counterexample. Decoding `wireCorrupt` into the zero message fails (the mandatory
GNBDUID is missing), yet the target struct no longer equals its value before the call: it
holds the transaction identifier 7 and the served cell 9 read from the wire. -/
theorem C19_counterexample :
    (demoZero.Decode wireCorrupt).err =
        some "F1SetupRequest: Mandatory field GNBDUID is missing" ∧
      demoZero.TransactionID = (0 : Nat) ∧
      (demoZero.Decode wireCorrupt).msg.TransactionID = (7 : Nat) ∧
      demoZero.GNBDUServedCellsList = [] ∧
      (demoZero.Decode wireCorrupt).msg.GNBDUServedCellsList = [(9 : Nat)] := by
  refine ⟨by rfl, by rfl, by rfl, by rfl, by rfl⟩

/-- C19, amended. `Decode` decodes in place. Whenever it returns an error on a wire that
carries the records `ies`, the target struct is the struct before the call with the values
of the records `pre` stored into it in wire order, where `pre` is the longest prefix of
`ies` that is dispatched without error (all of `ies` when the error comes from the mandatory
check); the failing record and the records after it leave no trace in the struct. In
particular the struct is unchanged when the first record fails. -/
theorem C19_partial_decode {V : IEValues} (msg : F1SetupRequest V) (wire : List Nat)
    (ies : List WireIE) (hw : wireIEs wire = .ok ies)
    (herr : (msg.Decode wire).err ≠ none) :
    ∃ pre, pre <+: ies ∧ (decodeIEs ⟨msg, [], []⟩ pre).2 = none ∧
      (pre = ies ∨ ∃ y post, ies = pre ++ y :: post ∧
        ((decodeIEs ⟨msg, [], []⟩ pre).1.dispatch y.toMsgIe y.value).2 ≠ none) ∧
      (msg.Decode wire).msg = pre.foldl setField msg ∧
      (pre = [] → (msg.Decode wire).msg = msg) ∧
      (msg.Decode wire).err ≠ none := by
  have hd := decodeBody_eq msg wire _ hw
  rcases decodeIEs_split ies (⟨msg, [], []⟩ : F1SetupRequestDecoder V) with
    h | ⟨pre, y, post, hl, hp, hy, he⟩
  · have hm : (msg.Decode wire).msg = ies.foldl setField msg := by
      rw [Decode_msg, hd]
      cases h1 : decodeIEs (⟨msg, [], []⟩ : F1SetupRequestDecoder V) ies with
      | mk d1 e1 =>
        have h2 := decodeIEs_msg ies (⟨msg, [], []⟩ : F1SetupRequestDecoder V) h
        rw [h1] at h h2
        simp only at h h2
        subst h
        simp only [finish, mandatoryCheck_msg, h2]
    refine ⟨ies, List.prefix_refl _, h, Or.inl rfl, hm, ?_, herr⟩
    intro hnil
    rw [hm, hnil]; rfl
  · have hm : (msg.Decode wire).msg = pre.foldl setField msg := by
      rw [Decode_msg, hd, he]
      have h2 := decodeIEs_msg pre (⟨msg, [], []⟩ : F1SetupRequestDecoder V) hp
      have h3 := dispatch_err_msg _ y hy
      cases h4 : (decodeIEs (⟨msg, [], []⟩ : F1SetupRequestDecoder V) pre).1.dispatch
          y.toMsgIe y.value with
      | mk d2 e2 =>
        rw [h4] at hy h3
        simp only at hy h3
        cases e2 with
        | none => exact absurd rfl hy
        | some err =>
          simp only [finish]
          rw [h3, h2]
    refine ⟨pre, ⟨y :: post, hl.symm⟩, hp, Or.inr ⟨y, post, hl, hy⟩, hm, ?_, herr⟩
    intro hnil
    rw [hm, hnil]; rfl

set_option maxRecDepth 100000 in
/-- Witness of C19 (amended) on `wireCorrupt`, where the error comes from the mandatory
check after all four records have been stored. -/
theorem C19_partial_decode_witness :
    wireIEs wireCorrupt =
        .ok [⟨78, 0, [0, 7]⟩, ⟨999, 0, [1, 44]⟩, ⟨44, 0, [0, 0, 9]⟩, ⟨171, 0, [160]⟩] ∧
      (demoZero.Decode wireCorrupt).err ≠ none ∧
      ∃ pre, pre <+: [⟨78, 0, [0, 7]⟩, ⟨999, 0, [1, 44]⟩, ⟨44, 0, [0, 0, 9]⟩, ⟨171, 0, [160]⟩] ∧
        (decodeIEs ⟨demoZero, [], []⟩ pre).2 = none ∧
        (pre = [⟨78, 0, [0, 7]⟩, ⟨999, 0, [1, 44]⟩, ⟨44, 0, [0, 0, 9]⟩, ⟨171, 0, [160]⟩] ∨
          ∃ y post,
            [⟨78, 0, [0, 7]⟩, ⟨999, 0, [1, 44]⟩, ⟨44, 0, [0, 0, 9]⟩, ⟨171, 0, [160]⟩] =
              pre ++ y :: post ∧
            ((decodeIEs ⟨demoZero, [], []⟩ pre).1.dispatch y.toMsgIe y.value).2 ≠ none) ∧
        (demoZero.Decode wireCorrupt).msg = pre.foldl setField demoZero ∧
        (pre = [] → (demoZero.Decode wireCorrupt).msg = demoZero) ∧
        (demoZero.Decode wireCorrupt).err ≠ none :=
  ⟨by rfl, by decide,
    C19_partial_decode demoZero wireCorrupt
      [⟨78, 0, [0, 7]⟩, ⟨999, 0, [1, 44]⟩, ⟨44, 0, [0, 0, 9]⟩, ⟨171, 0, [160]⟩] (by rfl)
      (by decide)⟩

/-! ## Unrecognised elements, returned diagnostics, the combination of errors (C21, C23, C30) -/

theorem decodeBody_diagList {V : IEValues} (msg : F1SetupRequest V) (wire : List Nat) :
    (msg.decodeBody wire).diagList = [] := by
  unfold F1SetupRequest.decodeBody
  simp only
  split
  · rfl
  · exact mandatoryCheck_diagList _

theorem dispatch_unrecognised {V : IEValues} (d : F1SetupRequestDecoder V) (x : WireIE)
    (hu : ¬ recognised x.id) (hnew : x.id ∉ keys d) :
    d.dispatch x.toMsgIe x.value =
      (⟨d.msg, d.diagList ++ notUnderstood x, (x.id, x.toMsgIe) :: d.list⟩, none) := by
  have h1 : (d.list.lookup x.id).isSome = false := by
    have := (lookup_isNone_iff d.list x.id).2 hnew
    cases hh : d.list.lookup x.id <;> simp_all
  have e1 : d.dispatch x.toMsgIe x.value =
      F1SetupRequestDecoder.switchIE { d with list := (x.id, x.toMsgIe) :: d.list }
        x.toMsgIe (NewReader x.value) := by
    simp [F1SetupRequestDecoder.dispatch, WireIE.toMsgIe, h1]
  rw [e1, switchIE_unrecognised _ x _ hu]

/-- C21. Unrecognised element in `decodeIE`: when the three reads at the head of `decodeIE`
yield a record `x` whose identifier is none of the eight identifiers of the setup request and
is not yet in the map of seen identifiers, `decodeIE` returns no error, whatever the
criticality read from the wire; the reader stands after the record; the message is
unchanged; the identifier is registered in the map; and the diagnostics list of the decoder
is unchanged when the criticality is Ignore, and otherwise (in particular for Reject and
for Notify) it is extended by exactly one NotUnderstood item that carries the identifier
and the criticality of the record. -/
theorem C21_unrecognised_ie {V : IEValues} (d : F1SetupRequestDecoder V) (r r' : AperReader)
    (x : WireIE) (hr : readIE r = .ok (x, r')) (hu : ¬ recognised x.id)
    (hnew : x.id ∉ keys d) :
    (d.decodeIE r).2.2 = none ∧ (d.decodeIE r).2.1 = r' ∧
      (d.decodeIE r).1.msg = d.msg ∧
      (d.decodeIE r).1.list = (x.id, x.toMsgIe) :: d.list ∧
      (x.crit = Criticality_PresentIgnore → (d.decodeIE r).1.diagList = d.diagList) ∧
      (x.crit ≠ Criticality_PresentIgnore →
        (d.decodeIE r).1.diagList =
          d.diagList ++ [⟨⟨x.crit⟩, ⟨x.id⟩, ⟨TypeOfErrorNotunderstood⟩⟩]) ∧
      (x.crit = Criticality_PresentReject ∨ x.crit = Criticality_PresentNotify →
        (d.decodeIE r).1.diagList =
          d.diagList ++ [⟨⟨x.crit⟩, ⟨x.id⟩, ⟨TypeOfErrorNotunderstood⟩⟩]) := by
  rw [decodeIE_ok d r r' x hr, dispatch_unrecognised d x hu hnew]
  have hI : x.crit = Criticality_PresentIgnore → notUnderstood x = [] := by
    intro hc
    simp [notUnderstood, hu, hc]
  have hN : x.crit ≠ Criticality_PresentIgnore →
      notUnderstood x = [⟨⟨x.crit⟩, ⟨x.id⟩, ⟨TypeOfErrorNotunderstood⟩⟩] := by
    intro hc
    simp [notUnderstood, hu, hc]
  refine ⟨rfl, rfl, rfl, rfl, ?_, ?_, ?_⟩
  · intro hc
    simp only [hI hc, List.append_nil]
  · intro hc
    simp only [hN hc]
  · intro hc
    have hne : x.crit ≠ Criticality_PresentIgnore := by
      rcases hc with hc | hc <;> rw [hc] <;> decide
    simp only [hN hne]

set_option maxRecDepth 100000 in
/-- Witness of C21 on the octets 3, 231, 128, 2, 1, 2: identifier 999, criticality Notify,
value octets 1, 2, read by a decoder that has seen no identifier. -/
theorem C21_unrecognised_ie_witness :
    readIE (NewReader [3, 231, 128, 2, 1, 2]) = .ok (⟨999, 2, [1, 2]⟩, ⟨[], 48⟩) ∧
      ¬ recognised 999 ∧
      ((⟨demoZero, [], []⟩ : F1SetupRequestDecoder demoValues).decodeIE
          (NewReader [3, 231, 128, 2, 1, 2])).2.2 = none ∧
      ((⟨demoZero, [], []⟩ : F1SetupRequestDecoder demoValues).decodeIE
          (NewReader [3, 231, 128, 2, 1, 2])).1.msg = demoZero ∧
      ((⟨demoZero, [], []⟩ : F1SetupRequestDecoder demoValues).decodeIE
          (NewReader [3, 231, 128, 2, 1, 2])).1.diagList =
        [⟨⟨Criticality_PresentNotify⟩, ⟨999⟩, ⟨TypeOfErrorNotunderstood⟩⟩] :=
  have h := C21_unrecognised_ie (⟨demoZero, [], []⟩ : F1SetupRequestDecoder demoValues)
    (NewReader [3, 231, 128, 2, 1, 2]) ⟨[], 48⟩ ⟨999, 2, [1, 2]⟩ (by rfl) (by decide)
    (by simp [keys])
  ⟨by rfl, by decide, h.1, h.2.2.1, h.2.2.2.2.2.1 (by decide)⟩

set_option maxRecDepth 100000 in
/-- C23. The diagnostics list that `Decode` returns is empty for every target and every
wire, whether the call succeeds or fails: the named result is never assigned. The items are
collected in the decoder's own list only, which is not empty after the successful decode of
`wireNotify` nor after the failing decode of `wireEmpty`. -/
theorem C23_decode_returns_no_diagnostics :
    (∀ (V : IEValues) (msg : F1SetupRequest V) (wire : List Nat),
        (msg.Decode wire).diagList = []) ∧
      ((demoZero.Decode wireNotify).err = none ∧
        (demoZero.Decode wireNotify).decoder.diagList ≠ [] ∧
        (demoZero.Decode wireNotify).diagList = []) ∧
      ((demoZero.Decode wireEmpty).err ≠ none ∧
        (demoZero.Decode wireEmpty).decoder.diagList ≠ [] ∧
        (demoZero.Decode wireEmpty).diagList = []) := by
  refine ⟨?_, ⟨by rfl, by decide, by rfl⟩, ⟨by decide, by decide, by rfl⟩⟩
  intro V msg wire
  rw [Decode_diagList, decodeBody_diagList]

/-- C30. The function `msgErrors`: the result is nil exactly when both arguments are nil;
when exactly one argument is not nil the result is that argument; when both are not nil
the result is the text of the first, a colon and a blank, and the text of the second. -/
theorem C30_msgErrors :
    (∀ err1 err2 : Option Error, msgErrors err1 err2 = none ↔ err1 = none ∧ err2 = none) ∧
      (∀ e : Error, msgErrors none (some e) = some e) ∧
      (∀ e : Error, msgErrors (some e) none = some e) ∧
      (∀ e1 e2 : Error, msgErrors (some e1) (some e2) = some (e1 ++ ": " ++ e2)) := by
  refine ⟨?_, fun _ => rfl, fun _ => rfl, fun _ _ => rfl⟩
  intro err1 err2
  cases err1 <;> cases err2 <;> simp [msgErrors]

/-! ## Only the first missing mandatory field is reported (C22) -/

theorem notUnderstood_type (x : WireIE) :
    ∀ it ∈ notUnderstood x, it.TypeOfError.Value = TypeOfErrorNotunderstood := by
  intro it hit
  unfold notUnderstood at hit
  by_cases h1 : recognised x.id
  · simp [h1] at hit
  · by_cases h2 : x.crit ≠ Criticality_PresentIgnore
    · simp only [if_neg h1, if_pos h2, List.mem_singleton] at hit
      rw [hit]
    · simp [h1, h2] at hit

theorem filter_missing_notUnderstood (l : List WireIE) :
    (l.flatMap notUnderstood).filter
      (fun it => decide (it.TypeOfError.Value = TypeOfErrorMissing)) = [] := by
  rw [List.filter_eq_nil_iff]
  intro it hit
  rw [List.mem_flatMap] at hit
  obtain ⟨x, _, hx⟩ := hit
  have := notUnderstood_type x it hx
  simp [this, TypeOfErrorNotunderstood, TypeOfErrorMissing]

/-- C22. First-missing-only reporting: when the scan of the records `ies` raises no error
and `(id, name)` is the first mandatory field, in the order TransactionID, GNBDUID,
GNBDURRCVersion, whose identifier is absent from `ies` (with `rest` the later absent ones),
`Decode` fails with the missing-field error that names `name`; the diagnostics list of the
decoder is the list left by the scan followed by the one Missing item of identifier `id` and
criticality Reject; that item is its only Missing item, so no later absent field has an
item. -/
theorem C22_first_missing_only {V : IEValues} (msg : F1SetupRequest V) (wire : List Nat)
    (ies : List WireIE) (hw : wireIEs wire = .ok ies)
    (hscan : (decodeIEs ⟨msg, [], []⟩ ies).2 = none)
    (id : Nat) (name : String) (rest : List (Nat × String))
    (hm : mandatoryOrder.filter (fun f => decide (f.1 ∉ ies.map WireIE.id)) =
      (id, name) :: rest) :
    (msg.Decode wire).err =
        some ("F1SetupRequest: " ++ ("Mandatory field " ++ name ++ " is missing")) ∧
      (msg.Decode wire).decoder.diagList =
        ies.flatMap notUnderstood ++
          [⟨⟨Criticality_PresentReject⟩, ⟨id⟩, ⟨TypeOfErrorMissing⟩⟩] ∧
      (msg.Decode wire).decoder.diagList.filter
          (fun it => decide (it.TypeOfError.Value = TypeOfErrorMissing)) =
        [⟨⟨Criticality_PresentReject⟩, ⟨id⟩, ⟨TypeOfErrorMissing⟩⟩] ∧
      (∀ f ∈ rest, f.1 ≠ id ∧ f.1 ∉ ies.map WireIE.id ∧
        ∀ it ∈ (msg.Decode wire).decoder.diagList,
          it.TypeOfError.Value = TypeOfErrorMissing → it.IEID.Value ≠ f.1) ∧
      (msg.Decode wire).diagList = [] := by
  obtain ⟨hv, hnd, _⟩ := decodeIEs_none msg ies ⟨msg, [], []⟩ hscan
  have hb := decodeBody_of_ok msg wire ies hw hnd hv
  have he := mandatoryCheck_err (V := V)
    ⟨ies.foldl setField msg, ies.flatMap notUnderstood, (ies.map entry).reverse⟩
  have hdg := mandatoryCheck_decoder_diag (V := V)
    ⟨ies.foldl setField msg, ies.flatMap notUnderstood, (ies.map entry).reverse⟩
  rw [keys_mk] at he hdg
  simp only [List.mem_reverse] at he hdg
  rw [← hb] at he hdg
  have key : (msg.decodeBody wire).err = some ("Mandatory field " ++ name ++ " is missing") ∧
      (msg.decodeBody wire).decoder.diagList =
        ies.flatMap notUnderstood ++
          [⟨⟨Criticality_PresentReject⟩, ⟨id⟩, ⟨TypeOfErrorMissing⟩⟩] ∧
      (∀ f ∈ rest, f.1 ≠ id ∧ f.1 ∉ ies.map WireIE.id) := by
    by_cases h1 : ProtocolIEID_TransactionID ∈ ies.map WireIE.id
    · by_cases h2 : ProtocolIEID_gNBDUID ∈ ies.map WireIE.id
      · by_cases h3 : ProtocolIEID_GNBDURRCVersion ∈ ies.map WireIE.id
        · simp [mandatoryOrder, List.filter, h1, h2, h3] at hm
        · simp only [mandatoryOrder, List.filter, h1, h2, h3, not_true_eq_false,
            not_false_eq_true, decide_True, decide_False, List.cons.injEq, Prod.mk.injEq] at hm
          obtain ⟨⟨rfl, rfl⟩, rfl⟩ := hm
          rw [he, hdg, if_neg (not_not.2 h1), if_neg (not_not.2 h2), if_pos h3,
            if_neg (not_not.2 h1), if_neg (not_not.2 h2), if_pos h3]
          exact ⟨rfl, rfl, by simp⟩
      · by_cases h3 : ProtocolIEID_GNBDURRCVersion ∈ ies.map WireIE.id
        · simp only [mandatoryOrder, List.filter, h1, h2, h3, not_true_eq_false,
            not_false_eq_true, decide_True, decide_False, List.cons.injEq, Prod.mk.injEq] at hm
          obtain ⟨⟨rfl, rfl⟩, rfl⟩ := hm
          rw [he, hdg, if_neg (not_not.2 h1), if_pos h2, if_neg (not_not.2 h1), if_pos h2]
          exact ⟨rfl, rfl, by simp⟩
        · simp only [mandatoryOrder, List.filter, h1, h2, h3, not_true_eq_false,
            not_false_eq_true, decide_True, decide_False, List.cons.injEq, Prod.mk.injEq] at hm
          obtain ⟨⟨rfl, rfl⟩, rfl⟩ := hm
          rw [he, hdg, if_neg (not_not.2 h1), if_pos h2, if_neg (not_not.2 h1), if_pos h2]
          refine ⟨rfl, rfl, ?_⟩
          intro f hf
          simp only [List.mem_singleton] at hf
          subst hf
          exact ⟨by decide, h3⟩
    · have hrest : ∀ f ∈ rest, f.1 ≠ ProtocolIEID_TransactionID ∧ f.1 ∉ ies.map WireIE.id := by
        intro f hf
        have hmem : f ∈ mandatoryOrder.filter (fun f => decide (f.1 ∉ ies.map WireIE.id)) := by
          rw [hm]; exact List.mem_cons_of_mem _ hf
        have hnd2 : (mandatoryOrder.filter
            (fun f => decide (f.1 ∉ ies.map WireIE.id))).Nodup :=
          List.Nodup.filter _ (by decide)
        rw [hm] at hnd2
        have hne : f ≠ (id, name) := by
          intro hEq
          rw [hEq] at hf
          exact (List.nodup_cons.1 hnd2).1 hf
        rw [List.mem_filter] at hmem
        have hin := hmem.1
        have hid : (id, name) = (ProtocolIEID_TransactionID, "TransactionID") := by
          have : (mandatoryOrder.filter (fun f => decide (f.1 ∉ ies.map WireIE.id))).head? =
              some (ProtocolIEID_TransactionID, "TransactionID") := by
            simp [mandatoryOrder, List.filter, h1]
          rw [hm] at this
          simpa using this
        rw [hid] at hne
        refine ⟨?_, by simpa using hmem.2⟩
        simp only [mandatoryOrder, List.mem_cons, List.mem_singleton, List.not_mem_nil,
          or_false] at hin
        rcases hin with rfl | rfl | rfl
        · exact absurd rfl hne
        · decide
        · decide
      have hid : (id, name) = (ProtocolIEID_TransactionID, "TransactionID") := by
        have : (mandatoryOrder.filter (fun f => decide (f.1 ∉ ies.map WireIE.id))).head? =
            some (ProtocolIEID_TransactionID, "TransactionID") := by
          simp [mandatoryOrder, List.filter, h1]
        rw [hm] at this
        simpa using this
      simp only [Prod.mk.injEq] at hid
      obtain ⟨rfl, rfl⟩ := hid
      rw [he, hdg, if_pos h1, if_pos h1]
      exact ⟨rfl, rfl, hrest⟩
  obtain ⟨k1, k2, k3⟩ := key
  have hf : (msg.Decode wire).decoder.diagList.filter
      (fun it => decide (it.TypeOfError.Value = TypeOfErrorMissing)) =
      [⟨⟨Criticality_PresentReject⟩, ⟨id⟩, ⟨TypeOfErrorMissing⟩⟩] := by
    rw [Decode_decoder, k2, List.filter_append, filter_missing_notUnderstood]
    simp
  refine ⟨Decode_err_some msg wire _ k1, by rw [Decode_decoder, k2], hf, ?_, ?_⟩
  · intro f hfr
    refine ⟨(k3 f hfr).1, (k3 f hfr).2, ?_⟩
    intro it hit hty
    have : it ∈ (msg.Decode wire).decoder.diagList.filter
        (fun it => decide (it.TypeOfError.Value = TypeOfErrorMissing)) := by
      rw [List.mem_filter]; exact ⟨hit, by simpa using hty⟩
    rw [hf, List.mem_singleton] at this
    rw [this]
    exact fun h => (k3 f hfr).1 h.symm
  · rw [Decode_diagList, decodeBody_diagList]

set_option maxRecDepth 100000 in
/-- Witness of C22 on `wireOnlyTransactionID`, which lacks the identifiers 42 and 171: the
error names GNBDUID, and the decoder holds the Missing item of identifier 42 alone. -/
theorem C22_first_missing_only_witness :
    wireIEs wireOnlyTransactionID = .ok [⟨78, 0, [0, 7]⟩] ∧
      (demoZero.Decode wireOnlyTransactionID).err =
        some ("F1SetupRequest: " ++ ("Mandatory field " ++ "GNBDUID" ++ " is missing")) ∧
      (demoZero.Decode wireOnlyTransactionID).decoder.diagList =
        [⟨78, 0, [0, 7]⟩].flatMap notUnderstood ++
          [⟨⟨Criticality_PresentReject⟩, ⟨42⟩, ⟨TypeOfErrorMissing⟩⟩] ∧
      (demoZero.Decode wireOnlyTransactionID).decoder.diagList.filter
          (fun it => decide (it.TypeOfError.Value = TypeOfErrorMissing)) =
        [⟨⟨Criticality_PresentReject⟩, ⟨42⟩, ⟨TypeOfErrorMissing⟩⟩] ∧
      (∀ f ∈ [(171, "GNBDURRCVersion")], f.1 ≠ 42 ∧ f.1 ∉ [⟨78, 0, [0, 7]⟩].map WireIE.id ∧
        ∀ it ∈ (demoZero.Decode wireOnlyTransactionID).decoder.diagList,
          it.TypeOfError.Value = TypeOfErrorMissing → it.IEID.Value ≠ f.1) ∧
      (demoZero.Decode wireOnlyTransactionID).diagList = [] :=
  ⟨by rfl,
    C22_first_missing_only demoZero wireOnlyTransactionID [⟨78, 0, [0, 7]⟩] (by rfl) (by rfl)
      42 "GNBDUID" [(171, "GNBDURRCVersion")] (by decide)⟩

/-! ## The fields a decode leaves alone; the criticality of recognised elements
(C26, C27) -/

theorem sameOutside_refl {V : IEValues} (ids : List Nat) (m : F1SetupRequest V) :
    sameOutside ids m m :=
  ⟨fun _ => rfl, fun _ => rfl, fun _ => rfl, fun _ => rfl, fun _ => rfl, fun _ => rfl,
    fun _ => rfl, fun _ => rfl⟩

theorem sameOutside_trans {V : IEValues} (a b : List Nat) (m1 m2 m3 : F1SetupRequest V)
    (h1 : sameOutside a m1 m2) (h2 : sameOutside b m2 m3) : sameOutside (a ++ b) m1 m3 := by
  obtain ⟨a1, a2, a3, a4, a5, a6, a7, a8⟩ := h1
  obtain ⟨b1, b2, b3, b4, b5, b6, b7, b8⟩ := h2
  refine ⟨?_, ?_, ?_, ?_, ?_, ?_, ?_, ?_⟩ <;> intro hn <;>
    rw [List.mem_append, not_or] at hn
  · exact (b1 hn.2).trans (a1 hn.1)
  · exact (b2 hn.2).trans (a2 hn.1)
  · exact (b3 hn.2).trans (a3 hn.1)
  · exact (b4 hn.2).trans (a4 hn.1)
  · exact (b5 hn.2).trans (a5 hn.1)
  · exact (b6 hn.2).trans (a6 hn.1)
  · exact (b7 hn.2).trans (a7 hn.1)
  · exact (b8 hn.2).trans (a8 hn.1)

theorem sameOutside_mono {V : IEValues} (a b : List Nat) (m1 m2 : F1SetupRequest V)
    (hab : ∀ i ∈ a, i ∈ b) (h : sameOutside a m1 m2) : sameOutside b m1 m2 := by
  obtain ⟨a1, a2, a3, a4, a5, a6, a7, a8⟩ := h
  exact ⟨fun hn => a1 (fun hi => hn (hab _ hi)), fun hn => a2 (fun hi => hn (hab _ hi)),
    fun hn => a3 (fun hi => hn (hab _ hi)), fun hn => a4 (fun hi => hn (hab _ hi)),
    fun hn => a5 (fun hi => hn (hab _ hi)), fun hn => a6 (fun hi => hn (hab _ hi)),
    fun hn => a7 (fun hi => hn (hab _ hi)), fun hn => a8 (fun hi => hn (hab _ hi))⟩

theorem sameOutside_setField {V : IEValues} (m : F1SetupRequest V) (x : WireIE) :
    sameOutside [x.id] m (setField m x) := by
  rcases setField_cases (V := V) x with h | ⟨hid, v, h⟩ | ⟨hid, v, h⟩ | ⟨hid, v, h⟩ |
    ⟨hid, v, h⟩ | ⟨hid, v, h⟩ | ⟨hid, v, h⟩ | ⟨hid, v, h⟩ | ⟨hid, v, h⟩
  · rw [h m]; exact sameOutside_refl _ _
  all_goals (rw [h m]; unfold sameOutside; simp [hid])

theorem sameOutside_foldl {V : IEValues} (l : List WireIE) :
    ∀ m : F1SetupRequest V, sameOutside (l.map WireIE.id) m (l.foldl setField m) := by
  induction l with
  | nil => intro m; exact sameOutside_refl _ _
  | cons x xs ih =>
    intro m
    exact sameOutside_trans [x.id] (xs.map WireIE.id) m (setField m x) _
      (sameOutside_setField m x) (ih (setField m x))

theorem Decode_msg_prefix {V : IEValues} (msg : F1SetupRequest V) (wire : List Nat)
    (ies : List WireIE) (hw : wireIEs wire = .ok ies) :
    ∃ pre, pre <+: ies ∧ (msg.Decode wire).msg = pre.foldl setField msg := by
  have hd := decodeBody_eq msg wire _ hw
  rcases decodeIEs_split ies (⟨msg, [], []⟩ : F1SetupRequestDecoder V) with
    h | ⟨pre, y, post, hl, hp, hy, he⟩
  · refine ⟨ies, List.prefix_refl _, ?_⟩
    rw [Decode_msg, hd]
    have h2 := decodeIEs_msg ies (⟨msg, [], []⟩ : F1SetupRequestDecoder V) h
    cases h1 : decodeIEs (⟨msg, [], []⟩ : F1SetupRequestDecoder V) ies with
    | mk d1 e1 =>
      rw [h1] at h h2
      simp only at h h2
      subst h
      simp only [finish, mandatoryCheck_msg, h2]
  · refine ⟨pre, ⟨y :: post, hl.symm⟩, ?_⟩
    rw [Decode_msg, hd, he]
    have h2 := decodeIEs_msg pre (⟨msg, [], []⟩ : F1SetupRequestDecoder V) hp
    have h3 := dispatch_err_msg _ y hy
    cases h4 : (decodeIEs (⟨msg, [], []⟩ : F1SetupRequestDecoder V) pre).1.dispatch
        y.toMsgIe y.value with
    | mk d2 e2 =>
      rw [h4] at hy h3
      simp only at hy h3
      cases e2 with
      | none => exact absurd rfl hy
      | some err =>
        simp only [finish]
        rw [h3, h2]

theorem Decode_sameOutside {V : IEValues} (msg : F1SetupRequest V) (wire : List Nat)
    (ies : List WireIE) (hw : wireIEs wire = .ok ies) :
    sameOutside (ies.map WireIE.id) msg (msg.Decode wire).msg := by
  obtain ⟨pre, ⟨post, hpre⟩, hm⟩ := Decode_msg_prefix msg wire ies hw
  rw [hm]
  apply sameOutside_mono (pre.map WireIE.id) _ _ _ _ (sameOutside_foldl pre msg)
  intro i hi
  rw [← hpre, List.map_append, List.mem_append]
  exact Or.inl hi

theorem decodeIE_recognised {V : IEValues} (d : F1SetupRequestDecoder V) (r r' : AperReader)
    (x : WireIE) (hr : readIE r = .ok (x, r')) (hrec : recognised x.id)
    (hok : (d.decodeIE r).2.2 = none) :
    (d.decodeIE r).1 = ⟨setField d.msg x, d.diagList, (x.id, x.toMsgIe) :: d.list⟩ := by
  rw [decodeIE_ok d r r' x hr] at hok ⊢
  simp only at hok
  have hfresh := dispatch_none_fresh d x hok
  have hn : notUnderstood x = [] := by simp [notUnderstood, hrec]
  rw [dispatch_fresh d x hfresh d.msg, applyIE_eq]
  simp only [hn, List.append_nil]

/-- C26. Frame property of decode. A call of `decodeIE` that reads a record `x` with a
recognised identifier and returns no error leaves every message field other than the one
stored under `x.id` as it was, leaves the diagnostics list as it was, and registers `x.id`
in the map. `Decode` works on the target as it is (it never resets it): on a wire that
carries the records `ies`, every field whose identifier does not occur in `ies` has after
the call the value it had before, whether the call succeeds or fails. -/
theorem C26_decode_frame {V : IEValues} (d : F1SetupRequestDecoder V) (r r' : AperReader)
    (x : WireIE) (hr : readIE r = .ok (x, r')) (hrec : recognised x.id)
    (hok : (d.decodeIE r).2.2 = none)
    (msg : F1SetupRequest V) (wire : List Nat) (ies : List WireIE)
    (hw : wireIEs wire = .ok ies) :
    (sameOutside [x.id] d.msg (d.decodeIE r).1.msg ∧
      (d.decodeIE r).1.msg = setField d.msg x ∧
      (d.decodeIE r).1.diagList = d.diagList ∧
      (d.decodeIE r).1.list = (x.id, x.toMsgIe) :: d.list) ∧
    sameOutside (ies.map WireIE.id) msg (msg.Decode wire).msg := by
  have h := decodeIE_recognised d r r' x hr hrec hok
  refine ⟨⟨?_, ?_, ?_, ?_⟩, Decode_sameOutside msg wire ies hw⟩
  · rw [h]; exact sameOutside_setField d.msg x
  · rw [h]
  · rw [h]
  · rw [h]

set_option maxRecDepth 100000 in
/-- Witness of C26: one call of `decodeIE` on the record 78 with a decoder over `demoFull`,
and `Decode` of `wireMandatoryOnly` into `demoFull`: the five fields whose identifiers are
not on the wire keep the values of `demoFull`. -/
theorem C26_decode_frame_witness :
    readIE (NewReader [0, 78, 0, 2, 0, 7]) = .ok (⟨78, 0, [0, 7]⟩, ⟨[], 48⟩) ∧
      wireIEs wireMandatoryOnly = .ok [⟨78, 0, [0, 7]⟩, ⟨42, 0, [1, 44]⟩, ⟨171, 0, [160]⟩] ∧
      ((demoFull.Decode wireMandatoryOnly).msg.GNBDUName = some [65, 66] ∧
        (demoFull.Decode wireMandatoryOnly).msg.GNBDUServedCellsList = [(9 : Nat), (10 : Nat)] ∧
        (demoFull.Decode wireMandatoryOnly).msg.TransportLayerAddressInfo = some (1 : Nat) ∧
        (demoFull.Decode wireMandatoryOnly).msg.BAPAddress = some (2 : Nat) ∧
        (demoFull.Decode wireMandatoryOnly).msg.ExtendedGNBCUName = some (3 : Nat)) ∧
      (sameOutside [78] demoFull
          ((⟨demoFull, [], []⟩ : F1SetupRequestDecoder demoValues).decodeIE
            (NewReader [0, 78, 0, 2, 0, 7])).1.msg ∧
        ((⟨demoFull, [], []⟩ : F1SetupRequestDecoder demoValues).decodeIE
            (NewReader [0, 78, 0, 2, 0, 7])).1.msg =
          setField demoFull ⟨78, 0, [0, 7]⟩ ∧
        ((⟨demoFull, [], []⟩ : F1SetupRequestDecoder demoValues).decodeIE
            (NewReader [0, 78, 0, 2, 0, 7])).1.diagList = [] ∧
        ((⟨demoFull, [], []⟩ : F1SetupRequestDecoder demoValues).decodeIE
            (NewReader [0, 78, 0, 2, 0, 7])).1.list =
          [(78, (⟨78, 0, [0, 7]⟩ : WireIE).toMsgIe)]) ∧
      sameOutside [78, 42, 171] demoFull (demoFull.Decode wireMandatoryOnly).msg :=
  ⟨by rfl, by rfl, ⟨by rfl, by rfl, by rfl, by rfl, by rfl⟩,
    C26_decode_frame (⟨demoFull, [], []⟩ : F1SetupRequestDecoder demoValues)
      (NewReader [0, 78, 0, 2, 0, 7]) ⟨[], 48⟩ ⟨78, 0, [0, 7]⟩ (by rfl) (by decide) (by rfl)
      demoFull wireMandatoryOnly [⟨78, 0, [0, 7]⟩, ⟨42, 0, [1, 44]⟩, ⟨171, 0, [160]⟩]
      (by rfl)⟩

theorem switchIE_crit {V : IEValues} (d : F1SetupRequestDecoder V) (a b : WireIE)
    (r : AperReader) (hid : a.id = b.id) (hrec : recognised a.id) :
    d.switchIE a.toMsgIe r = d.switchIE b.toMsgIe r := by
  unfold F1SetupRequestDecoder.switchIE
  simp only [WireIE.toMsgIe, ← hid]
  by_cases h1 : a.id = ProtocolIEID_TransactionID
  · simp only [if_pos h1]
  simp only [if_neg h1]
  by_cases h2 : a.id = ProtocolIEID_gNBDUID
  · simp only [if_pos h2]
  simp only [if_neg h2]
  by_cases h3 : a.id = ProtocolIEID_gNBDUName
  · simp only [if_pos h3]
  simp only [if_neg h3]
  by_cases h4 : a.id = ProtocolIEID_gNBDUServedCellsList
  · simp only [if_pos h4]
  simp only [if_neg h4]
  by_cases h5 : a.id = ProtocolIEID_GNBDURRCVersion
  · simp only [if_pos h5]
  simp only [if_neg h5]
  by_cases h6 : a.id = ProtocolIEID_TransportLayerAddressInfo
  · simp only [if_pos h6]
  simp only [if_neg h6]
  by_cases h7 : a.id = ProtocolIEID_BAPAddress
  · simp only [if_pos h7]
  simp only [if_neg h7]
  by_cases h8 : a.id = ProtocolIEID_ExtendedGNBCUName
  · simp only [if_pos h8]
  exfalso
  unfold recognised at hrec
  tauto

theorem critVariant_switch {V : IEValues} (d : F1SetupRequestDecoder V) (a b : WireIE)
    (h : critVariant a b) :
    d.switchIE a.toMsgIe (NewReader a.value) = d.switchIE b.toMsgIe (NewReader b.value) := by
  obtain ⟨hid, hval, hc⟩ := h
  rw [← hval]
  rcases hc with hrec | hcrit
  · exact switchIE_crit d a b _ hid hrec
  · have : a = b := by
      cases a; cases b
      simp only at hid hval hcrit
      simp [hid, hval, hcrit]
    rw [this]

theorem critVariant_notUnderstood (a b : WireIE) (h : critVariant a b) :
    notUnderstood a = notUnderstood b := by
  obtain ⟨hid, _, hc⟩ := h
  rcases hc with hrec | hcrit
  · have hb : recognised b.id := hid ▸ hrec
    simp [notUnderstood, hrec, hb]
  · simp [notUnderstood, hid, hcrit]

theorem dispatch_sim {V : IEValues} (d d' : F1SetupRequestDecoder V) (a b : WireIE)
    (hm : d.msg = d'.msg) (hd : d.diagList = d'.diagList) (hk : keys d = keys d')
    (hv : critVariant a b) :
    (d.dispatch a.toMsgIe a.value).1.msg = (d'.dispatch b.toMsgIe b.value).1.msg ∧
      (d.dispatch a.toMsgIe a.value).1.diagList =
        (d'.dispatch b.toMsgIe b.value).1.diagList ∧
      keys (d.dispatch a.toMsgIe a.value).1 = keys (d'.dispatch b.toMsgIe b.value).1 ∧
      (d.dispatch a.toMsgIe a.value).2 = (d'.dispatch b.toMsgIe b.value).2 := by
  have hid := hv.1
  by_cases hx : a.id ∈ keys d
  · have hx' : b.id ∈ keys d' := by rw [← hid, ← hk]; exact hx
    rw [dispatch_dup d a hx, dispatch_dup d' b hx']
    exact ⟨hm, hd, hk, by rw [hid]⟩
  · have hx' : b.id ∉ keys d' := by rw [← hid, ← hk]; exact hx
    rw [dispatch_fresh d a hx d.msg, dispatch_fresh d' b hx' d.msg, applyIE_eq, applyIE_eq]
    have hs : ∀ m : F1SetupRequest V, setField m a = setField m b := by
      intro m
      unfold setField
      rw [critVariant_switch _ a b hv]
    refine ⟨?_, ?_, ?_, ?_⟩
    · simp only [hs, hm]
    · simp only [critVariant_notUnderstood a b hv, hd]
    · unfold keys at hk ⊢
      simp only [List.map_cons, hk, hid]
    · rw [dispatch_nil, dispatch_nil]
      have := critVariant_switch (⟨d.msg, [], []⟩ : F1SetupRequestDecoder V) a b hv
      rw [switchIE_eq _ a.toMsgIe _ d.msg [], switchIE_eq _ b.toMsgIe _ d.msg []]
      simp only
      rw [this]

theorem decodeIEs_sim {V : IEValues} (l1 l2 : List WireIE)
    (h : List.Forall₂ critVariant l1 l2) :
    ∀ (d d' : F1SetupRequestDecoder V), d.msg = d'.msg → d.diagList = d'.diagList →
      keys d = keys d' →
      (decodeIEs d l1).1.msg = (decodeIEs d' l2).1.msg ∧
        (decodeIEs d l1).1.diagList = (decodeIEs d' l2).1.diagList ∧
        keys (decodeIEs d l1).1 = keys (decodeIEs d' l2).1 ∧
        (decodeIEs d l1).2 = (decodeIEs d' l2).2 := by
  induction h with
  | nil => intro d d' hm hd hk; exact ⟨hm, hd, hk, rfl⟩
  | cons hab _ ih =>
    intro d d' hm hd hk
    have hs := dispatch_sim d d' _ _ hm hd hk hab
    simp only [decodeIEs]
    rcases h3 : d.dispatch (WireIE.toMsgIe _) _ with ⟨d1, e1⟩
    rcases h4 : d'.dispatch (WireIE.toMsgIe _) _ with ⟨d1', e1'⟩
    rw [h3, h4] at hs
    simp only at hs
    obtain ⟨s1, s2, s3, s4⟩ := hs
    subst s4
    cases e1 with
    | some err => exact ⟨s1, s2, s3, rfl⟩
    | none => exact ih d1 d1' s1 s2 s3

theorem finish_sim {V : IEValues} (p q : F1SetupRequestDecoder V × Option Error)
    (hm : p.1.msg = q.1.msg) (hd : p.1.diagList = q.1.diagList) (hk : keys p.1 = keys q.1)
    (he : p.2 = q.2) :
    (finish p).err = (finish q).err ∧ (finish p).msg = (finish q).msg ∧
      (finish p).decoder.diagList = (finish q).decoder.diagList ∧
      (finish p).diagList = (finish q).diagList := by
  obtain ⟨d, e⟩ := p
  obtain ⟨d', e'⟩ := q
  simp only at hm hd hk he
  subst he
  cases e with
  | some err => exact ⟨rfl, hm, hd, rfl⟩
  | none =>
    simp only [finish]
    refine ⟨?_, ?_, ?_, ?_⟩
    · rw [mandatoryCheck_err, mandatoryCheck_err, hk]
    · rw [mandatoryCheck_msg, mandatoryCheck_msg, hm]
    · rw [mandatoryCheck_decoder_diag, mandatoryCheck_decoder_diag, hk, hd]
    · rw [mandatoryCheck_diagList, mandatoryCheck_diagList]

/-- C27. The criticality that the wire declares for a recognised element is ignored: when
two wires carry record sequences that agree record by record on identifier and value
octets, and on the criticality of every record whose identifier is none of the eight
recognised ones, decoding them into the same target gives the same error or success, the
same message, the same diagnostics items in the decoder and the same returned list. -/
theorem C27_recognised_criticality_ignored {V : IEValues} (msg : F1SetupRequest V)
    (wire1 wire2 : List Nat) (ies1 ies2 : List WireIE)
    (h1 : wireIEs wire1 = .ok ies1) (h2 : wireIEs wire2 = .ok ies2)
    (hrel : List.Forall₂ critVariant ies1 ies2) :
    (msg.Decode wire1).err = (msg.Decode wire2).err ∧
      (msg.Decode wire1).msg = (msg.Decode wire2).msg ∧
      (msg.Decode wire1).decoder.diagList = (msg.Decode wire2).decoder.diagList ∧
      (msg.Decode wire1).diagList = (msg.Decode wire2).diagList := by
  have hs := decodeIEs_sim ies1 ies2 hrel (⟨msg, [], []⟩ : F1SetupRequestDecoder V)
    ⟨msg, [], []⟩ rfl rfl rfl
  have hf := finish_sim _ _ hs.1 hs.2.1 hs.2.2.1 hs.2.2.2
  rw [← decodeBody_eq msg wire1 ies1 h1, ← decodeBody_eq msg wire2 ies2 h2] at hf
  refine ⟨?_, ?_, ?_, ?_⟩
  · rw [Decode_err, Decode_err, hf.1]
  · rw [Decode_msg, Decode_msg, hf.2.1]
  · rw [Decode_decoder, Decode_decoder, hf.2.2.1]
  · rw [Decode_diagList, Decode_diagList, hf.2.2.2]

set_option maxRecDepth 100000 in
/-- Witness of C27 on `wireValid` and `wireCritVariant`, which differ in the criticality of
all four recognised records: both decode into the zero message without error and give the
message `demoMsg`. -/
theorem C27_recognised_criticality_ignored_witness :
    wireIEs wireValid =
        .ok [⟨78, 0, [0, 7]⟩, ⟨42, 0, [1, 44]⟩, ⟨44, 0, [0, 0, 9]⟩, ⟨171, 0, [160]⟩] ∧
      wireIEs wireCritVariant =
        .ok [⟨78, 1, [0, 7]⟩, ⟨42, 2, [1, 44]⟩, ⟨44, 1, [0, 0, 9]⟩, ⟨171, 2, [160]⟩] ∧
      (demoZero.Decode wireCritVariant).err = none ∧
      (demoZero.Decode wireCritVariant).msg = demoMsg ∧
      ((demoZero.Decode wireValid).err = (demoZero.Decode wireCritVariant).err ∧
        (demoZero.Decode wireValid).msg = (demoZero.Decode wireCritVariant).msg ∧
        (demoZero.Decode wireValid).decoder.diagList =
          (demoZero.Decode wireCritVariant).decoder.diagList ∧
        (demoZero.Decode wireValid).diagList = (demoZero.Decode wireCritVariant).diagList) :=
  ⟨by rfl, by rfl, by rfl, by rfl,
    C27_recognised_criticality_ignored demoZero wireValid wireCritVariant
      [⟨78, 0, [0, 7]⟩, ⟨42, 0, [1, 44]⟩, ⟨44, 0, [0, 0, 9]⟩, ⟨171, 0, [160]⟩]
      [⟨78, 1, [0, 7]⟩, ⟨42, 2, [1, 44]⟩, ⟨44, 1, [0, 0, 9]⟩, ⟨171, 2, [160]⟩]
      (by rfl) (by rfl)
      (List.Forall₂.cons ⟨rfl, rfl, Or.inl (by decide)⟩
        (List.Forall₂.cons ⟨rfl, rfl, Or.inl (by decide)⟩
          (List.Forall₂.cons ⟨rfl, rfl, Or.inl (by decide)⟩
            (List.Forall₂.cons ⟨rfl, rfl, Or.inl (by decide)⟩ List.Forall₂.nil))))⟩

/-! ## Octets of the envelope; the served-cells list (C25) -/

theorem toIes_length {V : IEValues} (m : F1SetupRequest V) (h : m.GNBDUServedCellsList ≠ []) :
    m.toIes.2 = none ∧ 4 ≤ m.toIes.1.length ∧ m.toIes.1.length ≤ 8 := by
  rw [toIes_eq m h]
  cases m.GNBDUName <;> cases m.TransportLayerAddressInfo <;> cases m.BAPAddress <;>
    cases m.ExtendedGNBCUName <;> simp

theorem bytesToBits_append (a b : List Nat) :
    bytesToBits (a ++ b) = bytesToBits a ++ bytesToBits b := by
  induction a with
  | nil => rfl
  | cons x xs ih => simp [bytesToBits, ih]

theorem encodeBody_lt {V : IEValues} (ies : List (F1apMessageIE V)) (body : List Nat)
    (hb : encodeBody ies = .ok body) : ∀ b ∈ body, b < 256 := by
  unfold encodeBody at hb
  simp only at hb
  split at hb
  · exact absurd hb (by simp)
  · rename_i cW2 _
    have : cW2.Close = body := by simpa using hb
    rw [← this]
    exact Close_lt cW2

theorem Encode_of_toIes {V : IEValues} (msg : F1SetupRequest V) (h : msg.toIes.2 = none) :
    msg.Encode = encodeMessage F1apPduInitiatingMessage ProcedureCode_F1Setup
      Criticality_PresentReject msg.toIes.1 := by
  unfold F1SetupRequest.Encode
  cases hti : msg.toIes with
  | mk ies e =>
    rw [hti] at h
    simp only at h
    subst h
    rfl

theorem encodeMessage_nonempty {V : IEValues} (ies : List (F1apMessageIE V))
    (hne : ies.length ≠ 0) :
    encodeMessage F1apPduInitiatingMessage ProcedureCode_F1Setup Criticality_PresentReject ies =
      match encodeBody ies with
      | .error err => (some err, [0, 1])
      | .ok buf =>
        match (⟨natToBits 8 0 ++ (natToBits 8 1 ++ natToBits 2 0)⟩ :
            AperWriter).WriteOpenType buf with
        | .error err => (some err, [0, 1])
        | .ok aw5 => (none, aw5.Close) := by
  unfold encodeMessage
  have e1 : (NewWriter.WriteBool false) = .ok ⟨[false]⟩ := rfl
  have e2 : (⟨[false]⟩ : AperWriter).WriteChoice F1apPduInitiatingMessage 2 true =
      .ok ⟨[false, false, false]⟩ := rfl
  have e3 : (ProcedureCode.mk ProcedureCode_F1Setup).Encode ⟨[false, false, false]⟩ =
      .ok ⟨natToBits 8 0 ++ natToBits 8 1⟩ := rfl
  have e4 : (Criticality.mk Criticality_PresentReject).Encode ⟨natToBits 8 0 ++ natToBits 8 1⟩ =
      .ok ⟨natToBits 8 0 ++ (natToBits 8 1 ++ natToBits 2 0)⟩ := rfl
  have e5 : (⟨natToBits 8 0 ++ (natToBits 8 1 ++ natToBits 2 0)⟩ : AperWriter).flushed =
      [0, 1] := by rfl
  simp only [e1, e2, e3, e4, e5, if_neg hne]

theorem dispatch_new {V : IEValues} (d : F1SetupRequestDecoder V) (x : WireIE)
    (hnew : x.id ∉ keys d) :
    d.dispatch x.toMsgIe x.value =
      F1SetupRequestDecoder.switchIE { d with list := (x.id, x.toMsgIe) :: d.list }
        x.toMsgIe (NewReader x.value) := by
  have h1 : (d.list.lookup x.id).isSome = false := by
    have := (lookup_isNone_iff d.list x.id).2 hnew
    cases hh : d.list.lookup x.id <;> simp_all
  simp [F1SetupRequestDecoder.dispatch, WireIE.toMsgIe, h1]

theorem servedCellsOf_toIes {V : IEValues} (m : F1SetupRequest V)
    (h : m.GNBDUServedCellsList ≠ []) :
    servedCellsOf m.toIes.1 = some m.GNBDUServedCellsList := by
  rw [toIes_eq m h]
  unfold servedCellsOf
  cases m.GNBDUName <;>
    simp [List.find?, ProtocolIEID_TransactionID, ProtocolIEID_gNBDUID,
      ProtocolIEID_gNBDUName, ProtocolIEID_gNBDUServedCellsList]

/-- C25. The served-cells list is carried faithfully. For a message with a non-empty list,
the sequence value that `toIes` builds for identifier 44 has the length of the list and
its k-th item is the k-th item of the list: the loop of `toIes` appends the address of the
loop variable, which is a fresh variable in every iteration (the loop semantics of Go 1.22
and later, which the embedding follows). On decode, a record with identifier 44 that is
read by `decodeIE`, is new to the map and whose value decodes to `items` is stored without
error as exactly `items`, in their order, and no other field changes. -/
theorem C25_served_cells_faithful {V : IEValues} (msg : F1SetupRequest V)
    (h : msg.GNBDUServedCellsList ≠ [])
    (d : F1SetupRequestDecoder V) (r r' : AperReader) (x : WireIE)
    (items : List V.GNBDUServedCellItem)
    (hr : readIE r = .ok (x, r')) (hid : x.id = ProtocolIEID_gNBDUServedCellsList)
    (hnew : x.id ∉ keys d)
    (hdec : V.decSequence ⟨1, V.maxCellingNBDU⟩ false (NewReader x.value) = .ok items) :
    (rangeAppend msg.GNBDUServedCellsList = msg.GNBDUServedCellsList ∧
      servedCellsOf msg.toIes.1 = some (rangeAppend msg.GNBDUServedCellsList) ∧
      (rangeAppend msg.GNBDUServedCellsList).length = msg.GNBDUServedCellsList.length ∧
      ∀ k : Nat, (rangeAppend msg.GNBDUServedCellsList)[k]? = msg.GNBDUServedCellsList[k]?) ∧
    ((d.decodeIE r).2.2 = none ∧
      (d.decodeIE r).1.msg = { d.msg with GNBDUServedCellsList := items } ∧
      (d.decodeIE r).1.msg.GNBDUServedCellsList = items ∧
      ∀ k : Nat, (d.decodeIE r).1.msg.GNBDUServedCellsList[k]? = items[k]?) := by
  have hra : rangeAppend msg.GNBDUServedCellsList = msg.GNBDUServedCellsList :=
    foldl_append_singletons _
  have hdisp : d.dispatch x.toMsgIe x.value =
      ({ d with list := (x.id, x.toMsgIe) :: d.list,
                msg := { d.msg with GNBDUServedCellsList := items } }, none) := by
    rw [dispatch_new d x hnew, switchIE_ok_gNBDUServedCellsList _ x items hid hdec, foldl_append_singletons]
  refine ⟨⟨hra, ?_, by rw [hra], fun k => by rw [hra]⟩, ?_⟩
  · rw [hra]; exact servedCellsOf_toIes msg h
  · rw [decodeIE_ok d r r' x hr, hdisp]
    exact ⟨rfl, rfl, rfl, fun _ => rfl⟩

set_option maxRecDepth 100000 in
/-- Witness of C25 on `demoFull`, whose two cells 9 and 10 differ, and on the record that
carries them: identifier 44, value octets 0, 1, 9, 10. -/
theorem C25_served_cells_faithful_witness :
    servedCellsOf demoFull.toIes.1 = some [(9 : Nat), (10 : Nat)] ∧
      readIE (NewReader [0, 44, 0, 4, 0, 1, 9, 10]) = .ok (⟨44, 0, [0, 1, 9, 10]⟩, ⟨[], 64⟩) ∧
      ((rangeAppend demoFull.GNBDUServedCellsList = demoFull.GNBDUServedCellsList ∧
        servedCellsOf demoFull.toIes.1 = some (rangeAppend demoFull.GNBDUServedCellsList) ∧
        (rangeAppend demoFull.GNBDUServedCellsList).length =
          demoFull.GNBDUServedCellsList.length ∧
        ∀ k : Nat, (rangeAppend demoFull.GNBDUServedCellsList)[k]? =
          demoFull.GNBDUServedCellsList[k]?) ∧
      (((⟨demoZero, [], []⟩ : F1SetupRequestDecoder demoValues).decodeIE
          (NewReader [0, 44, 0, 4, 0, 1, 9, 10])).2.2 = none ∧
        ((⟨demoZero, [], []⟩ : F1SetupRequestDecoder demoValues).decodeIE
          (NewReader [0, 44, 0, 4, 0, 1, 9, 10])).1.msg =
            { demoZero with GNBDUServedCellsList := [(9 : Nat), (10 : Nat)] } ∧
        ((⟨demoZero, [], []⟩ : F1SetupRequestDecoder demoValues).decodeIE
          (NewReader [0, 44, 0, 4, 0, 1, 9, 10])).1.msg.GNBDUServedCellsList =
            [(9 : Nat), (10 : Nat)] ∧
        ∀ k : Nat, ((⟨demoZero, [], []⟩ : F1SetupRequestDecoder demoValues).decodeIE
          (NewReader [0, 44, 0, 4, 0, 1, 9, 10])).1.msg.GNBDUServedCellsList[k]? =
            [(9 : Nat), (10 : Nat)][k]?)) :=
  ⟨by rfl, by rfl,
    C25_served_cells_faithful demoFull (List.cons_ne_nil _ _)
      (⟨demoZero, [], []⟩ : F1SetupRequestDecoder demoValues)
      (NewReader [0, 44, 0, 4, 0, 1, 9, 10]) ⟨[], 64⟩ ⟨44, 0, [0, 1, 9, 10]⟩
      [(9 : Nat), (10 : Nat)] (by rfl) (by rfl) (by simp [keys]) (by rfl)⟩

/-! ## The constructed list for every message: the empty served-cells list
(C7, C10, C11, C13, C24, C28) -/

theorem toIes_err {V : IEValues} (m : F1SetupRequest V) : m.toIes.2 = none := by
  unfold F1SetupRequest.toIes
  by_cases hl : m.GNBDUServedCellsList.length > 0
  · simp only [hl, ↓reduceIte]
  · simp only [hl, ↓reduceIte, WrapError]

theorem toIes_empty {V : IEValues} (m : F1SetupRequest V) (h : m.GNBDUServedCellsList = []) :
    m.toIes =
      ([⟨⟨ProtocolIEID_TransactionID⟩, ⟨Criticality_PresentReject⟩,
          some (.transactionID m.TransactionID)⟩] ++
        ([⟨⟨ProtocolIEID_gNBDUID⟩, ⟨Criticality_PresentReject⟩, some (.gNBDUID m.GNBDUID)⟩] ++
        (m.GNBDUName.map (fun bs => (⟨⟨ProtocolIEID_gNBDUName⟩, ⟨Criticality_PresentIgnore⟩,
          some (.octetString ⟨1, 150⟩ true (some bs))⟩ : F1apMessageIE V))).toList), none) := by
  have hl : ¬ m.GNBDUServedCellsList.length > 0 := by rw [h]; simp
  unfold F1SetupRequest.toIes
  simp only [hl, ↓reduceIte, appendIf, WrapError]
  cases m.GNBDUName <;> rfl

theorem toIes_ids_all {V : IEValues} (m : F1SetupRequest V) :
    m.toIes.1.map (fun ie => ie.Id.Value) =
      if m.GNBDUServedCellsList.length > 0 then
        (F1SetupRequestFields.map FieldTag.id).filter (fieldPresent m)
      else [78, 42] ++ (if m.GNBDUName.isSome then [45] else []) := by
  by_cases hl : m.GNBDUServedCellsList = []
  · have hpos : ¬ m.GNBDUServedCellsList.length > 0 := by rw [hl]; simp
    rw [toIes_empty m hl, if_neg hpos]
    cases m.GNBDUName <;>
      simp [ProtocolIEID_TransactionID, ProtocolIEID_gNBDUID, ProtocolIEID_gNBDUName]
  · have hpos : m.GNBDUServedCellsList.length > 0 := List.length_pos.2 hl
    rw [toIes_eq m hl, if_pos hpos]
    cases h3 : m.GNBDUName <;> cases h6 : m.TransportLayerAddressInfo <;>
      cases h7 : m.BAPAddress <;> cases h8 : m.ExtendedGNBCUName <;>
      simp [F1SetupRequestFields, fieldPresent, List.filter, h3, h6, h7, h8, hpos,
        ProtocolIEID_TransactionID, ProtocolIEID_gNBDUID,
        ProtocolIEID_gNBDUName, ProtocolIEID_gNBDUServedCellsList, ProtocolIEID_GNBDURRCVersion,
        ProtocolIEID_TransportLayerAddressInfo, ProtocolIEID_BAPAddress,
        ProtocolIEID_ExtendedGNBCUName]

theorem toIes_length_all {V : IEValues} (m : F1SetupRequest V) :
    (if m.GNBDUServedCellsList.length > 0 then 4 ≤ m.toIes.1.length ∧ m.toIes.1.length ≤ 8
      else 2 ≤ m.toIes.1.length ∧ m.toIes.1.length ≤ 3) := by
  by_cases hl : m.GNBDUServedCellsList = []
  · have hpos : ¬ m.GNBDUServedCellsList.length > 0 := by rw [hl]; simp
    rw [if_neg hpos, toIes_empty m hl]
    cases m.GNBDUName <;> simp
  · have hpos : m.GNBDUServedCellsList.length > 0 := List.length_pos.2 hl
    rw [if_pos hpos]
    exact (toIes_length m hl).2

theorem toIes_length_pos {V : IEValues} (m : F1SetupRequest V) :
    2 ≤ m.toIes.1.length ∧ m.toIes.1.length ≤ 8 := by
  have h := toIes_length_all m
  by_cases hpos : m.GNBDUServedCellsList.length > 0
  · rw [if_pos hpos] at h; omega
  · rw [if_neg hpos] at h; omega

theorem Encode_eq {V : IEValues} (msg : F1SetupRequest V) :
    msg.Encode = encodeMessage F1apPduInitiatingMessage ProcedureCode_F1Setup
      Criticality_PresentReject msg.toIes.1 :=
  Encode_of_toIes msg (toIes_err msg)

theorem Encode_match {V : IEValues} (msg : F1SetupRequest V) :
    msg.Encode =
      (match encodeBody msg.toIes.1 with
      | .error err => (some err, [0, 1])
      | .ok buf =>
        match (⟨natToBits 8 0 ++ (natToBits 8 1 ++ natToBits 2 0)⟩ :
            AperWriter).WriteOpenType buf with
        | .error err => (some err, [0, 1])
        | .ok aw5 => (none, aw5.Close)) := by
  have h := (toIes_length_pos msg).1
  rw [Encode_eq msg, encodeMessage_nonempty _ (by omega)]

set_option maxRecDepth 100000 in
/-- C7, evaluation at the failing input. The served-cells list of the zero message is
empty, yet `toIes` returns no error: `utils.WrapError` is called with a nil cause and
returns nil, so the branch that is meant to reject the message returns the two elements
built so far (78 and 42) without an error. `Encode` then calls `encodeMessage` and writes a
complete PDU of 19 octets. For every message `toIes` returns no error, so `Encode` is
`encodeMessage` on the list of `toIes` for every message. -/
theorem C7_empty_list_not_rejected :
    demoZero.GNBDUServedCellsList.length = 0 ∧
      demoZero.toIes.2 = none ∧
      demoZero.toIes.1.map (fun ie => ie.Id.Value) = [78, 42] ∧
      demoZero.Encode = (none, demoZeroPdu) ∧ demoZeroPdu.length = 19 ∧
      (∀ (V : IEValues) (msg : F1SetupRequest V), msg.toIes.2 = none ∧
        msg.Encode = encodeMessage F1apPduInitiatingMessage ProcedureCode_F1Setup
          Criticality_PresentReject msg.toIes.1) := by
  refine ⟨by rfl, by rfl, by rfl, by rfl, by rfl, ?_⟩
  intro V msg
  exact ⟨toIes_err msg, Encode_eq msg⟩

/-- C10. Constructed-list uniqueness: for every message `toIes` returns no error, and the
identifiers of the list it returns are pairwise distinct, whether the served-cells list is
empty (identifiers 78, 42 and possibly 45) or not. -/
theorem C10_toIes_ids_distinct {V : IEValues} (msg : F1SetupRequest V) :
    msg.toIes.2 = none ∧ (msg.toIes.1.map (fun ie => ie.Id.Value)).Nodup := by
  refine ⟨toIes_err msg, ?_⟩
  rw [toIes_ids_all msg]
  by_cases hpos : msg.GNBDUServedCellsList.length > 0
  · rw [if_pos hpos]
    exact List.Nodup.filter _ (by decide)
  · rw [if_neg hpos]
    cases msg.GNBDUName <;> simp

set_option maxRecDepth 100000 in
/-- C11, evaluation at the failing input. For `demoNoCells`, whose served-cells list is
empty, `toIes` returns no error and a list with the identifiers 78 and 42 only, while the
fields present in the struct are 78, 42, 171 (the mandatory `GNBDURRCVersion`) and 254: the
list is cut off at the served-cells list. For every message the identifiers are the present
fields in descriptor order when the served-cells list is not empty, and 78, 42 and
possibly 45 when it is empty. -/
theorem C11_empty_list_cuts_off :
    demoNoCells.GNBDUServedCellsList = [] ∧ demoNoCells.toIes.2 = none ∧
      demoNoCells.toIes.1.map (fun ie => ie.Id.Value) = [78, 42] ∧
      (F1SetupRequestFields.map FieldTag.id).filter (fieldPresent demoNoCells) =
        [78, 42, 171, 254] ∧
      demoNoCells.toIes.1.map (fun ie => ie.Id.Value) ≠
        (F1SetupRequestFields.map FieldTag.id).filter (fieldPresent demoNoCells) ∧
      (∀ (V : IEValues) (msg : F1SetupRequest V),
        msg.toIes.1.map (fun ie => ie.Id.Value) =
          if msg.GNBDUServedCellsList.length > 0 then
            (F1SetupRequestFields.map FieldTag.id).filter (fieldPresent msg)
          else [78, 42] ++ (if msg.GNBDUName.isSome then [45] else [])) := by
  refine ⟨by rfl, by rfl, by rfl, by rfl, by decide, ?_⟩
  intro V msg
  exact toIes_ids_all msg

set_option maxRecDepth 100000 in
/-- C13, evaluation at the failing input. In `demoNoCells` the optional field
`TransportLayerAddressInfo` is set, yet `toIes` returns no error and a list without an
element of identifier 254: with an empty served-cells list the function returns before the
three later optional fields are looked at. In `demoEmptyName` the byte string `GNBDUName`
is empty but not nil, and `toIes` emits an element of identifier 45 for it. For every
message the list holds one element 45 exactly when `GNBDUName` is not nil, and one element
254, 281 or 427 exactly when the field is not nil and the served-cells list is not
empty. -/
theorem C13_optional_field_dropped :
    (demoNoCells.TransportLayerAddressInfo = some (1 : Nat) ∧ demoNoCells.toIes.2 = none ∧
      (demoNoCells.toIes.1.map (fun ie => ie.Id.Value)).count
        ProtocolIEID_TransportLayerAddressInfo = 0) ∧
    (demoEmptyName.GNBDUName = some [] ∧ demoEmptyName.toIes.2 = none ∧
      (demoEmptyName.toIes.1.map (fun ie => ie.Id.Value)).count ProtocolIEID_gNBDUName = 1) ∧
    (∀ (V : IEValues) (msg : F1SetupRequest V),
      (msg.toIes.1.map (fun ie => ie.Id.Value)).count ProtocolIEID_gNBDUName =
        (if msg.GNBDUName.isSome then 1 else 0) ∧
      (msg.toIes.1.map (fun ie => ie.Id.Value)).count ProtocolIEID_TransportLayerAddressInfo =
        (if msg.GNBDUServedCellsList.length > 0 ∧ msg.TransportLayerAddressInfo.isSome
          then 1 else 0) ∧
      (msg.toIes.1.map (fun ie => ie.Id.Value)).count ProtocolIEID_BAPAddress =
        (if msg.GNBDUServedCellsList.length > 0 ∧ msg.BAPAddress.isSome then 1 else 0) ∧
      (msg.toIes.1.map (fun ie => ie.Id.Value)).count ProtocolIEID_ExtendedGNBCUName =
        (if msg.GNBDUServedCellsList.length > 0 ∧ msg.ExtendedGNBCUName.isSome
          then 1 else 0)) := by
  refine ⟨⟨by rfl, by rfl, by rfl⟩, ⟨by rfl, by rfl, by rfl⟩, ?_⟩
  intro V msg
  by_cases hl : msg.GNBDUServedCellsList = []
  · have hpos : ¬ msg.GNBDUServedCellsList.length > 0 := by rw [hl]; simp
    rw [toIes_empty msg hl]
    cases msg.GNBDUName <;>
      simp [hpos, List.count_cons, ProtocolIEID_TransactionID, ProtocolIEID_gNBDUID,
        ProtocolIEID_gNBDUName, ProtocolIEID_TransportLayerAddressInfo,
        ProtocolIEID_BAPAddress, ProtocolIEID_ExtendedGNBCUName]
  · have hpos : msg.GNBDUServedCellsList.length > 0 := List.length_pos.2 hl
    rw [toIes_eq msg hl]
    cases msg.GNBDUName <;> cases msg.TransportLayerAddressInfo <;>
      cases msg.BAPAddress <;> cases msg.ExtendedGNBCUName <;>
      simp [hpos, List.count_cons, ProtocolIEID_TransactionID, ProtocolIEID_gNBDUID,
        ProtocolIEID_gNBDUName, ProtocolIEID_gNBDUServedCellsList,
        ProtocolIEID_GNBDURRCVersion, ProtocolIEID_TransportLayerAddressInfo,
        ProtocolIEID_BAPAddress, ProtocolIEID_ExtendedGNBCUName]

set_option maxRecDepth 100000 in
/-- C24, evaluation at the failing input. `Decode` accepts the body `wireMandatoryOnly`
(records 78, 42 and 171 only) into the zero message, and the decoded struct has an empty
served-cells list. `toIes` does not reject that struct: it returns no error and the two
elements 78 and 42, and `Encode` writes a complete PDU of 19 octets that lacks the
mandatory elements 44 and 171. -/
theorem C24_decoded_struct_encodes :
    wireIEs wireMandatoryOnly = .ok [⟨78, 0, [0, 7]⟩, ⟨42, 0, [1, 44]⟩, ⟨171, 0, [160]⟩] ∧
      (demoZero.Decode wireMandatoryOnly).err = none ∧
      (demoZero.Decode wireMandatoryOnly).msg.GNBDUServedCellsList = [] ∧
      (demoZero.Decode wireMandatoryOnly).msg.toIes.2 = none ∧
      (demoZero.Decode wireMandatoryOnly).msg.toIes.1.map (fun ie => ie.Id.Value) = [78, 42] ∧
      (demoZero.Decode wireMandatoryOnly).msg.Encode = (none, demoPartialPdu) ∧
      demoPartialPdu.length = 19 := by
  refine ⟨by rfl, by rfl, by rfl, by rfl, by rfl, by rfl, by rfl⟩

set_option maxRecDepth 100000 in
/-- C28. Size of the constructed list, for every message: `toIes` returns no error; the list
has between 4 and 8 elements when the served-cells list is not empty and 2 or 3 elements
when it is empty. `Encode` calls `encodeMessage` on that list in every case, so the test
`len(ies) == 0` is false whenever it is reached, and the element count lies within the
bounds 0..65535 of the sequence-of and is written as it is: the outcome of `Encode` is
decided by the element encoders and the open type alone. The bounds 8, 4 and 2 are
attained by `demoFull`, `demoMsg` and `demoZero`. -/
theorem C28_ie_list_size :
    (∀ (V : IEValues) (msg : F1SetupRequest V),
      msg.toIes.2 = none ∧
      (if msg.GNBDUServedCellsList.length > 0 then
          4 ≤ msg.toIes.1.length ∧ msg.toIes.1.length ≤ 8
        else 2 ≤ msg.toIes.1.length ∧ msg.toIes.1.length ≤ 3) ∧
      msg.toIes.1.length ≠ 0 ∧ msg.toIes.1.length ≤ POW_16 - 1 ∧
      (∀ w : AperWriter, w.WriteInteger msg.toIes.1.length ⟨0, POW_16 - 1⟩ false =
        .ok ⟨w.bits ++ (List.replicate (padLen w.bits.length) false ++
          natToBits 16 msg.toIes.1.length)⟩) ∧
      msg.Encode = encodeMessage F1apPduInitiatingMessage ProcedureCode_F1Setup
        Criticality_PresentReject msg.toIes.1 ∧
      msg.Encode =
        (match encodeBody msg.toIes.1 with
        | .error err => (some err, [0, 1])
        | .ok buf =>
          match (⟨natToBits 8 0 ++ (natToBits 8 1 ++ natToBits 2 0)⟩ :
              AperWriter).WriteOpenType buf with
          | .error err => (some err, [0, 1])
          | .ok aw5 => (none, aw5.Close))) ∧
    demoFull.toIes.1.length = 8 ∧ demoMsg.toIes.1.length = 4 ∧
      demoZero.toIes.1.length = 2 := by
  refine ⟨?_, by rfl, by rfl, by rfl⟩
  intro V msg
  have h := toIes_length_pos msg
  have h5 : msg.toIes.1.length ≤ 65535 := by omega
  refine ⟨toIes_err msg, toIes_length_all msg, by omega, h5, ?_, Encode_eq msg,
    Encode_match msg⟩
  intro w
  exact writeInteger16 w _ h5

/-! ## Framing of records and body by `decodeIE`, `Decode`, `encodeBody` and
`encodeMessage`; errors of `Encode` and `Decode`; the envelope (C15, C17, C18, C29) -/

theorem bodyReader_bodyBits (xs : List WireIE) :
    bodyReader (bitsToBytes (bodyBits xs ++
        List.replicate (padLen (bodyBits xs).length) false)) =
      ⟨List.replicate (padLen 1) false ++ (natToBits 16 xs.length ++ (iesBits 24 xs ++
        List.replicate (padLen (bodyBits xs).length) false)), 1⟩ := by
  have hdiv : ∃ n, (bodyBits xs ++ List.replicate (padLen (bodyBits xs).length) false).length =
      8 * n := by
    have := padLen_spec (bodyBits xs).length
    refine ⟨((bodyBits xs).length + padLen (bodyBits xs).length) / 8, ?_⟩
    simp only [List.length_append, List.length_replicate]
    omega
  obtain ⟨n, hn8⟩ := hdiv
  unfold bodyReader NewReader
  rw [bytesToBits_bitsToBytes n _ hn8]
  unfold AperReader.ReadBool
  have e : bodyBits xs ++ List.replicate (padLen (bodyBits xs).length) false =
      natToBits 1 0 ++ (List.replicate (padLen 1) false ++ (natToBits 16 xs.length ++
        (iesBits 24 xs ++ List.replicate (padLen (bodyBits xs).length) false))) := by
    simp only [bodyBits, List.append_assoc]
  rw [e, readBits_append]

theorem readSequenceOf_decodeIE {V : IEValues} (d : F1SetupRequestDecoder V) (r r1 r2 : AperReader)
    (xs : List WireIE) (n : Nat)
    (h1 : r.ReadInteger ⟨0, POW_16 - 1⟩ false = .ok (n, r1))
    (h2 : readIEs n r1 = .ok (xs, r2)) :
    (ReadSequenceOf F1SetupRequestDecoder.decodeIE d r ⟨0, POW_16 - 1⟩ false).1 =
        (decodeIEs d xs).1 ∧
      (ReadSequenceOf F1SetupRequestDecoder.decodeIE d r ⟨0, POW_16 - 1⟩ false).2.2 =
        (decodeIEs d xs).2 := by
  unfold ReadSequenceOf
  simp only [h1]
  exact readItems_decodeIE n d r1 r2 xs h2

/-- C15. Framing symmetry between the writers and the readers of the code. Record level:
for every element that is written as a record `x`, `decodeIE`, started where the writer of
`F1apMessageIE.Encode` stood, consumes exactly the bits that were written (identifier over
0..65535, criticality over 0..2, open type) and dispatches the identifier, criticality and
value octets of `x`. Body level: `encodeBody` (the container part of `encodeMessage`)
produces octets on which the reader of `Decode` stands at bit 1 after the extension bit,
reads the element count over 0..65535 up to bit 24, and on which `ReadSequenceOf` with
`decodeIE`, hence `Decode`, dispatches exactly the records written, in order;
`encodeMessage` wraps those octets in the envelope. -/
theorem C15_framing_symmetry {V : IEValues} (ies : List (F1apMessageIE V)) (xs : List WireIE)
    (h : List.Forall₂ Encodes ies xs) (hn : ies.length ≤ 65535) (hne : ies.length ≠ 0)
    (d : F1SetupRequestDecoder V) (msg : F1SetupRequest V) :
    (∀ ie x, (ie, x) ∈ ies.zip xs → ∀ (w : AperWriter) (tail : List Bool),
      ∃ written, ie.Encode w = .ok ⟨w.bits ++ written⟩ ∧
        d.decodeIE ⟨written ++ tail, w.bits.length⟩ =
          ((d.dispatch x.toMsgIe x.value).1, ⟨tail, w.bits.length + written.length⟩,
            (d.dispatch x.toMsgIe x.value).2)) ∧
    ∃ body r2, encodeBody ies = .ok body ∧
      (bodyReader body).pos = 1 ∧
      (bodyReader body).ReadInteger ⟨0, POW_16 - 1⟩ false = .ok (ies.length, r2) ∧
      r2.pos = 24 ∧
      (ReadSequenceOf F1SetupRequestDecoder.decodeIE d (bodyReader body)
          ⟨0, POW_16 - 1⟩ false).1 = (decodeIEs d xs).1 ∧
      (ReadSequenceOf F1SetupRequestDecoder.decodeIE d (bodyReader body)
          ⟨0, POW_16 - 1⟩ false).2.2 = (decodeIEs d xs).2 ∧
      msg.decodeBody body = finish (decodeIEs ⟨msg, [], []⟩ xs) ∧
      (msg.Decode body).decoder = (finish (decodeIEs ⟨msg, [], []⟩ xs)).decoder ∧
      (body.length < 16384 →
        encodeMessage F1apPduInitiatingMessage ProcedureCode_F1Setup
            Criticality_PresentReject ies =
          (none, [0, 1, 0] ++ (bitsToBytes (lengthBits body.length) ++ body))) := by
  have hlen : ies.length = xs.length := h.length_eq
  have hwf : ∀ x ∈ xs, x.id ≤ 65535 ∧ x.crit ≤ 2 ∧ (∀ b ∈ x.value, b < 256) ∧
      x.value.length < 16384 := by
    intro x hx
    obtain ⟨i, hi⟩ := List.mem_iff_get.1 hx
    have h2 := (List.forall₂_iff_get.1 h).2 i.1 (by rw [hlen]; exact i.2) i.2
    simp only [List.get_eq_getElem] at h2 hi
    rw [hi] at h2
    exact Encodes_wf _ _ h2
  constructor
  · intro ie x hmem w tail
    have he : Encodes ie x := List.forall₂_zip h hmem
    obtain ⟨h1, h2, h3, h4⟩ := Encodes_wf ie x he
    refine ⟨ieBits w.bits.length x, encode_ieBits ie x he w, ?_⟩
    exact decodeIE_ok d _ _ x (readIE_append x h1 h2 h3 h4 _ _)
  · have hbody := encodeBody_eq ies xs h hn
    have hw := wireIEs_bodyBits xs hwf (by rw [← hlen]; exact hn)
    have hbr := bodyReader_bodyBits xs
    have hri : (bodyReader (bitsToBytes (bodyBits xs ++
        List.replicate (padLen (bodyBits xs).length) false))).ReadInteger
          ⟨0, POW_16 - 1⟩ false =
        .ok (ies.length, ⟨iesBits 24 xs ++
          List.replicate (padLen (bodyBits xs).length) false, 24⟩) := by
      rw [hbr, readInteger16_append _ (by rw [← hlen]; exact hn), hlen]
      rfl
    have hrs := readSequenceOf_decodeIE d _ _ _ xs ies.length hri
      (by rw [hlen]; exact readIEs_append xs hwf 24 _)
    refine ⟨_, _, hbody, ?_, hri, rfl, hrs.1, hrs.2, decodeBody_eq msg _ xs hw, ?_, ?_⟩
    · rw [hbr]
    · rw [Decode_decoder, decodeBody_eq msg _ xs hw]
    · intro hl
      exact encodeMessage_ok ies _ hne hbody (bitsToBytes_lt _ _ (le_refl _)) hl

set_option maxRecDepth 100000 in
/-- Witness of C15 on the elements of `demoMsg`, with a decoder and a target over the zero
message. -/
theorem C15_framing_symmetry_witness :
    List.Forall₂ Encodes demoMsg.toIes.1 (demoMsg.toIes.1.map wireOf) ∧
    encodeBody demoMsg.toIes.1 = .ok wireValid ∧
    (demoZero.Decode wireValid).msg = demoMsg ∧
    ((∀ ie x, (ie, x) ∈ demoMsg.toIes.1.zip (demoMsg.toIes.1.map wireOf) →
      ∀ (w : AperWriter) (tail : List Bool),
      ∃ written, ie.Encode w = .ok ⟨w.bits ++ written⟩ ∧
        (⟨demoZero, [], []⟩ : F1SetupRequestDecoder demoValues).decodeIE
            ⟨written ++ tail, w.bits.length⟩ =
          (((⟨demoZero, [], []⟩ : F1SetupRequestDecoder demoValues).dispatch
              x.toMsgIe x.value).1, ⟨tail, w.bits.length + written.length⟩,
            ((⟨demoZero, [], []⟩ : F1SetupRequestDecoder demoValues).dispatch
              x.toMsgIe x.value).2)) ∧
    ∃ body r2, encodeBody demoMsg.toIes.1 = .ok body ∧
      (bodyReader body).pos = 1 ∧
      (bodyReader body).ReadInteger ⟨0, POW_16 - 1⟩ false = .ok (demoMsg.toIes.1.length, r2) ∧
      r2.pos = 24 ∧
      (ReadSequenceOf F1SetupRequestDecoder.decodeIE
          (⟨demoZero, [], []⟩ : F1SetupRequestDecoder demoValues) (bodyReader body)
          ⟨0, POW_16 - 1⟩ false).1 =
        (decodeIEs ⟨demoZero, [], []⟩ (demoMsg.toIes.1.map wireOf)).1 ∧
      (ReadSequenceOf F1SetupRequestDecoder.decodeIE
          (⟨demoZero, [], []⟩ : F1SetupRequestDecoder demoValues) (bodyReader body)
          ⟨0, POW_16 - 1⟩ false).2.2 =
        (decodeIEs ⟨demoZero, [], []⟩ (demoMsg.toIes.1.map wireOf)).2 ∧
      demoZero.decodeBody body =
        finish (decodeIEs ⟨demoZero, [], []⟩ (demoMsg.toIes.1.map wireOf)) ∧
      (demoZero.Decode body).decoder =
        (finish (decodeIEs ⟨demoZero, [], []⟩ (demoMsg.toIes.1.map wireOf))).decoder ∧
      (body.length < 16384 →
        encodeMessage F1apPduInitiatingMessage ProcedureCode_F1Setup
            Criticality_PresentReject demoMsg.toIes.1 =
          (none, [0, 1, 0] ++ (bitsToBytes (lengthBits body.length) ++ body)))) :=
  ⟨demoMsg_encodes, by rfl, by rfl,
    C15_framing_symmetry demoMsg.toIes.1 (demoMsg.toIes.1.map wireOf) demoMsg_encodes
      (by decide) (by decide) ⟨demoZero, [], []⟩ demoZero⟩

set_option maxRecDepth 100000 in
/-- C17, evaluation at the failing input. For every message `Encode` returns the result of
`encodeMessage` as it is: its error is the error of `encodeBody` (an element encoder) or of
the open type, with nothing put in front, and the branch that wraps an error with the
message name is never taken because `toIes` returns no error. For `demoEmptyName` the value
encoder of `GNBDUName` refuses the empty byte string, and `Encode` returns exactly that
error, not the error wrapped with `F1SetupRequest` by `msgErrors`; `Decode` on the other
hand puts the message name in front of its errors. -/
theorem C17_encode_error_not_wrapped :
    (∀ (V : IEValues) (msg : F1SetupRequest V),
      msg.toIes.2 = none ∧
      msg.Encode = encodeMessage F1apPduInitiatingMessage ProcedureCode_F1Setup
        Criticality_PresentReject msg.toIes.1 ∧
      msg.Encode.1 =
        (match encodeBody msg.toIes.1 with
        | .error err => some err
        | .ok buf =>
          match (⟨natToBits 8 0 ++ (natToBits 8 1 ++ natToBits 2 0)⟩ :
              AperWriter).WriteOpenType buf with
          | .error err => some err
          | .ok _ => none)) ∧
    (∃ e, demoValues.encOCTETSTRING ⟨1, 150⟩ true demoEmptyName.GNBDUName NewWriter =
        .error e ∧
      encodeBody demoEmptyName.toIes.1 = .error e ∧
      demoEmptyName.Encode.1 = some e ∧
      demoEmptyName.Encode.1 ≠ msgErrors (some "F1SetupRequest") (some e)) ∧
    (demoZero.Decode wireEmpty).err =
      msgErrors (some "F1SetupRequest") (demoZero.decodeBody wireEmpty).err := by
  refine ⟨?_, ⟨"octet string shorter than its lower bound", by rfl, by rfl, by rfl,
    by decide⟩, by rfl⟩
  intro V msg
  refine ⟨toIes_err msg, Encode_eq msg, ?_⟩
  rw [Encode_match msg]
  cases encodeBody msg.toIes.1 with
  | error err => rfl
  | ok buf =>
    cases h2 : (⟨natToBits 8 0 ++ (natToBits 8 1 ++ natToBits 2 0)⟩ :
        AperWriter).WriteOpenType buf with
    | error err => simp only [h2]
    | ok aw5 => simp only [h2]

/-- C18. Decode error context: every error that `Decode` returns is the message name
`F1SetupRequest`, a colon and a cause. When the records before `y` are dispatched without
error, the identifier of `y` is new, and the value decoder selected for `y` fails with the
text `c` for the field `name`, the cause is `Read name` wrapped around `c` by
`utils.WrapError`, that is `Read name <<= c`, and the scan stops there: the
message and the recorded diagnostics are those the earlier records left, and the map of
seen identifiers holds `y` and the earlier identifiers only. -/
theorem C18_decode_error_context {V : IEValues} (msg : F1SetupRequest V) (wire : List Nat)
    (e : Error) (h : (msg.Decode wire).err = some e) :
    ∃ cause, e = "F1SetupRequest: " ++ cause ∧
      ∀ (pre post : List WireIE) (y : WireIE) (name : String) (c : Error),
        wireIEs wire = .ok (pre ++ y :: post) →
        (decodeIEs ⟨msg, [], []⟩ pre).2 = none →
        y.id ∉ pre.map WireIE.id →
        readError V y = some (name, c) →
        some cause = WrapError ("Read " ++ name) (some c) ∧
          cause = "Read " ++ name ++ " <<= " ++ c ∧
          (msg.Decode wire).msg = (decodeIEs ⟨msg, [], []⟩ pre).1.msg ∧
          (msg.Decode wire).decoder.diagList = (decodeIEs ⟨msg, [], []⟩ pre).1.diagList ∧
          keys (msg.Decode wire).decoder = y.id :: (pre.map WireIE.id).reverse := by
  rw [Decode_err] at h
  cases hb : (msg.decodeBody wire).err with
  | none => rw [hb] at h; simp at h
  | some cause =>
    rw [hb] at h
    simp only [Option.some.injEq] at h
    refine ⟨cause, h.symm, ?_⟩
    intro pre post y name c hw hpre hfresh hre
    have hk := keys_decodeIEs pre ⟨msg, [], []⟩ hpre
    have hy : y.id ∉ keys (decodeIEs ⟨msg, [], []⟩ pre).1 := by
      rw [hk]; simp only [keys, List.map_nil, List.append_nil, List.mem_reverse]; exact hfresh
    have hd := decodeBody_eq msg wire _ hw
    rw [decodeIEs_append] at hd
    cases h1 : decodeIEs ⟨msg, [], []⟩ pre with
    | mk d1 e1 =>
      rw [h1] at hpre hy hd hk
      simp only at hpre hy hk
      subst hpre
      simp only [decodeIEs, dispatch_readError d1 y name c hy hre, finish, WrapError] at hd
      rw [hd] at hb
      simp only [Option.some.injEq] at hb
      have hc2 : cause = "Read " ++ name ++ " <<= " ++ c := hb.symm
      have hc : some cause = WrapError ("Read " ++ name) (some c) := by rw [hc2]; rfl
      refine ⟨hc, hc2, ?_, ?_, ?_⟩
      · rw [Decode_msg, hd]
      · rw [Decode_decoder, hd]
      · rw [Decode_decoder, hd]
        simp only [keys, List.map_cons, List.map_nil, List.append_nil] at hk ⊢
        rw [hk]

set_option maxRecDepth 100000 in
/-- Witness of C18 on `wireLate`, decoded with the instance whose transaction-identifier
decoder refuses every value: the record 42 is stored, the value decoder of the record 78
fails, and the error is `F1SetupRequest: Read TransactionID <<= value refused`. -/
theorem C18_decode_error_context_witness :
    (refusingZero.Decode wireLate).err =
        some "F1SetupRequest: Read TransactionID <<= value refused" ∧
      wireIEs wireLate = .ok ([⟨42, 0, [1, 44]⟩] ++ ⟨78, 0, [0, 7]⟩ :: []) ∧
      readError refusingValues ⟨78, 0, [0, 7]⟩ = some ("TransactionID", "value refused") ∧
      (refusingZero.Decode wireLate).msg.GNBDUID = (300 : Nat) ∧
      keys (refusingZero.Decode wireLate).decoder = [78, 42] ∧
      ∃ cause, "F1SetupRequest: Read TransactionID <<= value refused" =
          "F1SetupRequest: " ++ cause ∧
        ∀ (pre post : List WireIE) (y : WireIE) (name : String) (c : Error),
          wireIEs wireLate = .ok (pre ++ y :: post) →
          (decodeIEs ⟨refusingZero, [], []⟩ pre).2 = none →
          y.id ∉ pre.map WireIE.id →
          readError refusingValues y = some (name, c) →
          some cause = WrapError ("Read " ++ name) (some c) ∧
            cause = "Read " ++ name ++ " <<= " ++ c ∧
            (refusingZero.Decode wireLate).msg =
              (decodeIEs ⟨refusingZero, [], []⟩ pre).1.msg ∧
            (refusingZero.Decode wireLate).decoder.diagList =
              (decodeIEs ⟨refusingZero, [], []⟩ pre).1.diagList ∧
            keys (refusingZero.Decode wireLate).decoder =
              y.id :: (pre.map WireIE.id).reverse :=
  ⟨by rfl, by rfl, by rfl, by rfl, by rfl,
    C18_decode_error_context refusingZero wireLate
      "F1SetupRequest: Read TransactionID <<= value refused" (by rfl)⟩

/-- C29. Envelope of the setup request. For every message `Encode` calls `encodeMessage`
with the PDU kind InitiatingMessage (1), the procedure code F1Setup (1) and the criticality
Reject (0), whatever the message holds (also when the served-cells list is empty). The body
is the extension bit and the sequence-of of the elements; when it is shorter than 16384
octets, the octets written are 0, 1, 0, the length of the body and the body, and reading
them back yields the clear extension bit, the choice index of the PDU kind, the procedure
code, the criticality and one open type that holds the body, with nothing after it. -/
theorem C29_envelope {V : IEValues} (msg : F1SetupRequest V) (body : List Nat)
    (hb : encodeBody msg.toIes.1 = .ok body) (hl : body.length < 16384) :
    (F1apPduInitiatingMessage = 1 ∧ ProcedureCode_F1Setup = 1 ∧
      Criticality_PresentReject = 0) ∧
    msg.Encode = encodeMessage F1apPduInitiatingMessage ProcedureCode_F1Setup
      Criticality_PresentReject msg.toIes.1 ∧
    encodeBody msg.toIes.1 =
      (match WriteSequenceOf F1apMessageIE.Encode msg.toIes.1 ⟨[false]⟩ ⟨0, POW_16 - 1⟩ false with
      | .error err => .error err
      | .ok cW2 => .ok cW2.Close) ∧
    msg.Encode = (none, [0, 1, 0] ++ (bitsToBytes (lengthBits body.length) ++ body)) ∧
    ∃ r1 r2 r3 r4 r5,
      (NewReader msg.Encode.2).ReadBool = .ok (false, r1) ∧
      r1.readConstraintValue 3 = .ok (F1apPduInitiatingMessage - 1, r2) ∧
      r2.ReadInteger ⟨0, 255⟩ false = .ok (ProcedureCode_F1Setup, r3) ∧
      Criticality.Decode r3 = .ok (⟨Criticality_PresentReject⟩, r4) ∧
      r4.ReadOpenType = .ok (body, r5) ∧ r5.bits = [] := by
  have hlt := encodeBody_lt _ _ hb
  have hne : msg.toIes.1.length ≠ 0 := by
    have := (toIes_length_pos msg).1
    omega
  have hE := Encode_eq msg
  have hout : msg.Encode = (none, [0, 1, 0] ++ (bitsToBytes (lengthBits body.length) ++ body)) := by
    rw [hE]; exact encodeMessage_ok _ body hne hb hlt hl
  obtain ⟨k, hk⟩ := lengthBits_length body.length
  have hbits : bytesToBits ([0, 1, 0] ++ (bitsToBytes (lengthBits body.length) ++ body)) =
      natToBits 1 0 ++ (natToBits 2 0 ++ (List.replicate (padLen 3) false ++
        (natToBits 8 1 ++ (natToBits 2 0 ++ (List.replicate (padLen 18) false ++
          (lengthBits body.length ++ (bytesToBits body ++ []))))))) := by
    rw [bytesToBits_append, bytesToBits_append, bytesToBits_bitsToBytes k _ hk,
      List.append_nil]
    rfl
  refine ⟨⟨rfl, rfl, rfl⟩, hE, rfl, hout,
    ⟨natToBits 2 0 ++ (List.replicate (padLen 3) false ++ (natToBits 8 1 ++ (natToBits 2 0 ++
      (List.replicate (padLen 18) false ++
        (lengthBits body.length ++ (bytesToBits body ++ [])))))), 0 + 1⟩,
    ⟨List.replicate (padLen 3) false ++ (natToBits 8 1 ++ (natToBits 2 0 ++
      (List.replicate (padLen 18) false ++
        (lengthBits body.length ++ (bytesToBits body ++ []))))), 0 + 1 + 2⟩,
    ⟨natToBits 2 0 ++ (List.replicate (padLen 18) false ++
        (lengthBits body.length ++ (bytesToBits body ++ []))), 3 + padLen 3 + 8⟩,
    ⟨List.replicate (padLen 18) false ++
        (lengthBits body.length ++ (bytesToBits body ++ [])), 16 + 2⟩,
    ⟨[], 18 + padLen 18 + (lengthBits body.length).length + 8 * body.length⟩,
    ?_, ?_, ?_, ?_, ?_, rfl⟩
  · rw [hout]
    simp only [NewReader, hbits]
    unfold AperReader.ReadBool
    rw [readBits_append 1 0 0]
    rfl
  · unfold AperReader.readConstraintValue
    simp only [show (3 : Nat) ≤ 255 by decide, if_true]
    have : numBits 3 = 2 := by decide
    rw [this]
    exact readBits_append 2 0 (0 + 1) _
  · unfold AperReader.ReadInteger AperReader.readConstraintValue
    simp only [Bool.false_eq_true, if_false]
    have hr : (⟨0, 255⟩ : Constraint).Range = 256 := by decide
    simp only [hr, show ¬ ((256 : Nat) ≤ 255) by decide, if_false, if_true]
    rw [show (0 + 1 + 2 : Nat) = 3 by rfl, align_append 3, readBits_append 8 1]
    rfl
  · unfold Criticality.Decode
    have := readEnumerate2_append 0 (by decide) 16
      (List.replicate (padLen 18) false ++ (lengthBits body.length ++ (bytesToBits body ++ [])))
    unfold AperReader.ReadEnumerate at this
    rw [show (3 + padLen 3 + 8 : Nat) = 16 by rfl, this]
    rfl
  · rw [show (16 + 2 : Nat) = 18 by rfl]
    exact readOpenType_append body hlt hl 18 []

set_option maxRecDepth 100000 in
/-- Witness of C29 on `demoMsg`, whose body is `wireValid` and whose encoding is
`demoPdu`; the zero message, whose served-cells list is empty, is written with the same
three header octets. -/
theorem C29_envelope_witness :
    demoMsg.Encode = (none, demoPdu) ∧ demoZero.Encode = (none, demoZeroPdu) ∧
      demoPdu.take 3 = [0, 1, 0] ∧ demoZeroPdu.take 3 = [0, 1, 0] ∧
      ((F1apPduInitiatingMessage = 1 ∧ ProcedureCode_F1Setup = 1 ∧
        Criticality_PresentReject = 0) ∧
      demoMsg.Encode = encodeMessage F1apPduInitiatingMessage ProcedureCode_F1Setup
        Criticality_PresentReject demoMsg.toIes.1 ∧
      encodeBody demoMsg.toIes.1 =
        (match WriteSequenceOf F1apMessageIE.Encode demoMsg.toIes.1 ⟨[false]⟩
            ⟨0, POW_16 - 1⟩ false with
        | .error err => .error err
        | .ok cW2 => .ok cW2.Close) ∧
      demoMsg.Encode =
        (none, [0, 1, 0] ++ (bitsToBytes (lengthBits wireValid.length) ++ wireValid)) ∧
      ∃ r1 r2 r3 r4 r5,
        (NewReader demoMsg.Encode.2).ReadBool = .ok (false, r1) ∧
        r1.readConstraintValue 3 = .ok (F1apPduInitiatingMessage - 1, r2) ∧
        r2.ReadInteger ⟨0, 255⟩ false = .ok (ProcedureCode_F1Setup, r3) ∧
        Criticality.Decode r3 = .ok (⟨Criticality_PresentReject⟩, r4) ∧
        r4.ReadOpenType = .ok (wireValid, r5) ∧ r5.bits = []) :=
  ⟨by rfl, by rfl, by rfl, by rfl, C29_envelope demoMsg wireValid (by rfl) (by decide)⟩

end F1ap
